import Mathlib

/-!
# StarSwipe key custody: a shallow embedding of the backend services

Sources embedded here:
* `StarSwipeBackend/src/utils/encryption.js` (the share cipher),
* `StarSwipeBackend/src/services/shamir.service.js` (the key custody manager),
* `StarSwipeBackend/src/routes/transaction.routes.js` (steps 4 to 10 of the payment
  handler and its `catch`),
* `StarSwipeBackend/src/services/card.service.js` (`processCardTransaction`),
* `StarSwipeBackend/src/services/stellar.service.js` (`callSorobanRpc`,
  `assembleAndSignTransaction`, `submitTransaction`, `pollTransactionStatus`,
  `processTransaction`),
* `StarSwipeBackend/tests/min.js` (the fee of the manual assembly),
* `StarSwipeFrontend/src/components/CardSuccessModal.jsx` (`encodeCompact`, its helper
  functions and the decoding it documents).

The libraries those files call (`crypto`, `zlib`, `shamirs-secret-sharing`,
`@stellar/stellar-sdk`) are not part of the repository.  They enter the
embedding as the fields of `Platform`; what a theorem needs of them is a named
hypothesis (`Platform.CipherRoundTrip`, `Platform.ZlibRoundTrip`,
`Platform.ThresholdRecombines`, `Platform.Pbkdf2Length`).  Random values are explicit
inputs (`Entropy`), and so is the process environment (`ProcessEnv`).  `refPlatform` is
a small executable instance of `Platform` on which the services are run on concrete
inputs; its splitter is the one spec section 4.2 describes.  The collaborators of the
payment code are a `PaymentWorld`, the Soroban endpoint an `RpcEndpoint` and the
transaction functions of the SDK a `TxSdk`.  Where a claim is about what a buffer holds
when a function is left, the function is run once more with its memory
(`reconstructKeyMemory`, `generateAndSplitKeyMemory`) and shown to give the same result.
-/

set_option maxRecDepth 1000000

namespace StarSwipe

/-! ## Buffers and the `hex` encoding of Node's `Buffer` -/

/-- One element of a Node `Buffer`. -/
abbrev Byte := Fin 256

/-- Node `Buffer`: a sequence of bytes. -/
abbrev Buffer := List Byte

/-- The byte with value `n % 256` (what a store into a `Buffer` keeps). -/
def byteOfNat (n : Nat) : Byte := ⟨n % 256, Nat.mod_lt n (by decide)⟩

/-- Lower-case hexadecimal digit of a value below 16. -/
def hexDigit (n : Nat) : Char :=
  if n < 10 then Char.ofNat (48 + n) else Char.ofNat (87 + n)

/-- Value of a hexadecimal digit, upper or lower case; `none` for any other character. -/
def hexVal (c : Char) : Option Nat :=
  if 48 ≤ c.toNat ∧ c.toNat ≤ 57 then some (c.toNat - 48)
  else if 97 ≤ c.toNat ∧ c.toNat ≤ 102 then some (c.toNat - 87)
  else if 65 ≤ c.toNat ∧ c.toNat ≤ 70 then some (c.toNat - 55)
  else none

/-- Characters of `buf.toString('hex')`: two lower-case digits per byte. -/
def toHexChars : Buffer → List Char
  | [] => []
  | b :: bs => hexDigit (b.val / 16) :: hexDigit (b.val % 16) :: toHexChars bs

/-- Bytes of `Buffer.from(chars, 'hex')`: pairs of digits are decoded from the left and
decoding stops at the first pair that is not two hexadecimal digits; a single trailing
character is dropped. -/
def fromHexChars : List Char → Buffer
  | c1 :: c2 :: cs =>
    match hexVal c1, hexVal c2 with
    | some h, some l => byteOfNat (16 * h + l) :: fromHexChars cs
    | _, _ => []
  | _ => []

/-- `buf.toString('hex')`. -/
def toHex (buf : Buffer) : String := String.mk (toHexChars buf)

/-- `Buffer.from(s, 'hex')`. -/
def fromHex (s : String) : Buffer := fromHexChars s.data

/-- The loop `for (i < buf.length) out[i] = buf[i] ^ key[i]` over a fresh
`Buffer.alloc(buf.length)`; reading `key[i]` past the end of `key` gives `undefined`,
which `^` treats as 0. -/
def xorLoopFrom (key : Buffer) : Nat → Buffer → Buffer
  | _, [] => []
  | i, b :: bs => byteOfNat (b.val ^^^ (key.getD i 0).val) :: xorLoopFrom key (i + 1) bs

/-- The XOR loop of `generateAndSplitKey` and `reconstructKey`, from index 0. -/
def xorLoop (buf key : Buffer) : Buffer := xorLoopFrom key 0 buf


/-! ## The libraries the services call -/

/-- The calls into `crypto`, `zlib`, `shamirs-secret-sharing` and `@stellar/stellar-sdk`
made by the embedded sources.  A call that throws returns `none` (or `false`). -/
structure Platform where
  /-- `crypto.createCipheriv('aes-256-gcm', key, iv)` followed by
  `update(text, 'utf8')`, `final()` and `getAuthTag()`: ciphertext bytes and tag.  The
  text is a string of Unicode characters (a JavaScript string without unpaired
  surrogates). -/
  cipher : Buffer → Buffer → String → Buffer × Buffer
  /-- `crypto.createDecipheriv('aes-256-gcm', key, iv)` and `setAuthTag(tag)` accept
  their arguments. -/
  decipherInit : Buffer → Buffer → Buffer → Bool
  /-- `decipher.update(ciphertext, 'hex', 'utf8')` for key and iv: the text released
  before the tag is checked. -/
  decipherUpdate : Buffer → Buffer → Buffer → String
  /-- `decipher.final('utf8')` for key, iv, tag and ciphertext: `none` when the tag does
  not verify (the call throws), else the remaining text. -/
  decipherFinal : Buffer → Buffer → Buffer → Buffer → Option String
  /-- `crypto.createHash('sha256').update(data).digest('hex')`. -/
  sha256Hex : String → String
  /-- `crypto.pbkdf2Sync(password, salt, iterations, keylen, digest)`. -/
  pbkdf2Sync : String → Buffer → Nat → Nat → String → Buffer
  /-- `zlib.deflateSync(buf)`. -/
  deflateSync : Buffer → Buffer
  /-- `zlib.inflateSync(buf)`; `none` when it throws. -/
  inflateSync : Buffer → Option Buffer
  /-- `shamir.split(secret, {shares, threshold})` with the random bytes it draws;
  `none` when it throws. -/
  split : Buffer → Int → Int → List Byte → Option (List Buffer)
  /-- `shamir.combine(shares)`; `none` when it throws. -/
  combine : List Buffer → Option Buffer
  /-- `StellarSdk.Keypair.fromRawEd25519Seed(seed).publicKey()`; `none` when the seed
  is rejected. -/
  fromRawEd25519Seed : Buffer → Option String

/-! ## `utils/encryption.js` -/

/-- The part of `process.env` the sources read.  The two share parameters are held as
the result of `parseInt` on the variable: `none` is `NaN` (variable unset or not a
number). -/
structure ProcessEnv where
  ENCRYPTION_KEY : Option String
  SSS_TOTAL_SHARES : Option Int
  SSS_THRESHOLD : Option Int

/-- Message of the error thrown at module load for a key of the wrong length. -/
def keyLengthMessage : String := "ENCRYPTION_KEY must be 32 bytes (64 hex characters)"

/-- Message of the `TypeError` of `Buffer.from(undefined, 'hex')`. -/
def bufferFromTypeError : String :=
  "The first argument must be of type string or an instance of Buffer, ArrayBuffer, or Array or an Array-like Object. Received undefined"

/-- Top level of `encryption.js` (lines 3-8): the module-level constant
`ENCRYPTION_KEY`, or the error that aborts loading the module. -/
def loadEncryptionKey (env : ProcessEnv) : Except String Buffer :=
  match env.ENCRYPTION_KEY with
  | none => .error bufferFromTypeError
  | some s =>
    let ENCRYPTION_KEY := fromHex s
    if ENCRYPTION_KEY.length ≠ 32 then .error keyLengthMessage
    else .ok ENCRYPTION_KEY

/-- Result of `encrypt`: the three hex strings stored for share 1. -/
structure EncryptedShare where
  encrypted : String
  iv : String
  authTag : String
deriving DecidableEq, Repr

/-- Function `encrypt(text)` of `encryption.js`; `iv` is the value of
`crypto.randomBytes(16)` drawn by the call. -/
def encrypt (P : Platform) (ENCRYPTION_KEY : Buffer) (iv : Buffer) (text : String) :
    EncryptedShare :=
  let sealed := P.cipher ENCRYPTION_KEY iv text
  let encrypted := toHex sealed.1
  let authTag := sealed.2
  { encrypted := encrypted, iv := toHex iv, authTag := toHex authTag }

/-- Message of the error `decipher.final` throws when the tag does not verify. -/
def authFailedMessage : String := "Unsupported state or unable to authenticate data"

/-- Message standing for the errors of `createDecipheriv` and `setAuthTag`. -/
def decipherInitMessage : String := "Invalid initialization vector or authentication tag"

/-- Function `decrypt(encrypted, iv, authTag)` of `encryption.js`. -/
def decrypt (P : Platform) (ENCRYPTION_KEY : Buffer) (encrypted iv authTag : String) :
    Except String String :=
  if P.decipherInit ENCRYPTION_KEY (fromHex iv) (fromHex authTag) = false then
    .error decipherInitMessage
  else
    let decrypted := P.decipherUpdate ENCRYPTION_KEY (fromHex iv) (fromHex encrypted)
    match P.decipherFinal ENCRYPTION_KEY (fromHex iv) (fromHex authTag) (fromHex encrypted) with
    | none => .error authFailedMessage
    | some rest => .ok (decrypted ++ rest)

/-- Function `hash(data)` of `encryption.js`. -/
def hash (P : Platform) (data : String) : String := P.sha256Hex data

/-- Function `generateSalt(length = 16)` of `encryption.js`; `random` is the value of
`crypto.randomBytes(length)`. -/
def generateSalt (random : Buffer) : String := toHex random

/-- Iteration count passed to `pbkdf2Sync` by `deriveKeyFromPIN`. -/
def pbkdf2Iterations : Nat := 100000

/-- Function `deriveKeyFromPIN(pin, salt, length = 32)` of `encryption.js`; `none` for
`length` is an omitted argument. -/
def deriveKeyFromPIN (P : Platform) (pin : String) (salt : String)
    (length : Option Nat) : Buffer :=
  P.pbkdf2Sync pin (fromHex salt) pbkdf2Iterations (length.getD 32) "sha256"

/-! ## `services/shamir.service.js` -/

/-- JavaScript `v || d` for a number that may be `NaN` (`none`): `NaN` and 0 are falsy. -/
def orElse (v : Option Int) (d : Int) : Int :=
  match v with
  | none => d
  | some n => if n = 0 then d else n

/-- The `shares` option passed to `shamir.split`:
`parseInt(process.env.SSS_TOTAL_SHARES) || 3`. -/
def totalShares (env : ProcessEnv) : Int := orElse env.SSS_TOTAL_SHARES 3

/-- The `threshold` option passed to `shamir.split`:
`parseInt(process.env.SSS_THRESHOLD) || 2`. -/
def threshold (env : ProcessEnv) : Int := orElse env.SSS_THRESHOLD 2

/-- The random values one call of `generateAndSplitKey` draws. -/
structure Entropy where
  /-- Seed of `StellarSdk.Keypair.random()`, returned by `rawSecretKey()`. -/
  seed : Buffer
  /-- Random bytes drawn inside `shamir.split`. -/
  splitRandom : List Byte
  /-- The `crypto.randomBytes(16)` of `encrypt`. -/
  iv : Buffer
  /-- The `crypto.randomBytes(16)` of `generateSalt(16)`. -/
  salt : Buffer

/-- Object returned by `generateAndSplitKey`. -/
structure KeyBundle where
  cardPublicKey : String
  share1Encrypted : String
  share1Iv : String
  share1AuthTag : String
  share1Hash : String
  share2 : String
  share3Salt : String
  share3Encrypted : String
  share3Length : Nat
deriving DecidableEq, Repr

/-- Message of the only error `generateAndSplitKey` throws. -/
def generateError : String := "Failed to generate SSS shares"

/-- Message of the only error `reconstructKey` throws. -/
def reconstructError : String :=
  "Failed to reconstruct key - invalid PIN or corrupted shares"

/-- Message thrown inside `reconstructKey` for a key that is not 32 bytes long. -/
def invalidLengthMessage (n : Nat) : String :=
  "Invalid reconstructed key length: " ++ toString n

/-- Step 7 of `generateAndSplitKey` (lines 49-57): the salt string, and share 3 XORed
with the PIN-derived key of `share3.length` bytes. -/
def maskShare3 (P : Platform) (pin : String) (saltBytes : Buffer) (share3 : Buffer) :
    String × Buffer :=
  let salt := generateSalt saltBytes
  let pinKey := deriveKeyFromPIN P pin salt (some share3.length)
  let share3Encrypted := xorLoop share3 pinKey
  (salt, share3Encrypted)

/-- Body of the `try` block of `generateAndSplitKey` (lines 16-78). `pin` is the value
of `pin.toString()`. -/
def generateAndSplitKeyBody (P : Platform) (env : ProcessEnv) (ENCRYPTION_KEY : Buffer)
    (rnd : Entropy) (pin : String) : Except String KeyBundle :=
  match P.fromRawEd25519Seed rnd.seed with
  | none => .error "Keypair.random failed"
  | some cardPublicKey =>
    let privateKey := rnd.seed
    match P.split privateKey (totalShares env) (threshold env) rnd.splitRandom with
    | none => .error "shamir.split failed"
    | some (share1 :: share2 :: share3 :: _) =>
      let share1Encrypted := encrypt P ENCRYPTION_KEY rnd.iv (toHex share1)
      let share1Hash := hash P (toHex share1)
      let share2Compressed := P.deflateSync share2
      let share2Hex := toHex share2Compressed
      let masked := maskShare3 P pin rnd.salt share3
      .ok { cardPublicKey := cardPublicKey
            share1Encrypted := share1Encrypted.encrypted
            share1Iv := share1Encrypted.iv
            share1AuthTag := share1Encrypted.authTag
            share1Hash := share1Hash
            share2 := share2Hex
            share3Salt := masked.1
            share3Encrypted := toHex masked.2
            share3Length := share3.length }
    | some _ => .error "Cannot read properties of undefined"

/-- Method `ShamirService.generateAndSplitKey(pin)`: every error of the body is caught
and replaced by one error. -/
def generateAndSplitKey (P : Platform) (env : ProcessEnv) (ENCRYPTION_KEY : Buffer)
    (rnd : Entropy) (pin : String) : Except String KeyBundle :=
  match generateAndSplitKeyBody P env ENCRYPTION_KEY rnd pin with
  | .ok bundle => .ok bundle
  | .error _ => .error generateError

/-- The keystream length of `reconstructKey` (line 108):
`share3Length || share3EncryptedBuf.length`; `none` is `undefined` or `null`. -/
def keyLength (share3Length : Option Nat) (bufLength : Nat) : Nat :=
  match share3Length with
  | none => bufLength
  | some n => if n = 0 then bufLength else n

/-- Step 3 of `reconstructKey` (lines 106-115): the share 3 handed to `combine`. -/
def unmaskShare3 (P : Platform) (pin : String) (share3Salt : String)
    (share3Encrypted : String) (share3Length : Option Nat) : Buffer :=
  let share3EncryptedBuf := fromHex share3Encrypted
  let keyLength := keyLength share3Length share3EncryptedBuf.length
  let pinKey := deriveKeyFromPIN P pin share3Salt (some keyLength)
  xorLoop share3EncryptedBuf pinKey

/-- Body of the `try` block of `reconstructKey` (lines 90-134). -/
def reconstructKeyBody (P : Platform) (ENCRYPTION_KEY : Buffer) (share1Data : EncryptedShare)
    (share2Hex : String) (pin : String) (share3Salt : String) (share3Encrypted : String)
    (share3Length : Option Nat) : Except String Buffer :=
  match decrypt P ENCRYPTION_KEY share1Data.encrypted share1Data.iv share1Data.authTag with
  | .error e => .error e
  | .ok share1Decrypted =>
    let share1 := fromHex share1Decrypted
    let share2Compressed := fromHex share2Hex
    match P.inflateSync share2Compressed with
    | none => .error "inflateSync failed"
    | some share2 =>
      let share3 := unmaskShare3 P pin share3Salt share3Encrypted share3Length
      match P.combine [share1, share2, share3] with
      | none => .error "shamir.combine failed"
      | some reconstructed =>
        let privateKey := reconstructed
        if privateKey.length ≠ 32 then .error (invalidLengthMessage privateKey.length)
        else .ok privateKey

/-- Method `ShamirService.reconstructKey`: every error of the body is caught and
replaced by one error. -/
def reconstructKey (P : Platform) (ENCRYPTION_KEY : Buffer) (share1Data : EncryptedShare)
    (share2Hex : String) (pin : String) (share3Salt : String) (share3Encrypted : String)
    (share3Length : Option Nat) : Except String Buffer :=
  match reconstructKeyBody P ENCRYPTION_KEY share1Data share2Hex pin share3Salt
      share3Encrypted share3Length with
  | .ok privateKey => .ok privateKey
  | .error _ => .error reconstructError

/-- Method `ShamirService.verifyKey(privateKeyBuffer, expectedAddress)`. -/
def verifyKey (P : Platform) (privateKeyBuffer : Buffer) (expectedAddress : String) : Bool :=
  match P.fromRawEd25519Seed privateKeyBuffer with
  | some publicKey => publicKey == expectedAddress
  | none => false

/-! ## `routes/transaction.routes.js`: steps 4 and 5 of `POST /process` -/

/-- What steps 4 and 5 of the handler (lines 61-84 and the `catch` of lines 154-166)
lead to: a response that ends the request, or the verified key the handler goes on with. -/
inductive AuthOutcome where
  | rejected (status : Nat) (error : String)
  | verified (privateKey : Buffer)
deriving DecidableEq, Repr

/-- Steps 4 and 5 of `POST /process` on the card row `card` (the stored fields of the
bundle, `card.share3_length` included), the device share and the PIN of the request:
`reconstructKey` then `verifyKey`. -/
def reconstructAndVerify (P : Platform) (ENCRYPTION_KEY : Buffer) (card : KeyBundle)
    (share2 : String) (pin : String) : AuthOutcome :=
  match reconstructKey P ENCRYPTION_KEY
      { encrypted := card.share1Encrypted, iv := card.share1Iv, authTag := card.share1AuthTag }
      share2 pin card.share3Salt card.share3Encrypted (some card.share3Length) with
  | .error message => .rejected 500 message
  | .ok privateKey =>
    let isValid := verifyKey P privateKey card.cardPublicKey
    if isValid = false then .rejected 401 "Invalid PIN or corrupted shares"
    else .verified privateKey


/-! ## The threshold splitter of spec section 4.2 -/

/-- Modelled from the spec: the finite field of the ThresholdSplitter (the package
`shamirs-secret-sharing` is not under src/).  Multiplication by `x` in GF(2^8), bytes
read as polynomials over GF(2) modulo `x^8 + x^4 + x^3 + x^2 + 1`. -/
def xtime (a : Nat) : Nat := ((2 * a) % 256) ^^^ (if (a / 128) % 2 = 1 then 29 else 0)

/-- Modelled from the spec: shift-and-add product in GF(2^8), `k` bits of `c` used. -/
def gfMulAux : Nat → Nat → Nat → Nat
  | 0, _, _ => 0
  | k + 1, c, y => (if c % 2 = 1 then y else 0) ^^^ gfMulAux k (c / 2) (xtime y)

/-- Modelled from the spec: product of two field elements of GF(2^8). -/
def gfMul (c y : Nat) : Nat := gfMulAux 8 c y

/-- Modelled from the spec: inverse in GF(2^8) as the 254th power (0 for 0). -/
def gfInv (a : Nat) : Nat :=
  let a2 := gfMul a a
  let a4 := gfMul a2 a2
  let a8 := gfMul a4 a4
  let a16 := gfMul a8 a8
  let a32 := gfMul a16 a16
  let a64 := gfMul a32 a32
  let a128 := gfMul a64 a64
  gfMul a128 (gfMul a64 (gfMul a32 (gfMul a16 (gfMul a8 (gfMul a4 a2)))))

/-- Modelled from the spec: quotient in GF(2^8). -/
def gfDiv (a b : Nat) : Nat := gfMul (gfInv b) a

/-- Modelled from the spec: value at `x` of the polynomial with the given coefficients,
constant term first (Horner). -/
def evalPoly (coeffs : List Nat) (x : Nat) : Nat :=
  coeffs.foldr (fun c acc => c ^^^ gfMul x acc) 0

/-- Modelled from the spec: value at 0 of the Lagrange basis polynomial of the point
`xi` among the points `xs`. -/
def lagrangeBasis (xs : List Nat) (xi : Nat) : Nat :=
  xs.foldr (fun xj acc => if xj = xi then acc else gfMul (gfDiv xj (xi ^^^ xj)) acc) 1

/-- Modelled from the spec: value at 0 of the polynomial interpolating the points
`(x, y)` (polynomial interpolation over a finite field, spec 4.2). -/
def lagrangeZero (points : List (Nat × Nat)) : Nat :=
  points.foldr (fun p acc => gfMul (lagrangeBasis (points.map Prod.fst) p.1) p.2 ^^^ acc) 0

/-- Modelled from the spec: the values of one share at `x`: for each byte of the secret
a polynomial of degree `t - 1` with that byte as constant term and the next `t - 1`
random bytes as the other coefficients. -/
def shareValues (t : Nat) (x : Nat) : Buffer → List Byte → Buffer
  | [], _ => []
  | s :: ss, rnd =>
    byteOfNat (evalPoly (s.val :: (rnd.take (t - 1)).map Fin.val) x)
      :: shareValues t x ss (rnd.drop (t - 1))

/-- Modelled from the spec: `split(secret, n, threshold)` of the ThresholdSplitter
(spec 4.2; the package `shamirs-secret-sharing` is not under src/): share `j` of `n` is
its index `j` followed by the values at `j` of the secret's polynomials. -/
def shamirSplit (secret : Buffer) (n threshold : Int) (rnd : List Byte) :
    Option (List Buffer) :=
  if 0 < threshold ∧ threshold ≤ n ∧ n ≤ 255 then
    some ((List.range n.toNat).map fun j =>
      byteOfNat (j + 1) :: shareValues threshold.toNat (j + 1) secret rnd)
  else none

/-- Modelled from the spec: `combine(shares)` of the ThresholdSplitter (spec 4.2; the
package `shamirs-secret-sharing` is not under src/): interpolation at 0, byte by byte,
through the points the shares give; it does not check that the result is the secret.
It fails for an empty list, a share without index and for two shares of one index. -/
def shamirCombine (shares : List Buffer) : Option Buffer :=
  match shares with
  | [] => none
  | first :: _ =>
    if shares.all (fun s => !s.isEmpty) ∧ (shares.map fun s => (s.headD 0).val).Nodup then
      some ((List.range (first.length - 1)).map fun k =>
        byteOfNat (lagrangeZero (shares.map fun s => ((s.headD 0).val, (s.getD (k + 1) 0).val))))
    else none

/-! ## A reference platform

An executable instance of `Platform`, used to run the services on concrete inputs.  Its
cipher, key derivation, compression and key pairs are small stand-ins with the interface
of the real libraries; its splitter is the one of spec section 4.2 above. -/

/-- Three bytes per character: the code point, most significant byte first. -/
def textToBytes (text : String) : Buffer :=
  text.data.flatMap fun c =>
    [byteOfNat (c.toNat / 65536), byteOfNat (c.toNat / 256), byteOfNat c.toNat]

/-- Inverse of `textToBytes` on groups of three bytes. -/
def bytesToChars : Buffer → List Char
  | a :: b :: c :: rest => Char.ofNat (65536 * a.val + 256 * b.val + c.val) :: bytesToChars rest
  | _ => []

/-- One pad byte from key and iv. -/
def refPad (key iv : Buffer) : Byte :=
  (key ++ iv).foldl (fun acc b => byteOfNat (acc.val ^^^ b.val)) 0

/-- XOR of every byte with the pad byte. -/
def refStream (pad : Byte) (data : Buffer) : Buffer :=
  data.map fun b => byteOfNat (b.val ^^^ pad.val)

/-- A 16-byte tag over key, iv and ciphertext. -/
def refTag (key iv ct : Buffer) : Buffer :=
  List.replicate 16 ((key ++ iv ++ ct).foldl (fun acc b => byteOfNat (31 * acc.val + b.val + 7)) 0)

/-- Key derivation stand-in: bytes made from the password (padded with zero bytes to the
64-byte block, as HMAC pads its key), the salt, the iteration count and the position. -/
def refPbkdf2 (password : String) (salt : Buffer) (iterations keylen : Nat)
    (_digest : String) : Buffer :=
  let padded := (password.data.map fun c => c.toNat) ++ List.replicate (64 - password.length) 0
  let mix := padded.foldl (fun acc v => 33 * acc + v) 5381
  let saltMix := salt.foldl (fun acc b => 7 * acc + b.val) 1
  (List.range keylen).map fun i => byteOfNat (mix + saltMix + iterations + 13 * i)

/-- Compression stand-in: a two-byte header before the stored data. -/
def refDeflate (buf : Buffer) : Buffer := 120 :: 156 :: buf

/-- Inverse of `refDeflate`; fails on data without the header. -/
def refInflate : Buffer → Option Buffer
  | a :: b :: rest => if a = 120 ∧ b = 156 then some rest else none
  | _ => none

/-- Key pair stand-in: a seed of 32 bytes has the address `G` followed by its hex
digits; any other seed is rejected. -/
def refPublicKey (seed : Buffer) : Option String :=
  if seed.length = 32 then some ("G" ++ toHex seed) else none

/-- The reference platform. -/
def refPlatform : Platform where
  cipher := fun key iv text =>
    let ct := refStream (refPad key iv) (textToBytes text)
    (ct, refTag key iv ct)
  decipherInit := fun key iv tag => key.length == 32 && !iv.isEmpty && tag.length == 16
  decipherUpdate := fun key iv ct => String.mk (bytesToChars (refStream (refPad key iv) ct))
  decipherFinal := fun key iv tag ct => if tag = refTag key iv ct then some "" else none
  sha256Hex := fun data => toHex (refTag [] [] (textToBytes data))
  pbkdf2Sync := refPbkdf2
  deflateSync := refDeflate
  inflateSync := refInflate
  split := shamirSplit
  combine := shamirCombine
  fromRawEd25519Seed := refPublicKey

/-- A 32-byte master key: bytes 1 to 32. -/
def sampleKey : Buffer := (List.range 32).map fun i => byteOfNat (i + 1)

/-- A process environment with a valid master key and no share parameters set. -/
def sampleEnv : ProcessEnv :=
  { ENCRYPTION_KEY := some (toHex sampleKey), SSS_TOTAL_SHARES := none, SSS_THRESHOLD := none }

/-- One draw of random values: a 32-byte seed, split bytes, a 16-byte iv and salt. -/
def sampleEntropy : Entropy :=
  { seed := (List.range 32).map fun i => byteOfNat (7 * i + 3)
    splitRandom := (List.range 96).map fun i => byteOfNat (11 * i + 5)
    iv := (List.range 16).map fun i => byteOfNat (3 * i + 1)
    salt := (List.range 16).map fun i => byteOfNat (5 * i + 2) }


/-! ## What the theorems assume of the libraries -/

/-- AES-256-GCM decrypts what it encrypted: for a 32-byte key and a 16-byte iv the
decipher accepts the tag of the cipher and releases the text that was encrypted. -/
def Platform.CipherRoundTrip (P : Platform) : Prop :=
  ∀ (key iv : Buffer) (text : String), key.length = 32 → iv.length = 16 →
    P.decipherInit key iv (P.cipher key iv text).2 = true ∧
    ∃ rest, P.decipherFinal key iv (P.cipher key iv text).2 (P.cipher key iv text).1 = some rest ∧
      P.decipherUpdate key iv (P.cipher key iv text).1 ++ rest = text

/-- Property of zlib: `inflateSync` undoes `deflateSync`. -/
def Platform.ZlibRoundTrip (P : Platform) : Prop :=
  ∀ buf : Buffer, P.inflateSync (P.deflateSync buf) = some buf

/-- Property of the splitter: the first three shares of a split with threshold at most 3
recombine to the secret. -/
def Platform.ThresholdRecombines (P : Platform) : Prop :=
  ∀ (secret : Buffer) (n t : Int) (rnd : List Byte) (s1 s2 s3 : Buffer) (rest : List Buffer),
    P.split secret n t rnd = some (s1 :: s2 :: s3 :: rest) → t ≤ 3 →
    P.combine [s1, s2, s3] = some secret

/-- Property of PBKDF2: `pbkdf2Sync` returns `keylen` bytes. -/
def Platform.Pbkdf2Length (P : Platform) : Prop :=
  ∀ (password : String) (salt : Buffer) (iterations keylen : Nat) (digest : String),
    (P.pbkdf2Sync password salt iterations keylen digest).length = keylen

/-- Equality of results is decidable when it is for errors and values. -/
instance instDecidableEqExcept {ε α : Type} [DecidableEq ε] [DecidableEq α] :
    DecidableEq (Except ε α)
  | .ok a, .ok b =>
    if h : a = b then isTrue (by rw [h]) else isFalse (fun h2 => h (Except.ok.inj h2))
  | .error a, .error b =>
    if h : a = b then isTrue (by rw [h]) else isFalse (fun h2 => h (Except.error.inj h2))
  | .ok _, .error _ => isFalse (fun h => nomatch h)
  | .error _, .ok _ => isFalse (fun h => nomatch h)

/-- The bundle `generateAndSplitKey` returns on the reference platform for `sampleEnv`,
`sampleKey`, `sampleEntropy` and PIN 1234. -/
def sampleBundle : KeyBundle :=
  { cardPublicKey := "G030a11181f262d343b424950575e656c737a81888f969da4abb2b9c0c7ced5dc"
    share1Encrypted := "000030000031000030000036000031000061000030000061000033000065000032000065000031000061000036000061000036000036000036000036000032000061000033000061000032000065000064000065000063000061000066000061000063000036000063000036000062000061000034000061000035000065000036000065000037000061000036000061000061000036000061000036000061000061000039000061000065000065000066000065000038000061000039000061000038000036"
    share1Iv := "0104070a0d101316191c1f2225282b2e"
    share1AuthTag := "40404040404040404040404040404040"
    share1Hash := "18181818181818181818181818181818"
    share2 := "789c02092a27547d5ea3908192afac586b462504e70a3950536ea0b182ff9cb5464b68"
    share3Salt := "02070c11161b20252a2f34393e43484d"
    share3Encrypted := "dbe9c8c37e5544d78291a0bba65071422704e50e3358499ab2a1b0ebf6dd5c6f4a"
    share3Length := 33 }

/-! ## `tests/test-sss.js` -/

/-- Steps 1 to 3 of `testSSS` (lines 8-33) for a PIN: generate, reconstruct with the
returned bundle and the same PIN, verify.  The value is `valid`; an error is what the
test's `catch` receives. -/
def testSSS (P : Platform) (env : ProcessEnv) (ENCRYPTION_KEY : Buffer) (rnd : Entropy)
    (pin : String) : Except String Bool :=
  match generateAndSplitKey P env ENCRYPTION_KEY rnd pin with
  | .error e => .error e
  | .ok result =>
    match reconstructKey P ENCRYPTION_KEY
        { encrypted := result.share1Encrypted, iv := result.share1Iv,
          authTag := result.share1AuthTag }
        result.share2 pin result.share3Salt result.share3Encrypted
        (some result.share3Length) with
    | .error e => .error e
    | .ok key =>
      let valid := verifyKey P key result.cardPublicKey
      .ok valid

/-- The sample environment with `SSS_TOTAL_SHARES=5` and `SSS_THRESHOLD=4`. -/
def fourOfFiveEnv : ProcessEnv :=
  { ENCRYPTION_KEY := some (toHex sampleKey), SSS_TOTAL_SHARES := some 5,
    SSS_THRESHOLD := some 4 }

/-- The sample environment with two characters that are not hexadecimal digits after
the 64 digits of the key. -/
def trailingEnv : ProcessEnv :=
  { ENCRYPTION_KEY := some (toHex sampleKey ++ "zz"), SSS_TOTAL_SHARES := none,
    SSS_THRESHOLD := none }

/-- Share 1 of the sample bundle as `reconstructKey` receives it. -/
def sampleShare1 : EncryptedShare :=
  { encrypted := sampleBundle.share1Encrypted, iv := sampleBundle.share1Iv,
    authTag := sampleBundle.share1AuthTag }

/-! ## Memory of the key custody manager

The services overwrite buffers with `fill(0)`.  The definitions of this section run the
steps of `reconstructKey` and `generateAndSplitKey` once more and give, next to the
result, the content of every `Buffer` the call allocated at the moment control leaves
the function. -/

/-- `buf.fill(0)`: the same length, every byte 0. -/
def zeroFill (buf : Buffer) : Buffer := buf.map fun _ => 0

/-- A buffer holds no data: it was not allocated, or all its bytes are 0. -/
def isWiped (buf : Option Buffer) : Bool :=
  match buf with
  | none => true
  | some b => b.all fun x => x == 0

/-- The buffers `reconstructKey` allocates, by the name of the local that holds them;
`none` for a buffer the call did not get to allocate. -/
structure ReconstructMemory where
  share1 : Option Buffer := none
  share2Compressed : Option Buffer := none
  share2 : Option Buffer := none
  share3EncryptedBuf : Option Buffer := none
  pinKey : Option Buffer := none
  share3 : Option Buffer := none
  reconstructed : Option Buffer := none
  privateKey : Option Buffer := none
deriving DecidableEq, Repr

/-- Method `ShamirService.reconstructKey` (lines 88-139) with the memory it leaves.  The
four `fill(0)` of lines 129-132 come after the length check, inside the `try`; the
`catch` of lines 135-138 logs and throws and fills nothing. -/
def reconstructKeyMemory (P : Platform) (ENCRYPTION_KEY : Buffer) (share1Data : EncryptedShare)
    (share2Hex : String) (pin : String) (share3Salt : String) (share3Encrypted : String)
    (share3Length : Option Nat) : Except String Buffer × ReconstructMemory :=
  match decrypt P ENCRYPTION_KEY share1Data.encrypted share1Data.iv share1Data.authTag with
  | .error _ => (.error reconstructError, {})
  | .ok share1Decrypted =>
    let share1 := fromHex share1Decrypted
    let share2Compressed := fromHex share2Hex
    match P.inflateSync share2Compressed with
    | none =>
      (.error reconstructError,
        { share1 := some share1, share2Compressed := some share2Compressed })
    | some share2 =>
      let share3EncryptedBuf := fromHex share3Encrypted
      let keyLength := keyLength share3Length share3EncryptedBuf.length
      let pinKey := deriveKeyFromPIN P pin share3Salt (some keyLength)
      let share3 := xorLoop share3EncryptedBuf pinKey
      let held : ReconstructMemory :=
        { share1 := some share1, share2Compressed := some share2Compressed,
          share2 := some share2, share3EncryptedBuf := some share3EncryptedBuf,
          pinKey := some pinKey, share3 := some share3 }
      match P.combine [share1, share2, share3] with
      | none => (.error reconstructError, held)
      | some reconstructed =>
        let privateKey := reconstructed
        if privateKey.length ≠ 32 then
          (.error reconstructError,
            { held with reconstructed := some reconstructed, privateKey := some privateKey })
        else
          (.ok privateKey,
            { held with
              share1 := some (zeroFill share1), share2 := some (zeroFill share2),
              share3 := some (zeroFill share3), pinKey := some (zeroFill pinKey),
              reconstructed := some reconstructed, privateKey := some privateKey })

/-- The buffers `generateAndSplitKey` allocates, by the name of the local that holds
them; `secretCopy` is the `Buffer.from(privateKey)` handed to `shamir.split`. -/
structure GenerateMemory where
  privateKey : Option Buffer := none
  secretCopy : Option Buffer := none
  share1 : Option Buffer := none
  share2 : Option Buffer := none
  share3 : Option Buffer := none
  share2Compressed : Option Buffer := none
  pinKey : Option Buffer := none
  share3Encrypted : Option Buffer := none
deriving DecidableEq, Repr

/-- Method `ShamirService.generateAndSplitKey` (lines 14-83) with the memory it leaves.
The five `fill(0)` of lines 61-65 come after the masking of share 3, inside the `try`;
the `catch` of lines 79-82 logs and throws and fills nothing.  With fewer than three
shares the first use of a missing share throws: `share1.toString`, `deflateSync(share2)`
or `share3.length`. -/
def generateAndSplitKeyMemory (P : Platform) (env : ProcessEnv) (ENCRYPTION_KEY : Buffer)
    (rnd : Entropy) (pin : String) : Except String KeyBundle × GenerateMemory :=
  match P.fromRawEd25519Seed rnd.seed with
  | none => (.error generateError, {})
  | some cardPublicKey =>
    let privateKey := rnd.seed
    let held : GenerateMemory := { privateKey := some privateKey, secretCopy := some privateKey }
    match P.split privateKey (totalShares env) (threshold env) rnd.splitRandom with
    | none => (.error generateError, held)
    | some [] => (.error generateError, held)
    | some [share1] => (.error generateError, { held with share1 := some share1 })
    | some [share1, share2] =>
      (.error generateError,
        { held with
          share1 := some share1, share2 := some share2,
          share2Compressed := some (P.deflateSync share2) })
    | some (share1 :: share2 :: share3 :: _) =>
      let share1Encrypted := encrypt P ENCRYPTION_KEY rnd.iv (toHex share1)
      let share1Hash := hash P (toHex share1)
      let share2Compressed := P.deflateSync share2
      let share2Hex := toHex share2Compressed
      let salt := generateSalt rnd.salt
      let pinKey := deriveKeyFromPIN P pin salt (some share3.length)
      let share3Encrypted := xorLoop share3 pinKey
      (.ok { cardPublicKey := cardPublicKey
             share1Encrypted := share1Encrypted.encrypted
             share1Iv := share1Encrypted.iv
             share1AuthTag := share1Encrypted.authTag
             share1Hash := share1Hash
             share2 := share2Hex
             share3Salt := salt
             share3Encrypted := toHex share3Encrypted
             share3Length := share3.length },
        { privateKey := some (zeroFill privateKey), secretCopy := some privateKey,
          share1 := some (zeroFill share1), share2 := some (zeroFill share2),
          share3 := some (zeroFill share3), share2Compressed := some share2Compressed,
          pinKey := some (zeroFill pinKey), share3Encrypted := some share3Encrypted })

/-- The sample environment with `SSS_TOTAL_SHARES=2`. -/
def twoSharesEnv : ProcessEnv :=
  { ENCRYPTION_KEY := some (toHex sampleKey), SSS_TOTAL_SHARES := some 2,
    SSS_THRESHOLD := none }

/-! ## Payment: `routes/transaction.routes.js` and `services/card.service.js` -/

/-- Object returned by `stellarService.processTransaction`. -/
structure TxResult where
  success : Bool
  hash : Option String
  status : Option String
  mock : Bool
  onChain : Bool
  error : Option String
deriving DecidableEq, Repr

/-- JavaScript truthiness of a string that may be `undefined` (`none`): the empty string
and `undefined` are falsy. -/
def truthy (s : Option String) : Bool :=
  match s with
  | none => false
  | some v => v != ""

/-- What the payment code calls outside the key custody manager, as it answers in one
run. -/
structure PaymentWorld where
  /-- `cardKeypair.secret()` of the key pair of a seed: the encoded secret seed. -/
  secret : Buffer → String
  /-- `stellarService.processTransaction(cardKeypair, ...)` for the key pair of a seed:
  the returned object, or the message of the error thrown. -/
  processTransaction : Buffer → Except String TxResult
  /-- The `UPDATE cards` query of step 9. -/
  updateDailySpent : Except String Unit
  /-- The `INSERT INTO transactions` query of step 10. -/
  recordTransaction : Except String Unit

/-- Response of the handler: status code and the fields of the JSON body. -/
structure Response where
  status : Nat
  success : Bool
  error : Option String
  txHash : Option String
  txStatus : Option String
deriving DecidableEq, Repr

/-- How the handler of `POST /process` ends: the response, and the content, at the time
the response is sent, of the buffer `reconstructKey` returned (`none` when it returned no
buffer). -/
structure HandlerExit where
  response : Response
  keyBuffer : Option Buffer
deriving DecidableEq, Repr

/-- Response of the `catch` block (lines 154-166):
`res.status(500).json` with `error.message || 'Failed to process transaction'`. -/
def errorResponse (message : String) : Response :=
  { status := 500, success := false,
    error := some (if message = "" then "Failed to process transaction" else message),
    txHash := none, txStatus := none }

/-- Message of the error `Keypair.fromRawEd25519Seed` throws for a seed it rejects. -/
def invalidSeedMessage : String := "Invalid seed"

/-- Steps 4 to 10 of the handler of `POST /process` (lines 61-152) and its `catch`
(lines 154-166), on the card row `card`, the device share and the PIN of the request.
`privateKey` is declared outside the `try`; step 5 fills it before the 401 response,
step 8 fills it and sets the variable to `null`, and the `catch` fills it when the
variable is not `null`. -/
def processPayment (P : Platform) (W : PaymentWorld) (ENCRYPTION_KEY : Buffer)
    (card : KeyBundle) (share2 pin : String) : HandlerExit :=
  match reconstructKey P ENCRYPTION_KEY
      { encrypted := card.share1Encrypted, iv := card.share1Iv, authTag := card.share1AuthTag }
      share2 pin card.share3Salt card.share3Encrypted (some card.share3Length) with
  | .error message => { response := errorResponse message, keyBuffer := none }
  | .ok privateKey =>
    let isValid := verifyKey P privateKey card.cardPublicKey
    if isValid = false then
      { response :=
          { status := 401, success := false, error := some "Invalid PIN or corrupted shares",
            txHash := none, txStatus := none }
        keyBuffer := some (zeroFill privateKey) }
    else
      match P.fromRawEd25519Seed privateKey with
      | none =>
        { response := errorResponse invalidSeedMessage, keyBuffer := some (zeroFill privateKey) }
      | some _ =>
        match W.processTransaction privateKey with
        | .error message =>
          { response := errorResponse message, keyBuffer := some (zeroFill privateKey) }
        | .ok txResult =>
          let wiped := zeroFill privateKey
          if truthy txResult.hash = false then
            { response := errorResponse "Transaction failed on blockchain",
              keyBuffer := some wiped }
          else
            match W.updateDailySpent with
            | .error message => { response := errorResponse message, keyBuffer := some wiped }
            | .ok _ =>
              match W.recordTransaction with
              | .error message =>
                { response := errorResponse message, keyBuffer := some wiped }
              | .ok _ =>
                { response :=
                    { status := 200, success := true, error := none,
                      txHash := txResult.hash, txStatus := txResult.status }
                  keyBuffer := some wiped }

/-- One call of the logger: level and text. -/
structure LogEntry where
  level : String
  message : String
deriving DecidableEq, Repr

/-- The text logged at level `error` by lines 148-153 of `card.service.js`. -/
def dangerMessage (cardId secret : String) : String :=
  "\n        =========================================================" ++
  "\n        !!! DANGER: TEMPORARY DEBUG SECRET KEY LOGGED !!!" ++
  "\n        The Secret Key for card " ++ cardId ++ " is: " ++ secret ++
  "\n        =========================================================\n      "

/-- The entry logged by lines 148-153 of `card.service.js`. -/
def dangerEntry (cardId secret : String) : LogEntry :=
  { level := "error", message := dangerMessage cardId secret }

/-- The entry the `catch` of `processCardTransaction` logs (line 177). -/
def failedEntry (message : String) : LogEntry :=
  { level := "error", message := "❌ Transaction processing failed: " ++ message }

/-- How `processCardTransaction` ends: the returned object or the message of the error
thrown, the content of the `privateKey` buffer at that moment (`none` when
`reconstructKey` returned no buffer), the entries the method itself logged, and the
number of calls of `stellarService.processTransaction`. -/
structure CardTxExit where
  result : Except String TxResult
  keyBuffer : Option Buffer
  log : List LogEntry
  processTransactionCalls : Nat
deriving DecidableEq, Repr

/-- Method `CardService.processCardTransaction` (lines 115-180); `getCard` is the outcome
of `this.getCard(cardId)`.  The only `fill(0)` is line 173, after
`stellarService.processTransaction` returned; the `catch` logs and rethrows.  Entries
logged inside the called services are not listed. -/
def processCardTransaction (P : Platform) (W : PaymentWorld) (ENCRYPTION_KEY : Buffer)
    (getCard : Except String KeyBundle) (cardId share2Hex pin : String) : CardTxExit :=
  let log0 : List LogEntry :=
    [{ level := "info", message := "💳 Processing card transaction: " ++ cardId }]
  match getCard with
  | .error e =>
    { result := .error e, keyBuffer := none, log := log0 ++ [failedEntry e],
      processTransactionCalls := 0 }
  | .ok card =>
    let log1 := log0 ++ [{ level := "info", message := "   🔓 Reconstructing private key..." }]
    match reconstructKey P ENCRYPTION_KEY
        { encrypted := card.share1Encrypted, iv := card.share1Iv,
          authTag := card.share1AuthTag }
        share2Hex pin card.share3Salt card.share3Encrypted (some card.share3Length) with
    | .error e =>
      { result := .error e, keyBuffer := none, log := log1 ++ [failedEntry e],
        processTransactionCalls := 0 }
    | .ok privateKey =>
      match P.fromRawEd25519Seed privateKey with
      | none =>
        { result := .error invalidSeedMessage, keyBuffer := some privateKey,
          log := log1 ++ [failedEntry invalidSeedMessage], processTransactionCalls := 0 }
      | some _ =>
        let log2 := log1 ++ [dangerEntry cardId (W.secret privateKey)]
        if verifyKey P privateKey card.cardPublicKey = false then
          { result := .error "Reconstructed key does not match card public key",
            keyBuffer := some privateKey,
            log := log2 ++ [failedEntry "Reconstructed key does not match card public key"],
            processTransactionCalls := 0 }
        else
          let log3 := log2 ++
            [{ level := "info", message := "   ✅ Key verified" },
             { level := "info", message := "   💸 Sending transaction to blockchain..." }]
          match W.processTransaction privateKey with
          | .error e =>
            { result := .error e, keyBuffer := some privateKey,
              log := log3 ++ [failedEntry e], processTransactionCalls := 1 }
          | .ok txResult =>
            { result := .ok txResult, keyBuffer := some (zeroFill privateKey), log := log3,
              processTransactionCalls := 1 }

/-- A confirmed transaction as `stellarService.processTransaction` returns it. -/
def sampleTxResult : TxResult :=
  { success := true, hash := some "a1b2c3", status := some "SUCCESS", mock := false,
    onChain := true, error := none }

/-- A run in which the payment goes through; the secret seed is encoded as `S` followed
by its hex digits. -/
def refWorld : PaymentWorld :=
  { secret := fun seed => "S" ++ toHex seed
    processTransaction := fun _ => .ok sampleTxResult
    updateDailySpent := .ok ()
    recordTransaction := .ok () }

/-- A run in which `stellarService.processTransaction` throws. -/
def throwingWorld : PaymentWorld :=
  { refWorld with processTransaction := fun _ => .error "network down" }

/-- A run in which the query of step 9 fails. -/
def dbFailingWorld : PaymentWorld :=
  { refWorld with updateDailySpent := .error "connection terminated" }

/-- A second draw of random values: the sample draw with another seed. -/
def otherEntropy : Entropy :=
  { sampleEntropy with seed := (List.range 32).map fun i => byteOfNat (5 * i + 9) }

/-- The bundle `generateAndSplitKey` returns on the reference platform for `sampleEnv`,
`sampleKey`, `otherEntropy` and PIN 1234. -/
def otherBundle : KeyBundle :=
  { cardPublicKey := "G090e13181d22272c31363b40454a4f54595e63686d72777c81868b90959a9fa4"
    share1Encrypted := "000030000031000030000063000031000065000030000038000033000065000032000063000031000065000036000030000037000065000036000063000035000065000034000038000033000065000063000063000064000065000064000030000066000065000065000063000039000065000061000038000062000065000038000063000039000065000038000030000037000065000038000063000039000065000061000038000062000065000061000063000064000065000064000030000066000065"
    share1Iv := "0104070a0d101316191c1f2225282b2e"
    share1AuthTag := "36363636363636363636363636363636"
    share1Hash := "0e0e0e0e0e0e0e0e0e0e0e0e0e0e0e0e"
    share2 := "789c02032e25547f5aa9888be6ddbc4a7f6c1d2ec3e8d9b2b784789bb6cdcce7120110"
    share3Salt := "02070c11161b20252a2f34393e43484d"
    share3Encrypted := "dbe3ccc17e5740dd9a9bd4c9b64265681f2ec1ecd3baad706a8b84d9a68f082532"
    share3Length := 33 }

/-! ## `services/stellar.service.js`

The Soroban RPC endpoint and the transaction functions of the SDK are outside the
repository.  One run of the service sees the endpoint as an `RpcEndpoint` (what it
answers to each call) and the SDK as a `TxSdk`; a transaction is held by its XDR text.
Next to its result every function gives the calls it made, in order. -/

/-- The `error` member of a JSON-RPC response: its `message` (`none` when absent) and
its `JSON.stringify` text. -/
structure RpcError where
  message : Option String
  json : String
deriving DecidableEq, Repr

/-- What `fetch` and `response.json()` give for one call: an error thrown by either, or
the decoded body with its `error` and `result` members (`none` when absent; for `error`
also when it is `null` or another falsy value, which line 30 takes as no error). -/
inductive RpcReply (α : Type) where
  | failed (message : String)
  | data (error : Option RpcError) (result : Option α)
deriving DecidableEq, Repr

/-- Method `callSorobanRpc(method, params)` (lines 17-38) on the reply of the endpoint:
`data.result`, or the error thrown: the error of `fetch` or of JSON decoding, or a new
error with `data.error.message || JSON.stringify(data.error)`. -/
def callSorobanRpc {α : Type} (reply : RpcReply α) : Except String (Option α) :=
  match reply with
  | .failed message => .error message
  | .data (some error) _ =>
    .error (if truthy error.message then error.message.getD "" else error.json)
  | .data none result => .ok result

/-- One call made by the service. -/
inductive Event where
  /-- `callSorobanRpc(method, ...)` with the transaction XDR or hash it sends. -/
  | rpc (method : String) (payload : String)
  /-- `assembledTx.sign(signerKeypair)`. -/
  | sign (transaction : String)
  /-- The wait `setTimeout(resolve, delayMs)` of the polling loop. -/
  | delay (ms : Nat)
deriving DecidableEq, Repr

/-- Result of `simulateTransaction`: the members the service reads. -/
structure SimulateResult where
  results : Option (List String)
  minResourceFee : Option String
deriving DecidableEq, Repr

/-- Result of `sendTransaction`: status, hash and the `JSON.stringify` text. -/
structure SendResult where
  status : Option String
  hash : Option String
  json : String
deriving DecidableEq, Repr

/-- Result of `getTransaction`: its status. -/
structure TxResponse where
  status : Option String
deriving DecidableEq, Repr

/-- Object returned by `submitTransaction`. -/
structure SubmitResult where
  status : Option String
  hash : Option String
deriving DecidableEq, Repr

/-- The endpoint in one run: its reply to `simulateTransaction`, to `sendTransaction`,
and to the `getTransaction` query number `i` (from 0). -/
structure RpcEndpoint where
  simulateTransaction : RpcReply SimulateResult
  sendTransaction : RpcReply SendResult
  getTransaction : Nat → RpcReply TxResponse

/-- The SDK calls of `assembleAndSignTransaction`; an error is the message thrown. -/
structure TxSdk where
  /-- `new TransactionBuilder(sourceAccount, ...)`, `addOperation` for every operation,
  `setTimeout(30).build()`: the XDR of the transaction. -/
  build : String → List String → Except String String
  /-- `assembleTransaction(tx, simulateResult).build()`. -/
  assemble : String → SimulateResult → Except String String
  /-- `assembledTx.sign(signerKeypair)` for the seed of the key pair: the signed
  transaction. -/
  sign : String → Buffer → Except String String

/-- Message of the error for a simulation without results (line 96). -/
def noResultsMessage : String := "Simulation returned no results"

/-- Message of the error of the polling loop (line 165). -/
def timeoutMessage : String := "Transaction confirmation timeout"

/-- Message of the `TypeError` for a member read on `undefined`. -/
def undefinedMessage : String := "Cannot read properties of undefined"

/-- The test of line 95: `!simulateResult.results || simulateResult.results.length === 0`. -/
def noResults (simulateResult : SimulateResult) : Bool :=
  match simulateResult.results with
  | none => true
  | some results => results.length == 0

/-- Method `assembleAndSignTransaction(sourceAccount, operations, signerKeypair)`
(lines 81-110): the signed transaction with the simulation result, or the error
thrown; and the calls made. -/
def assembleAndSignTransaction (sdk : TxSdk) (net : RpcEndpoint) (sourceAccount : String)
    (operations : List String) (signerKeypair : Buffer) :
    Except String (String × SimulateResult) × List Event :=
  match sdk.build sourceAccount operations with
  | .error e => (.error e, [])
  | .ok tx =>
    match callSorobanRpc net.simulateTransaction with
    | .error e => (.error e, [.rpc "simulateTransaction" tx])
    | .ok none => (.error undefinedMessage, [.rpc "simulateTransaction" tx])
    | .ok (some simulateResult) =>
      if noResults simulateResult then
        (.error noResultsMessage, [.rpc "simulateTransaction" tx])
      else
        match sdk.assemble tx simulateResult with
        | .error e => (.error e, [.rpc "simulateTransaction" tx])
        | .ok assembledTx =>
          match sdk.sign assembledTx signerKeypair with
          | .error e => (.error e, [.rpc "simulateTransaction" tx, .sign assembledTx])
          | .ok signedTx =>
            (.ok (signedTx, simulateResult),
              [.rpc "simulateTransaction" tx, .sign assembledTx])

/-- The test of line 150: `txResponse.status && txResponse.status !== 'NOT_FOUND'`. -/
def hasFinalStatus (txResponse : TxResponse) : Bool :=
  truthy txResponse.status && txResponse.status != some "NOT_FOUND"

/-- The loop of `pollTransactionStatus` with `remaining` iterations left, the next
query being number `i`.  A reply with a status other than `NOT_FOUND` is returned; after
any other reply the loop waits `delayMs`; an error thrown inside the `try` (by the call,
or by reading `status` of an `undefined` result) is caught and the loop goes on without
waiting.  After the last iteration the timeout error is thrown. -/
def pollFrom (net : RpcEndpoint) (txHash : String) (delayMs : Nat) :
    Nat → Nat → Except String TxResponse × List Event
  | 0, _ => (.error timeoutMessage, [])
  | remaining + 1, i =>
    match callSorobanRpc (net.getTransaction i) with
    | .ok (some txResponse) =>
      if hasFinalStatus txResponse then
        (.ok txResponse, [.rpc "getTransaction" txHash])
      else
        ((pollFrom net txHash delayMs remaining (i + 1)).1,
          .rpc "getTransaction" txHash :: .delay delayMs
            :: (pollFrom net txHash delayMs remaining (i + 1)).2)
    | .ok none =>
      ((pollFrom net txHash delayMs remaining (i + 1)).1,
        .rpc "getTransaction" txHash :: (pollFrom net txHash delayMs remaining (i + 1)).2)
    | .error _ =>
      ((pollFrom net txHash delayMs remaining (i + 1)).1,
        .rpc "getTransaction" txHash :: (pollFrom net txHash delayMs remaining (i + 1)).2)

/-- Method `pollTransactionStatus(txHash, maxAttempts = 15, delayMs = 2000)`
(lines 141-166); `none` is an omitted argument. -/
def pollTransactionStatus (net : RpcEndpoint) (txHash : String) (maxAttempts : Option Nat)
    (delayMs : Option Nat) : Except String TxResponse × List Event :=
  pollFrom net txHash (delayMs.getD 2000) (maxAttempts.getD 15) 0

/-- Method `submitTransaction(tx)` (lines 112-139): the returned object or the error
thrown; and the calls made.  A hash that is `undefined` is passed on as the empty
text. -/
def submitTransaction (net : RpcEndpoint) (tx : String) :
    Except String SubmitResult × List Event :=
  match callSorobanRpc net.sendTransaction with
  | .error e => (.error e, [.rpc "sendTransaction" tx])
  | .ok none => (.error undefinedMessage, [.rpc "sendTransaction" tx])
  | .ok (some sendResult) =>
    if sendResult.status = some "ERROR" then
      (.error ("Transaction error: " ++ sendResult.json), [.rpc "sendTransaction" tx])
    else if sendResult.status = some "PENDING" then
      match pollTransactionStatus net (sendResult.hash.getD "") none none with
      | (.error e, calls) => (.error e, .rpc "sendTransaction" tx :: calls)
      | (.ok result, calls) =>
        (.ok { status := result.status, hash := sendResult.hash },
          .rpc "sendTransaction" tx :: calls)
    else
      (.ok { status := sendResult.status, hash := sendResult.hash },
        [.rpc "sendTransaction" tx])

/-- A reply to `getTransaction` after which the polling loop goes on: an error thrown,
no result, no status, or the status `NOT_FOUND`. -/
def noFinalStatus (reply : RpcReply TxResponse) : Bool :=
  match callSorobanRpc reply with
  | .ok (some txResponse) => !hasFinalStatus txResponse
  | _ => true

/-- The number of `getTransaction` queries among the calls made. -/
def statusQueries (calls : List Event) : Nat :=
  calls.countP fun e =>
    match e with
    | .rpc method _ => method == "getTransaction"
    | _ => false

/-- The calls made hold no signature and no `sendTransaction`. -/
def neitherSignedNorSent (calls : List Event) : Bool :=
  calls.all fun e =>
    match e with
    | .rpc method _ => method != "sendTransaction"
    | .sign _ => false
    | .delay _ => true

/-- An endpoint that answers every `getTransaction` with the given status, simulates
with one result and accepts the transaction as `PENDING`. -/
def constantEndpoint (status : String) : RpcEndpoint :=
  { simulateTransaction :=
      .data none (some { results := some ["auth"], minResourceFee := some "1000" })
    sendTransaction :=
      .data none (some { status := some "PENDING", hash := some "a1b2c3",
                         json := "PENDING a1b2c3" })
    getTransaction := fun _ => .data none (some { status := some status }) }

/-- An endpoint whose first `getTransaction` query fails in transport and whose later
queries answer with the given status. -/
def flakyEndpoint (status : String) : RpcEndpoint :=
  { constantEndpoint status with
    getTransaction := fun i =>
      if i = 0 then .failed "fetch failed" else .data none (some { status := some status }) }

/-- An endpoint whose every `getTransaction` query fails in transport. -/
def unreachableEndpoint : RpcEndpoint :=
  { constantEndpoint "SUCCESS" with getTransaction := fun _ => .failed "fetch failed" }

/-- An endpoint whose simulation has an empty list of results. -/
def emptySimulationEndpoint : RpcEndpoint :=
  { constantEndpoint "SUCCESS" with
    simulateTransaction := .data none (some { results := some [], minResourceFee := none }) }

/-- An endpoint that rejects the transaction at once. -/
def rejectingEndpoint : RpcEndpoint :=
  { constantEndpoint "SUCCESS" with
    sendTransaction :=
      .data none (some { status := some "ERROR", hash := some "a1b2c3",
                         json := "ERROR a1b2c3" }) }

/-- An endpoint that answers `sendTransaction` with a status that is neither `ERROR`
nor `PENDING`. -/
def duplicateEndpoint : RpcEndpoint :=
  { constantEndpoint "SUCCESS" with
    sendTransaction :=
      .data none (some { status := some "DUPLICATE", hash := some "a1b2c3",
                         json := "DUPLICATE a1b2c3" }) }

/-- An SDK stand-in: the XDR of a transaction is the text of its parts. -/
def refSdk : TxSdk :=
  { build := fun sourceAccount operations =>
      .ok (String.intercalate ";" (sourceAccount :: operations))
    assemble := fun tx _ => .ok (tx ++ ";assembled")
    sign := fun tx seed => .ok (tx ++ ";signed:" ++ toHex (seed.take 2)) }

/-! ## `services/stellar.service.js`: `processTransaction` -/

/-- The key pair handed to `processTransaction`: what `publicKey()` returns and the raw
seed the signature is made with. -/
structure Keypair where
  publicKey : String
  rawSecretKey : Buffer
deriving DecidableEq, Repr

/-- What `processTransaction` calls besides the endpoint and the transaction functions,
as it answers in one run; an error is the message thrown. -/
structure Horizon where
  /-- `horizonServer.loadAccount(publicKey)`: the account the transaction is built on. -/
  loadAccount : String → Except String String
  /-- Lines 240 and 246-257 for the card's public key, `cardId`, `amount`,
  `merchantAddress` and `merchantId`: the amount in stroops, the five contract
  parameters and `contract.call('process_transaction', ...params)`. -/
  paymentOperation : String → String → String → String → String → Except String String
  /-- `Date.now()` at the time the `catch` block runs. -/
  now : Nat

/-- The object returned at the end of the `try` block (lines 263-268). -/
def onChainResult (result : SubmitResult) : TxResult :=
  { success := true, hash := result.hash, status := result.status, mock := false,
    onChain := true, error := none }

/-- The object returned by the `catch` block (lines 273-279) for the message of the
error caught. -/
def mockResult (now : Nat) (message : String) : TxResult :=
  { success := true, hash := some ("TX_MOCK_" ++ toString now), status := none,
    mock := true, onChain := false, error := some message }

/-- The `try` block of `processTransaction` (lines 235-268): the object it returns or
the error thrown inside it; and the calls made to the endpoint and the signer. -/
def processTransactionBody (sdk : TxSdk) (net : RpcEndpoint) (host : Horizon)
    (cardKeypair : Keypair) (cardId amount merchantAddress merchantId : String) :
    Except String TxResult × List Event :=
  match host.loadAccount cardKeypair.publicKey with
  | .error e => (.error e, [])
  | .ok cardAccount =>
    match host.paymentOperation cardKeypair.publicKey cardId amount merchantAddress
        merchantId with
    | .error e => (.error e, [])
    | .ok operation =>
      match assembleAndSignTransaction sdk net cardAccount [operation]
          cardKeypair.rawSecretKey with
      | (.error e, calls) => (.error e, calls)
      | (.ok (assembledTx, _), calls) =>
        match submitTransaction net assembledTx with
        | (.error e, sent) => (.error e, calls ++ sent)
        | (.ok result, sent) => (.ok (onChainResult result), calls ++ sent)

/-- Method `processTransaction(cardKeypair, cardId, amount, merchantAddress, merchantId)`
(lines 233-281): the object returned, and the calls made.  Every error of the `try`
block is caught and answered with the mock object. -/
def processTransaction (sdk : TxSdk) (net : RpcEndpoint) (host : Horizon)
    (cardKeypair : Keypair) (cardId amount merchantAddress merchantId : String) :
    TxResult × List Event :=
  match processTransactionBody sdk net host cardKeypair cardId amount merchantAddress
      merchantId with
  | (.ok result, calls) => (result, calls)
  | (.error e, calls) => (mockResult host.now e, calls)

/-- The methods of the `callSorobanRpc` calls among the calls made, in order. -/
def rpcMethods (calls : List Event) : List String :=
  calls.filterMap fun e =>
    match e with
    | .rpc method _ => some method
    | _ => none

/-- The longest sequence of RPC methods of one payment: one simulation, one submission
and the 15 status queries of the default `maxAttempts`. -/
def forwardFlow : List String :=
  "simulateTransaction" :: "sendTransaction" :: List.replicate 15 "getTransaction"

/-- A run in which the card account loads and the payment operation is built. -/
def refHorizon : Horizon :=
  { loadAccount := fun publicKey => .ok publicKey
    paymentOperation := fun card cardId amount merchantAddress merchantId =>
      .ok (String.intercalate ","
        ["process_transaction", card, cardId, amount, merchantAddress, merchantId])
    now := 1762387200000 }

/-- A run in which the card account does not exist on the ledger. -/
def missingAccountHorizon : Horizon :=
  { refHorizon with loadAccount := fun _ => .error "Not Found" }

/-- The key pair of the sample seed on the reference platform. -/
def sampleKeypair : Keypair :=
  { publicKey := sampleBundle.cardPublicKey, rawSecretKey := sampleEntropy.seed }

/-- An endpoint whose simulation call fails in transport. -/
def downEndpoint : RpcEndpoint :=
  { constantEndpoint "SUCCESS" with simulateTransaction := .failed "fetch failed" }

/-- An SDK stand-in whose `assembleTransaction` throws. -/
def brokenAssemblySdk : TxSdk :=
  { refSdk with assemble := fun _ _ => .error "simulation incorrect" }

/-! ## `components/CardSuccessModal.jsx`: the compact NFC payload

A text is held by its characters; for the ASCII texts of the payload a character is one
UTF-16 code unit of the JavaScript string.  The bitwise operators work on 32-bit
integers: a value is held by its 32-bit pattern.  `btoa` and `atob` are the base64
functions of the browser. -/

/-- White space that `parseInt` skips at the start of its argument. -/
def isStrWhiteSpace (c : Char) : Bool :=
  [9, 10, 11, 12, 13, 32, 160, 5760, 8232, 8233, 8239, 8287, 12288, 65279].contains c.toNat
    || (8192 ≤ c.toNat && c.toNat ≤ 8202)

/-- Value of a character as a digit: `0-9`, then the letters of either case from 10. -/
def digitValue (c : Char) : Option Nat :=
  if 48 ≤ c.toNat ∧ c.toNat ≤ 57 then some (c.toNat - 48)
  else if 97 ≤ c.toNat ∧ c.toNat ≤ 122 then some (c.toNat - 87)
  else if 65 ≤ c.toNat ∧ c.toNat ≤ 90 then some (c.toNat - 55)
  else none

/-- The digits of the radix at the start of a text, as their values. -/
def leadingDigits (radix : Nat) : List Char → List Nat
  | [] => []
  | c :: cs =>
    match digitValue c with
    | some d => if d < radix then d :: leadingDigits radix cs else []
    | none => []

/-- The integer written by digits of the radix, the first digit leading. -/
def digitsValue (radix : Nat) (digits : List Nat) : Nat :=
  digits.foldl (fun v d => radix * v + d) 0

/-- A JavaScript number that is `NaN`, an infinity or an integer; no other number arises
from `parseInt` and the sum of two such numbers.  The sign of zero is not kept. -/
inductive JsNumber where
  | nan
  | infinite (negative : Bool)
  | finite (value : Int)
deriving DecidableEq, Repr

/-- The number of binary digits of `n`, counted with at most `fuel` halvings. -/
def bitLength : Nat → Nat → Nat
  | 0, _ => 0
  | fuel + 1, n => if n = 0 then 0 else bitLength fuel (n / 2) + 1

/-- The double nearest to a natural number (ties to the even significand); `none` when
it is past the largest double, whose exponent is 1023.  A number below `2 ^ 53` is a
double; a larger one keeps its 53 leading binary digits, rounded. -/
def roundToDouble (n : Nat) : Option Nat :=
  if n < 2 ^ 53 then some n
  else
    let shift := bitLength n n - 53
    let q := n / 2 ^ shift
    let r := n % 2 ^ shift
    let half := 2 ^ (shift - 1)
    let significand := if half < r ∨ (r = half ∧ q % 2 = 1) then q + 1 else q
    let exponent := if significand = 2 ^ 53 then shift + 53 else shift + 52
    if exponent < 1024 then some (significand * 2 ^ shift) else none

/-- The number value of an integer. -/
def toNumber (v : Int) : JsNumber :=
  match roundToDouble v.natAbs with
  | none => .infinite (decide (v < 0))
  | some m => .finite (if v < 0 then -(m : Int) else (m : Int))

/-- The operator `+` on two numbers. -/
def JsNumber.add : JsNumber → JsNumber → JsNumber
  | .nan, _ => .nan
  | _, .nan => .nan
  | .infinite a, .infinite b => if a = b then .infinite a else .nan
  | .infinite a, .finite _ => .infinite a
  | .finite _, .infinite b => .infinite b
  | .finite a, .finite b => toNumber (a + b)

/-- Built-in `parseInt(string, radix)`; radix 0 stands for an omitted radix.  White space
at the start is skipped, a sign is read, `0x` is skipped for radix 16 (or none), and the
longest run of digits of the radix is the value; without a digit the result is `NaN`. -/
def parseInt (string : List Char) (radix : Nat) : JsNumber :=
  let trimmed := string.dropWhile isStrWhiteSpace
  let negative := trimmed.head? = some '-'
  let unsigned :=
    if trimmed.head? = some '-' ∨ trimmed.head? = some '+' then trimmed.tail else trimmed
  if radix ≠ 0 ∧ (radix < 2 ∨ 36 < radix) then .nan
  else
    let hexMarked :=
      (radix = 0 ∨ radix = 16) ∧ (unsigned.take 2 = ['0', 'x'] ∨ unsigned.take 2 = ['0', 'X'])
    let R := if hexMarked then 16 else if radix = 0 then 10 else radix
    let Z := leadingDigits R (if hexMarked then unsigned.drop 2 else unsigned)
    if Z = [] then .nan
    else toNumber (if negative then -(digitsValue R Z : Int) else (digitsValue R Z : Int))

/-- What a store into a `Uint8Array` keeps of a number: 0 for `NaN` and the infinities,
else the value modulo 256. -/
def toUint8 : JsNumber → Byte
  | .finite v => byteOfNat (v % 256).toNat
  | _ => 0

/-- Function `hexToBytes(hex)`: one byte for every two characters, the value `parseInt`
reads from them in radix 16; a last single character is left out, as its store past the
end of the array is. -/
def hexToBytes : List Char → List Byte
  | c1 :: c2 :: rest => toUint8 (parseInt [c1, c2] 16) :: hexToBytes rest
  | _ => []

/-- `b.toString(16)` for a byte: one or two lower-case digits. -/
def toString16 (b : Byte) : List Char :=
  if b.val < 16 then [hexDigit b.val] else [hexDigit (b.val / 16), hexDigit (b.val % 16)]

/-- `s.padStart(2, "0")`. -/
def padStart2 (s : List Char) : List Char := List.replicate (2 - s.length) '0' ++ s

/-- Function `bytesToHex(bytes)`. -/
def bytesToHex (bytes : List Byte) : List Char :=
  (bytes.map fun b => padStart2 (toString16 b)).flatten

/-- Alphabet of base64. -/
def base64Alphabet : List Char :=
  "ABCDEFGHIJKLMNOPQRSTUVWXYZabcdefghijklmnopqrstuvwxyz0123456789+/".toList

/-- The base64 digit of a 6-bit value. -/
def base64Char (n : Nat) : Char := base64Alphabet.getD (n % 64) 'A'

/-- Built-in `btoa` on the binary string `String.fromCharCode(...bytes)`: base64 with
`=` padding. -/
def btoa : List Byte → List Char
  | b1 :: b2 :: b3 :: rest =>
    base64Char (b1.val / 4) :: base64Char (b1.val % 4 * 16 + b2.val / 16)
      :: base64Char (b2.val % 16 * 4 + b3.val / 64) :: base64Char (b3.val % 64) :: btoa rest
  | [b1, b2] =>
    [base64Char (b1.val / 4), base64Char (b1.val % 4 * 16 + b2.val / 16),
      base64Char (b2.val % 16 * 4), '=']
  | [b1] => [base64Char (b1.val / 4), base64Char (b1.val % 4 * 16), '=', '=']
  | [] => []

/-- `s.replace(/=+$/, "")`: the text without the `=` characters it ends with. -/
def stripPadding : List Char → List Char
  | [] => []
  | c :: cs => if c = '=' ∧ stripPadding cs = [] then [] else c :: stripPadding cs

/-- The first two `replace` calls of `base64UrlEncode` on one character: `+` becomes `-`
and `/` becomes `_`. -/
def toUrlChar (c : Char) : Char := if c = '+' then '-' else if c = '/' then '_' else c

/-- Function `base64UrlEncode(bytes)`. -/
def base64UrlEncode (bytes : List Byte) : List Char :=
  stripPadding ((btoa bytes).map toUrlChar)

/-- The two `replace` calls of `base64UrlDecode` on one character: `-` becomes `+` and
`_` becomes `/`. -/
def fromUrlChar (c : Char) : Char := if c = '-' then '+' else if c = '_' then '/' else c

/-- The loop `while (base64.length % 4) base64 += "="`. -/
def padToFour (base64 : List Char) : List Char :=
  base64 ++ List.replicate ((4 - base64.length % 4) % 4) '='

/-- The bytes of base64 digits given by their values: 3 bytes for 4 digits; of a last
group of 2 or 3 digits the bits that fill no byte are dropped. -/
def decodeSextets : List Nat → List Byte
  | d1 :: d2 :: d3 :: d4 :: rest =>
    byteOfNat (d1 * 4 + d2 / 16) :: byteOfNat (d2 % 16 * 16 + d3 / 4)
      :: byteOfNat (d3 % 4 * 64 + d4) :: decodeSextets rest
  | [d1, d2, d3] => [byteOfNat (d1 * 4 + d2 / 16), byteOfNat (d2 % 16 * 16 + d3 / 4)]
  | [d1, d2] => [byteOfNat (d1 * 4 + d2 / 16)]
  | _ => []

/-- ASCII white space, which `atob` removes. -/
def isAsciiWhitespace (c : Char) : Bool := [9, 10, 12, 13, 32].contains c.toNat

/-- Built-in `atob`: the bytes of the binary string it returns, or `none` when it throws
(a length of 1 modulo 4, or a character outside the alphabet).  One or two `=` at the end
of a text whose length is a multiple of 4 are dropped first. -/
def atob (data : List Char) : Option (List Byte) :=
  let data := data.filter fun c => !isAsciiWhitespace c
  let data :=
    if data.length % 4 = 0 then
      if data.reverse.take 2 = ['=', '='] then data.take (data.length - 2)
      else if data.reverse.take 1 = ['='] then data.take (data.length - 1)
      else data
    else data
  if data.length % 4 = 1 then none
  else if data.all fun c => base64Alphabet.contains c then
    some (decodeSextets (data.map fun c => base64Alphabet.indexOf c))
  else none

/-- Function `base64UrlDecode(base64url)`; `none` when `atob` throws. -/
def base64UrlDecode (base64url : List Char) : Option (List Byte) :=
  atob (padToFour (base64url.map fromUrlChar))

/-- Alphabet of `base32ToBytes` and `bytesToBase32`. -/
def base32Alphabet : List Char := "ABCDEFGHIJKLMNOPQRSTUVWXYZ234567".toList

/-- The loop of `base32ToBytes` from a state `bits`, `value`: `=` ends it, a character
outside the alphabet is skipped, and a byte is pushed whenever 8 bits are there. -/
def base32ToBytesFrom : Nat → Nat → List Char → List Byte
  | _, _, [] => []
  | bits, value, char :: rest =>
    if char = '=' then []
    else
      let index := base32Alphabet.indexOf char
      if index = base32Alphabet.length then base32ToBytesFrom bits value rest
      else
        let value := (value * 32 % 2 ^ 32) ||| index
        let bits := bits + 5
        if 8 ≤ bits then
          byteOfNat (value / 2 ^ ((bits - 8) % 32))
            :: base32ToBytesFrom (bits - 8) value rest
        else base32ToBytesFrom bits value rest

/-- Function `base32ToBytes(base32)`. -/
def base32ToBytes (base32 : List Char) : List Byte := base32ToBytesFrom 0 0 base32

/-- `alphabet[n & 0x1f]`. -/
def base32Char (n : Nat) : Char := base32Alphabet.getD (n % 32) 'A'

/-- The loop `while (bits >= 5)` of `bytesToBase32` with at most `fuel` rounds: the
characters it appends and the bits left. -/
def emitBase32 (value : Nat) : Nat → Nat → List Char × Nat
  | 0, bits => ([], bits)
  | fuel + 1, bits =>
    if 5 ≤ bits then
      (base32Char (value / 2 ^ ((bits - 5) % 32)) :: (emitBase32 value fuel (bits - 5)).1,
        (emitBase32 value fuel (bits - 5)).2)
    else ([], bits)

/-- The loop over the bytes of `bytesToBase32` from a state `bits`, `value`, and the last
character made of the bits left. -/
def bytesToBase32From : Nat → Nat → List Byte → List Char
  | bits, value, [] =>
    if 0 < bits then [base32Char (value * 2 ^ ((5 - bits) % 32) % 2 ^ 32)] else []
  | bits, value, b :: rest =>
    let value := (value * 256 % 2 ^ 32) ||| b.val
    let bits := bits + 8
    (emitBase32 value bits bits).1
      ++ bytesToBase32From (emitBase32 value bits bits).2 value rest

/-- Function `bytesToBase32(bytes)`. -/
def bytesToBase32 (bytes : List Byte) : List Char := bytesToBase32From 0 0 bytes

/-- The part of the payload made of the address (lines 116-117). -/
def addressBase64 (address : String) : List Char :=
  base64UrlEncode (base32ToBytes (address.data.drop 1))

/-- The part of the payload made of share 2 (lines 121-122). -/
def share2Base64 (share2Hex : String) : List Char :=
  base64UrlEncode (hexToBytes share2Hex.data)

/-- Function `encodeCompact(address, share2Hex)`. -/
def encodeCompact (address share2Hex : String) : String :=
  String.mk (addressBase64 address ++ '|' :: share2Base64 share2Hex)

/-- `data.split('|')`. -/
def splitBar : List Char → List (List Char)
  | [] => [[]]
  | c :: cs =>
    match splitBar cs with
    | [] => [[]]
    | part :: parts => if c = '|' then [] :: part :: parts else (c :: part) :: parts

/-- The decoding shown for the payment terminal (lines 374-383): address and share 2
read from a payload; `none` when a part is missing or `atob` throws. -/
def decodeCompact (data : String) : Option (String × String) :=
  match splitBar data.data with
  | addrB64 :: s2b64 :: _ =>
    match base64UrlDecode addrB64, base64UrlDecode s2b64 with
    | some addrBytes, some s2Bytes =>
      some (String.mk ('G' :: bytesToBase32 addrBytes), String.mk (bytesToHex s2Bytes))
    | _, _ => none
  | _ => none

/-- The address in the comment of `encodeCompact` (line 113). -/
def sampleAddress : String := "GDGHFIYIIYYXIMYFB2ESYMH2NVZEL33NZI4VKBKQWNLU4ZCUPZUUHDN4"

/-- A share 2 of 128 hexadecimal digits. -/
def sampleShare2Hex : String :=
  "789c0209112a5c7d5ea3908192afac586b462504e70a3950536ea0b182ff9cb5464b68f10e3b5c7d9ebf00214263a4c5e607284a6b8cadceef1031527394b5d6"

/-! ## `tests/min.js`: the fee of the manual assembly -/

/-- The fee computed by the manual assembly of `tests/min.js` (lines 130-132):
`parseInt(simResult.minResourceFee || '0') + parseInt(StellarSdk.BASE_FEE)`.
`minResourceFee` is the member of the simulation result (`none` when absent) and
`BASE_FEE` the constant of the SDK.  The transaction is then built with the fee
`totalFee.toString()` and one operation. -/
def totalFee (minResourceFee : Option String) (BASE_FEE : String) : JsNumber :=
  let minResourceFee :=
    parseInt (if truthy minResourceFee then minResourceFee.getD "" else "0").data 0
  let baseFee := parseInt BASE_FEE.data 0
  minResourceFee.add baseFee

/-- The integer a text of decimal digits writes. -/
def decimalValue (s : String) : Nat :=
  s.data.foldl (fun v c => 10 * v + (c.toNat - 48)) 0

/-- A text that is one or more decimal digits. -/
def isDecimal (s : String) : Bool :=
  !s.data.isEmpty && s.data.all fun c => 48 ≤ c.toNat && c.toNat ≤ 57

/-- A draw of random values that differs from the sample draw in the bytes drawn inside
`shamir.split` only. -/
def collidingEntropy : Entropy :=
  { sampleEntropy with
    splitRandom :=
      [108, 76, 244, 1, 1, 58, 130, 108, 1, 53, 244, 120, 108, 93, 53, 102, 182, 88, 93, 1,
        168, 244, 88, 209, 1, 82, 58, 108, 209, 93, 156, 168] }

/-- The share 3 stored for a bundle, unmasked with a PIN (lines 106-115 on the stored
salt, masked share and length). -/
def share3For (P : Platform) (card : KeyBundle) (pin : String) : Buffer :=
  unmaskShare3 P pin card.share3Salt card.share3Encrypted (some card.share3Length)

/-- The bundle `generateAndSplitKey` returns on the reference platform for `sampleEnv`,
`sampleKey`, `collidingEntropy` and PIN 1234. -/
def collidingBundle : KeyBundle :=
  { cardPublicKey := "G030a11181f262d343b424950575e656c737a81888f969da4abb2b9c0c7ced5dc"
    share1Encrypted := "000030000031000036000066000034000036000065000035000031000039000031000065000031000063000061000066000035000038000033000061000037000037000062000064000032000038000033000062000030000033000035000030000030000061000063000035000032000032000064000063000038000039000032000037000036000032000063000035000037000035000061000061000065000030000038000033000061000063000031000036000039000033000034000039000037000034"
    share1Iv := "0104070a0d101316191c1f2225282b2e"
    share1AuthTag := "a1a1a1a1a1a1a1a1a1a1a1a1a1a1a1a1"
    share1Hash := "79797979797979797979797979797979"
    share2 := "789c02db92e41a1d5234ec3928bca08fe40fa002ca3b8ac2632d1ba916cd187874f091"
    share3Salt := "02070c11161b20252a2f34393e43484d"
    share3Encrypted := "db522cef17054e85c075472fac6237a16e0150a957836176dab56ec030f8770741"
    share3Length := 33 }

/-! # Theorems -/

theorem hexVal_hexDigit : ∀ n : Fin 16, hexVal (hexDigit n.val) = some n.val := by
  decide

theorem fromHexChars_toHexChars (buf : Buffer) : fromHexChars (toHexChars buf) = buf := by
  induction buf with
  | nil => rfl
  | cons b bs ih =>
    have h1 := hexVal_hexDigit ⟨b.val / 16, by omega⟩
    have h2 := hexVal_hexDigit ⟨b.val % 16, by omega⟩
    simp only at h1 h2
    simp only [toHexChars, fromHexChars, h1, h2, ih]
    congr 1
    apply Fin.ext
    simp only [byteOfNat]
    omega

theorem fromHex_toHex (buf : Buffer) : fromHex (toHex buf) = buf := by
  simp [fromHex, toHex, fromHexChars_toHexChars]

theorem xorLoopFrom_length (key : Buffer) (buf : Buffer) (i : Nat) :
    (xorLoopFrom key i buf).length = buf.length := by
  induction buf generalizing i with
  | nil => rfl
  | cons b bs ih => simp [xorLoopFrom, ih]

theorem byte_xor_cancel (b k : Byte) :
    byteOfNat ((byteOfNat (b.val ^^^ k.val)).val ^^^ k.val) = b := by
  apply Fin.ext
  have hb := b.isLt
  have hk := k.isLt
  have hlt : b.val ^^^ k.val < 2 ^ 8 := Nat.xor_lt_two_pow (by omega) (by omega)
  simp only [byteOfNat]
  rw [Nat.mod_eq_of_lt (by omega : b.val ^^^ k.val < 256), Nat.xor_cancel_right,
    Nat.mod_eq_of_lt hb]

theorem xorLoopFrom_involutive (key : Buffer) (buf : Buffer) (i : Nat) :
    xorLoopFrom key i (xorLoopFrom key i buf) = buf := by
  induction buf generalizing i with
  | nil => rfl
  | cons b bs ih => simp [xorLoopFrom, ih, byte_xor_cancel]

/-! ### GF(2^8): linearity of the product -/

theorem two_mul_xor (u v : Nat) : 2 * (u ^^^ v) = 2 * u ^^^ 2 * v := by
  apply Nat.eq_of_testBit_eq
  intro i
  cases i with
  | zero => simp [Nat.testBit_zero]
  | succ i => simp [Nat.testBit_succ, Nat.xor_div_two]

theorem xor_mod_256 (u v : Nat) : (u ^^^ v) % 256 = (u % 256) ^^^ (v % 256) := by
  have h : ∀ n : Nat, n % 256 = n &&& 255 := fun n => by
    have := @Nat.and_pow_two_sub_one_eq_mod n 8
    simpa using this.symm
  rw [h, h, h, Nat.and_xor_distrib_right]

theorem xor_div_128 (u v : Nat) : (u ^^^ v) / 128 = (u / 128) ^^^ (v / 128) := by
  have h : ∀ n : Nat, n / 128 = n / 2 / 2 / 2 / 2 / 2 / 2 / 2 := fun n => by omega
  rw [h, h, h]
  simp [Nat.xor_div_two]

theorem xtime_xor (u v : Nat) : xtime (u ^^^ v) = xtime u ^^^ xtime v := by
  unfold xtime
  rw [two_mul_xor, xor_mod_256, xor_div_128]
  have hc : ((u / 128 ^^^ v / 128) % 2 = 1) ↔ ¬ ((u / 128 % 2 = 1) ↔ (v / 128 % 2 = 1)) :=
    Nat.xor_mod_two_eq_one
  by_cases hu : u / 128 % 2 = 1 <;> by_cases hv : v / 128 % 2 = 1
  · rw [if_neg (by rw [hc]; simp [hu, hv]), if_pos hu, if_pos hv]
    have h : ∀ a b : Nat, (a ^^^ 29) ^^^ (b ^^^ 29) = (a ^^^ b) ^^^ (29 ^^^ 29) := by
      intro a b; ac_rfl
    rw [h]; simp
  · rw [if_pos (by rw [hc]; simp [hu, hv]), if_pos hu, if_neg hv]
    simp only [Nat.xor_zero]; ac_rfl
  · rw [if_pos (by rw [hc]; simp [hu, hv]), if_neg hu, if_pos hv]
    simp only [Nat.xor_zero]; ac_rfl
  · rw [if_neg (by rw [hc]; simp [hu, hv]), if_neg hu, if_neg hv]
    simp

theorem gfMulAux_xor (k c u v : Nat) :
    gfMulAux k c (u ^^^ v) = gfMulAux k c u ^^^ gfMulAux k c v := by
  induction k generalizing c u v with
  | zero => simp [gfMulAux]
  | succ k ih =>
    simp only [gfMulAux, xtime_xor, ih]
    by_cases hc : c % 2 = 1
    · simp only [hc, if_true]; ac_rfl
    · simp only [hc, if_false, Nat.zero_xor]

theorem gfMul_xor (c u v : Nat) : gfMul c (u ^^^ v) = gfMul c u ^^^ gfMul c v :=
  gfMulAux_xor 8 c u v

theorem gfMul_zero (c : Nat) : gfMul c 0 = 0 := by
  have h := gfMul_xor c 0 0
  simp only [Nat.xor_self] at h
  exact h

theorem xtime_lt (a : Nat) : xtime a < 256 := by
  unfold xtime
  have h1 : (2 * a) % 256 < 2 ^ 8 := by omega
  have h2 : (if (a / 128) % 2 = 1 then 29 else 0) < 2 ^ 8 := by split <;> omega
  have := Nat.xor_lt_two_pow h1 h2
  omega

theorem gfMulAux_lt (k c y : Nat) (hy : y < 256) : gfMulAux k c y < 256 := by
  induction k generalizing c y with
  | zero => simp [gfMulAux]
  | succ k ih =>
    simp only [gfMulAux]
    have h1 : (if c % 2 = 1 then y else 0) < 2 ^ 8 := by split <;> omega
    have h2 : gfMulAux k (c / 2) (xtime y) < 2 ^ 8 := by
      have := ih (c / 2) (xtime y) (xtime_lt y); omega
    have := Nat.xor_lt_two_pow h1 h2
    omega

theorem gfMul_lt (c y : Nat) (hy : y < 256) : gfMul c y < 256 := gfMulAux_lt 8 c y hy

theorem xor_lt_256 {a b : Nat} (ha : a < 256) (hb : b < 256) : a ^^^ b < 256 := by
  have := @Nat.xor_lt_two_pow a b 8 (by omega) (by omega)
  omega

theorem evalPoly_lt (cs : List Byte) (x : Nat) : evalPoly (cs.map Fin.val) x < 256 := by
  induction cs with
  | nil => simp [evalPoly]
  | cons c cs ih =>
    simp only [evalPoly, List.map, List.foldr] at ih ⊢
    exact xor_lt_256 c.isLt (gfMul_lt _ _ ih)

theorem byteOfNat_val (b : Byte) : byteOfNat b.val = b := by
  apply Fin.ext
  simp [byteOfNat, Nat.mod_eq_of_lt b.isLt]

theorem byteOfNat_evalPoly (cs : List Byte) (x : Nat) :
    (byteOfNat (evalPoly (cs.map Fin.val) x)).val = evalPoly (cs.map Fin.val) x := by
  simp [byteOfNat, Nat.mod_eq_of_lt (evalPoly_lt cs x)]

/-! ### Interpolation of one byte -/

/-- Two points of a polynomial of degree at most 1 give its constant term. -/
theorem pair_interp (x1 x2 : Nat)
    (h1 : ∀ s : Fin 256, gfMul (lagrangeBasis [x1, x2] x1) s.val
      ^^^ gfMul (lagrangeBasis [x1, x2] x2) s.val = s.val)
    (h2 : ∀ a : Fin 256, gfMul (lagrangeBasis [x1, x2] x1) (gfMul x1 a.val)
      ^^^ gfMul (lagrangeBasis [x1, x2] x2) (gfMul x2 a.val) = 0)
    (s : Byte) (cs : List Byte) (hcs : cs.length ≤ 1) :
    lagrangeZero [(x1, (byteOfNat (evalPoly ((s :: cs).map Fin.val) x1)).val),
      (x2, (byteOfNat (evalPoly ((s :: cs).map Fin.val) x2)).val)] = s.val := by
  rw [byteOfNat_evalPoly, byteOfNat_evalPoly]
  match cs, hcs with
  | [], _ =>
    simp only [lagrangeZero, evalPoly, List.map, List.foldr, gfMul_zero, Nat.xor_zero]
    exact h1 s
  | [a], _ =>
    simp only [lagrangeZero, evalPoly, List.map, List.foldr, gfMul_zero, Nat.xor_zero,
      gfMul_xor]
    have e : ∀ p q r t : Nat, (p ^^^ q) ^^^ (r ^^^ t) = (p ^^^ r) ^^^ (q ^^^ t) := by
      intro p q r t; ac_rfl
    rw [e, h1 s, h2 a, Nat.xor_zero]

/-- Three points of a polynomial of degree at most 2 give its constant term. -/
theorem triple_interp (x1 x2 x3 : Nat)
    (h1 : ∀ s : Fin 256, gfMul (lagrangeBasis [x1, x2, x3] x1) s.val
      ^^^ (gfMul (lagrangeBasis [x1, x2, x3] x2) s.val
      ^^^ gfMul (lagrangeBasis [x1, x2, x3] x3) s.val) = s.val)
    (h2 : ∀ a : Fin 256, gfMul (lagrangeBasis [x1, x2, x3] x1) (gfMul x1 a.val)
      ^^^ (gfMul (lagrangeBasis [x1, x2, x3] x2) (gfMul x2 a.val)
      ^^^ gfMul (lagrangeBasis [x1, x2, x3] x3) (gfMul x3 a.val)) = 0)
    (h3 : ∀ b : Fin 256, gfMul (lagrangeBasis [x1, x2, x3] x1) (gfMul x1 (gfMul x1 b.val))
      ^^^ (gfMul (lagrangeBasis [x1, x2, x3] x2) (gfMul x2 (gfMul x2 b.val))
      ^^^ gfMul (lagrangeBasis [x1, x2, x3] x3) (gfMul x3 (gfMul x3 b.val))) = 0)
    (s : Byte) (cs : List Byte) (hcs : cs.length ≤ 2) :
    lagrangeZero [(x1, (byteOfNat (evalPoly ((s :: cs).map Fin.val) x1)).val),
      (x2, (byteOfNat (evalPoly ((s :: cs).map Fin.val) x2)).val),
      (x3, (byteOfNat (evalPoly ((s :: cs).map Fin.val) x3)).val)] = s.val := by
  rw [byteOfNat_evalPoly, byteOfNat_evalPoly, byteOfNat_evalPoly]
  match cs, hcs with
  | [], _ =>
    simp only [lagrangeZero, evalPoly, List.map, List.foldr, gfMul_zero, Nat.xor_zero]
    exact h1 s
  | [a], _ =>
    simp only [lagrangeZero, evalPoly, List.map, List.foldr, gfMul_zero, Nat.xor_zero,
      gfMul_xor]
    have e : ∀ p q r t u v : Nat,
        (p ^^^ q) ^^^ ((r ^^^ t) ^^^ (u ^^^ v)) = (p ^^^ (r ^^^ u)) ^^^ (q ^^^ (t ^^^ v)) := by
      intro p q r t u v; ac_rfl
    rw [e, h1 s, h2 a, Nat.xor_zero]
  | [a, b], _ =>
    simp only [lagrangeZero, evalPoly, List.map, List.foldr, gfMul_zero, Nat.xor_zero,
      gfMul_xor]
    have e : ∀ p q q2 r t t2 u v v2 : Nat,
        (p ^^^ (q ^^^ q2)) ^^^ ((r ^^^ (t ^^^ t2)) ^^^ (u ^^^ (v ^^^ v2)))
          = (p ^^^ (r ^^^ u)) ^^^ ((q ^^^ (t ^^^ v)) ^^^ (q2 ^^^ (t2 ^^^ v2))) := by
      intro p q q2 r t t2 u v v2; ac_rfl
    rw [e, h1 s, h2 a, h3 b, Nat.xor_zero, Nat.xor_zero]

theorem triple_123 (s : Byte) (cs : List Byte) (hcs : cs.length ≤ 2) :
    lagrangeZero [(1, (byteOfNat (evalPoly ((s :: cs).map Fin.val) 1)).val),
      (2, (byteOfNat (evalPoly ((s :: cs).map Fin.val) 2)).val),
      (3, (byteOfNat (evalPoly ((s :: cs).map Fin.val) 3)).val)] = s.val :=
  triple_interp 1 2 3 (by decide) (by decide) (by decide) s cs hcs


/-! ### Shares of a whole secret -/

theorem shareValues_length (t x : Nat) (secret : Buffer) (rnd : List Byte) :
    (shareValues t x secret rnd).length = secret.length := by
  induction secret generalizing rnd with
  | nil => rfl
  | cons s ss ih => simp [shareValues, ih]

/-- Byte `k` of every share is the value of one polynomial with constant term
`secret[k]` and at most `t - 1` further coefficients. -/
theorem shareValues_getD (t : Nat) (secret : Buffer) (rnd : List Byte) (k : Nat)
    (hk : k < secret.length) :
    ∃ cs : List Byte, cs.length ≤ t - 1 ∧ ∀ x,
      (shareValues t x secret rnd).getD k 0
        = byteOfNat (evalPoly ((secret.getD k 0 :: cs).map Fin.val) x) := by
  induction secret generalizing rnd k with
  | nil => simp at hk
  | cons s ss ih =>
    cases k with
    | zero =>
      refine ⟨rnd.take (t - 1), List.length_take_le _ _, fun x => ?_⟩
      simp [shareValues]
    | succ k =>
      obtain ⟨cs, hcs, h⟩ := ih (rnd.drop (t - 1)) k (by simpa using hk)
      refine ⟨cs, hcs, fun x => ?_⟩
      simpa [shareValues] using h x

/-- The three shares with indices 1, 2, 3 of a split with threshold at most 3
recombine to the secret. -/
theorem shamirCombine_three (t : Nat) (ht : t ≤ 3) (secret : Buffer) (rnd : List Byte) :
    shamirCombine [byteOfNat 1 :: shareValues t 1 secret rnd,
      byteOfNat 2 :: shareValues t 2 secret rnd,
      byteOfNat 3 :: shareValues t 3 secret rnd] = some secret := by
  have hb : ∀ n : Nat, n < 256 → (byteOfNat n).val = n := fun n hn => by
    simp [byteOfNat, Nat.mod_eq_of_lt hn]
  simp only [shamirCombine]
  rw [if_pos (by
    refine ⟨by simp, ?_⟩
    simp only [List.map, List.headD, hb 1 (by omega), hb 2 (by omega), hb 3 (by omega)]
    decide)]
  congr 1
  apply List.ext_getElem
  · simp [shareValues_length]
  · intro k h1 h2
    have hk : k < secret.length := h2
    obtain ⟨cs, hcs, h⟩ := shareValues_getD t secret rnd k hk
    have h3 := triple_123 (secret.getD k 0) cs (by omega)
    simp only [List.getElem_map, List.getElem_range, List.map, List.headD, List.getD_cons_succ,
      h 1, h 2, h 3, hb 1 (by omega), hb 2 (by omega), hb 3 (by omega)] at h3 ⊢
    rw [h3, byteOfNat_val]
    simp [List.getD_eq_getElem?_getD, List.getElem?_eq_getElem hk]


/-! ### The reference platform has the assumed properties -/

theorem refStream_refStream (pad : Byte) (data : Buffer) :
    refStream pad (refStream pad data) = data := by
  induction data with
  | nil => rfl
  | cons b bs ih =>
    simp only [refStream, List.map] at ih ⊢
    rw [ih, byte_xor_cancel]

theorem char_toNat_lt (c : Char) : c.toNat < 16777216 := by
  have h := c.valid
  simp only [Char.toNat]
  rcases h with h | ⟨_, h⟩
  · have : c.val.toNat < 55296 := h
    omega
  · have : c.val.toNat < 1114112 := h
    omega

theorem bytesToChars_flatMap (cs : List Char) :
    bytesToChars (cs.flatMap fun c =>
      [byteOfNat (c.toNat / 65536), byteOfNat (c.toNat / 256), byteOfNat c.toNat]) = cs := by
  induction cs with
  | nil => rfl
  | cons c cs ih =>
    simp only [List.flatMap_cons, List.cons_append, List.nil_append, bytesToChars, ih]
    congr 1
    have h := char_toNat_lt c
    have e : 65536 * (byteOfNat (c.toNat / 65536)).val + 256 * (byteOfNat (c.toNat / 256)).val
        + (byteOfNat c.toNat).val = c.toNat := by
      simp only [byteOfNat]
      omega
    rw [e, Char.ofNat_toNat]

theorem refPlatform_cipherRoundTrip : refPlatform.CipherRoundTrip := by
  intro key iv text hkey hiv
  refine ⟨?_, "", ?_, ?_⟩
  · have hne : iv ≠ [] := fun h => by simp [h] at hiv
    simp [refPlatform, refTag, hkey, hne]
  · simp [refPlatform]
  · simp only [refPlatform, refStream_refStream, textToBytes, bytesToChars_flatMap,
      String.append_empty]

theorem refPlatform_zlibRoundTrip : refPlatform.ZlibRoundTrip := by
  intro buf
  simp [refPlatform, refDeflate, refInflate]

theorem refPlatform_pbkdf2Length : refPlatform.Pbkdf2Length := by
  intro password salt iterations keylen digest
  simp [refPlatform, refPbkdf2]

theorem refPlatform_thresholdRecombines : refPlatform.ThresholdRecombines := by
  intro secret n t rnd s1 s2 s3 rest h ht
  simp only [refPlatform, shamirSplit] at h ⊢
  split at h
  · rename_i hc
    obtain ⟨ht0, htn, hn⟩ := hc
    simp only [Option.some.injEq] at h
    have hlen := congrArg List.length h
    simp only [List.length_map, List.length_range, List.length_cons] at hlen
    obtain ⟨m, hm⟩ : ∃ m, n.toNat = m + 3 := ⟨n.toNat - 3, by omega⟩
    rw [hm, List.range_succ_eq_map, List.range_succ_eq_map, List.range_succ_eq_map] at h
    simp only [List.map_cons, List.map_map, List.cons.injEq] at h
    obtain ⟨h1, h2, h3, _⟩ := h
    rw [← h1, ← h2, ← h3]
    exact shamirCombine_three t.toNat (by omega) secret rnd
  · simp at h

/-! ### The services: shared lemmas -/

theorem loadEncryptionKey_ok {env : ProcessEnv} {key : Buffer}
    (h : loadEncryptionKey env = .ok key) :
    ∃ s, env.ENCRYPTION_KEY = some s ∧ fromHex s = key ∧ key.length = 32 := by
  unfold loadEncryptionKey at h
  cases hk : env.ENCRYPTION_KEY with
  | none => simp [hk] at h
  | some s =>
    simp only [hk] at h
    by_cases hl : (fromHex s).length = 32
    · simp only [hl, ne_eq, not_true_eq_false, if_false, Except.ok.injEq] at h
      exact ⟨s, rfl, h, h ▸ hl⟩
    · simp [hl] at h

theorem decrypt_encrypt_eq (P : Platform) (hc : P.CipherRoundTrip) (key iv : Buffer)
    (hkey : key.length = 32) (hiv : iv.length = 16) (text : String) :
    decrypt P key (encrypt P key iv text).encrypted (encrypt P key iv text).iv
      (encrypt P key iv text).authTag = .ok text := by
  obtain ⟨hinit, rest, hfinal, htext⟩ := hc key iv text hkey hiv
  simp only [decrypt, encrypt, fromHex_toHex, hinit, hfinal, htext]
  simp

theorem keyLength_self (n : Nat) : keyLength (some n) n = n := by
  unfold keyLength
  split <;> simp_all

theorem xorLoop_length (buf key : Buffer) : (xorLoop buf key).length = buf.length :=
  xorLoopFrom_length key buf 0

theorem unmask_mask (P : Platform) (pin : String) (saltBytes share3 : Buffer) :
    unmaskShare3 P pin (maskShare3 P pin saltBytes share3).1
      (toHex (maskShare3 P pin saltBytes share3).2) (some share3.length) = share3 := by
  simp only [unmaskShare3, maskShare3, fromHex_toHex, xorLoop_length, keyLength_self]
  exact xorLoopFrom_involutive _ _ 0

theorem generateAndSplitKey_ok {P : Platform} {env : ProcessEnv} {key : Buffer}
    {rnd : Entropy} {pin : String} {B : KeyBundle}
    (h : generateAndSplitKey P env key rnd pin = .ok B) :
    ∃ cardPublicKey share1 share2 share3 rest,
      P.fromRawEd25519Seed rnd.seed = some cardPublicKey ∧
      P.split rnd.seed (totalShares env) (threshold env) rnd.splitRandom
        = some (share1 :: share2 :: share3 :: rest) ∧
      B = { cardPublicKey := cardPublicKey
            share1Encrypted := (encrypt P key rnd.iv (toHex share1)).encrypted
            share1Iv := (encrypt P key rnd.iv (toHex share1)).iv
            share1AuthTag := (encrypt P key rnd.iv (toHex share1)).authTag
            share1Hash := hash P (toHex share1)
            share2 := toHex (P.deflateSync share2)
            share3Salt := (maskShare3 P pin rnd.salt share3).1
            share3Encrypted := toHex (maskShare3 P pin rnd.salt share3).2
            share3Length := share3.length } := by
  unfold generateAndSplitKey at h
  split at h
  · rename_i bundle hbody
    simp only [Except.ok.injEq] at h
    subst h
    unfold generateAndSplitKeyBody at hbody
    split at hbody
    · simp at hbody
    · rename_i pk hpk
      dsimp only at hbody
      split at hbody
      · simp at hbody
      · rename_i s1 s2 s3 rest hsplit
        simp only [Except.ok.injEq] at hbody
        exact ⟨pk, s1, s2, s3, rest, hpk, hsplit, hbody.symm⟩
      · simp at hbody
  · simp at h

theorem reconstructKey_error {P : Platform} {key : Buffer} {share1Data : EncryptedShare}
    {share2Hex pin share3Salt share3Encrypted : String} {share3Length : Option Nat}
    {e : String}
    (h : reconstructKey P key share1Data share2Hex pin share3Salt share3Encrypted
      share3Length = .error e) : e = reconstructError := by
  unfold reconstructKey at h
  split at h
  · simp at h
  · simp only [Except.error.injEq] at h
    exact h.symm

theorem reconstructKey_ok_length {P : Platform} {key : Buffer} {share1Data : EncryptedShare}
    {share2Hex pin share3Salt share3Encrypted : String} {share3Length : Option Nat}
    {K : Buffer}
    (h : reconstructKey P key share1Data share2Hex pin share3Salt share3Encrypted
      share3Length = .ok K) : K.length = 32 := by
  unfold reconstructKey at h
  split at h
  · rename_i privateKey hbody
    simp only [Except.ok.injEq] at h
    subst h
    unfold reconstructKeyBody at hbody
    split at hbody
    · simp at hbody
    · dsimp only at hbody
      split at hbody
      · simp at hbody
      · split at hbody
        · simp at hbody
        · rename_i reconstructed _
          by_cases hl : reconstructed.length = 32
          · simp only [hl, ne_eq, not_true_eq_false, if_false, Except.ok.injEq] at hbody
            exact hbody ▸ hl
          · simp [hl] at hbody
  · simp at h

/-- With the properties of the libraries, a threshold of at most 3 and well-formed random
values, `reconstructKey` on a generated bundle and the same PIN returns the seed. -/
theorem reconstructKey_generated (P : Platform) (hc : P.CipherRoundTrip)
    (hz : P.ZlibRoundTrip) (hs : P.ThresholdRecombines) (env : ProcessEnv) (key : Buffer)
    (hkey : key.length = 32) (ht : threshold env ≤ 3) (rnd : Entropy)
    (hseed : rnd.seed.length = 32) (hiv : rnd.iv.length = 16) (pin : String) (B : KeyBundle)
    (hB : generateAndSplitKey P env key rnd pin = .ok B) :
    reconstructKey P key
      { encrypted := B.share1Encrypted, iv := B.share1Iv, authTag := B.share1AuthTag }
      B.share2 pin B.share3Salt B.share3Encrypted (some B.share3Length) = .ok rnd.seed := by
  obtain ⟨pk, s1, s2, s3, rest, _, hsplit, rfl⟩ := generateAndSplitKey_ok hB
  have hcomb := hs _ _ _ _ _ _ _ _ hsplit ht
  simp only [reconstructKey, reconstructKeyBody,
    decrypt_encrypt_eq P hc key rnd.iv hkey hiv, fromHex_toHex, hz s2, unmask_mask, hcomb,
    hseed]
  simp

/-! ### C1: round trip of key custody -/

/-- C1, as the code has it: for every PIN, when the configured threshold is at most 3 (the
default split of 3 shares with threshold 2 included) and `generateAndSplitKey` returns a
bundle, `reconstructKey` on the bundle's encrypted share 1, share 2, the same PIN, salt,
masked share 3 and length returns a 32-byte key that `verifyKey` accepts against the
bundle's public key; the key is the generated seed. -/
theorem generate_reconstruct_round_trip (P : Platform) (hc : P.CipherRoundTrip)
    (hz : P.ZlibRoundTrip) (hs : P.ThresholdRecombines) (env : ProcessEnv) (key : Buffer)
    (hload : loadEncryptionKey env = .ok key) (ht : threshold env ≤ 3) (rnd : Entropy)
    (hseed : rnd.seed.length = 32) (hiv : rnd.iv.length = 16) (pin : String) (B : KeyBundle)
    (hB : generateAndSplitKey P env key rnd pin = .ok B) :
    ∃ K, reconstructKey P key
        { encrypted := B.share1Encrypted, iv := B.share1Iv, authTag := B.share1AuthTag }
        B.share2 pin B.share3Salt B.share3Encrypted (some B.share3Length) = .ok K ∧
      K.length = 32 ∧ verifyKey P K B.cardPublicKey = true ∧ K = rnd.seed := by
  obtain ⟨_, _, _, hkey⟩ := loadEncryptionKey_ok hload
  refine ⟨rnd.seed,
    reconstructKey_generated P hc hz hs env key hkey ht rnd hseed hiv pin B hB, hseed, ?_, rfl⟩
  obtain ⟨pk, s1, s2, s3, rest, hpk, _, rfl⟩ := generateAndSplitKey_ok hB
  simp [verifyKey, hpk]

/-- Witness of C1 on the reference platform: the default environment, PIN 1234. -/
theorem generate_reconstruct_round_trip_witness :
    generateAndSplitKey refPlatform sampleEnv sampleKey sampleEntropy "1234" = .ok sampleBundle ∧
    ∃ K, reconstructKey refPlatform sampleKey
        { encrypted := sampleBundle.share1Encrypted, iv := sampleBundle.share1Iv,
          authTag := sampleBundle.share1AuthTag }
        sampleBundle.share2 "1234" sampleBundle.share3Salt sampleBundle.share3Encrypted
        (some sampleBundle.share3Length) = .ok K ∧
      K.length = 32 ∧ verifyKey refPlatform K sampleBundle.cardPublicKey = true ∧
      K = sampleEntropy.seed :=
  ⟨by decide,
    generate_reconstruct_round_trip refPlatform refPlatform_cipherRoundTrip
      refPlatform_zlibRoundTrip refPlatform_thresholdRecombines sampleEnv sampleKey
      (by decide) (by decide) sampleEntropy (by decide) (by decide) "1234" sampleBundle
      (by decide)⟩

/-- Counterexample to C1 as stated: with `SSS_TOTAL_SHARES=5` and `SSS_THRESHOLD=4` the
module loads, `generateAndSplitKey` returns a bundle for PIN 1234, `reconstructKey` with
the same PIN returns a key, and `verifyKey` rejects it: three of five shares are below
the threshold of 4. -/
theorem round_trip_fails_four_of_five :
    loadEncryptionKey fourOfFiveEnv = .ok sampleKey ∧
    testSSS refPlatform fourOfFiveEnv sampleKey sampleEntropy "1234" = .ok false := by
  decide

/-! ### Steps 4 and 5 of the handler -/

/-- The outcome of steps 4 and 5 depends on the PIN only through the keystream derived
from it for the stored salt and length. -/
theorem reconstructAndVerify_congr (P : Platform) (key : Buffer) (card : KeyBundle)
    (share2 pin pin2 : String)
    (h : deriveKeyFromPIN P pin2 card.share3Salt
        (some (keyLength (some card.share3Length) (fromHex card.share3Encrypted).length))
      = deriveKeyFromPIN P pin card.share3Salt
        (some (keyLength (some card.share3Length) (fromHex card.share3Encrypted).length))) :
    reconstructAndVerify P key card share2 pin2 = reconstructAndVerify P key card share2 pin := by
  simp only [reconstructAndVerify, reconstructKey, reconstructKeyBody, unmaskShare3, h]

/-! ### C3: the 2-of-3 threshold -/

theorem shamirCombine_two (x1 x2 : Nat) (hx1 : x1 < 256) (hx2 : x2 < 256) (hne : x1 ≠ x2)
    (h1 : ∀ s : Fin 256, gfMul (lagrangeBasis [x1, x2] x1) s.val
      ^^^ gfMul (lagrangeBasis [x1, x2] x2) s.val = s.val)
    (h2 : ∀ a : Fin 256, gfMul (lagrangeBasis [x1, x2] x1) (gfMul x1 a.val)
      ^^^ gfMul (lagrangeBasis [x1, x2] x2) (gfMul x2 a.val) = 0)
    (secret : Buffer) (rnd : List Byte) :
    shamirCombine [byteOfNat x1 :: shareValues 2 x1 secret rnd,
      byteOfNat x2 :: shareValues 2 x2 secret rnd] = some secret := by
  have hb : ∀ n : Nat, n < 256 → (byteOfNat n).val = n := fun n hn => by
    simp [byteOfNat, Nat.mod_eq_of_lt hn]
  simp only [shamirCombine]
  rw [if_pos (by
    refine ⟨by simp, ?_⟩
    simp only [List.map, List.headD, hb x1 hx1, hb x2 hx2]
    simp [hne])]
  congr 1
  apply List.ext_getElem
  · simp [shareValues_length]
  · intro k _ h2k
    have hk : k < secret.length := h2k
    obtain ⟨cs, hcs, h⟩ := shareValues_getD 2 secret rnd k hk
    have h3 := pair_interp x1 x2 h1 h2 (secret.getD k 0) cs (by omega)
    simp only [List.getElem_map, List.getElem_range, List.map, List.headD, List.getD_cons_succ,
      h x1, h x2, hb x1 hx1, hb x2 hx2] at h3 ⊢
    rw [h3, byteOfNat_val]
    simp [List.getD_eq_getElem?_getD, List.getElem?_eq_getElem hk]

/-- C3: for every 32-byte secret and all random bytes, `split` with 3 shares and threshold
2 returns three shares, and `combine` of any two distinct ones, in either order, is the
secret. -/
theorem split_combine_pairs (S : Buffer) (hS : S.length = 32) (rnd : List Byte) :
    ∃ s1 s2 s3, shamirSplit S 3 2 rnd = some [s1, s2, s3] ∧
      shamirCombine [s1, s2] = some S ∧ shamirCombine [s2, s1] = some S ∧
      shamirCombine [s1, s3] = some S ∧ shamirCombine [s3, s1] = some S ∧
      shamirCombine [s2, s3] = some S ∧ shamirCombine [s3, s2] = some S ∧
      s1.length = 33 ∧ s2.length = 33 ∧ s3.length = 33 := by
  refine ⟨byteOfNat 1 :: shareValues 2 1 S rnd, byteOfNat 2 :: shareValues 2 2 S rnd,
    byteOfNat 3 :: shareValues 2 3 S rnd, by simp [shamirSplit, List.range_succ], ?_⟩
  refine ⟨?_, ?_, ?_, ?_, ?_, ?_, ?_, ?_, ?_⟩
  · exact shamirCombine_two 1 2 (by omega) (by omega) (by omega) (by decide) (by decide) S rnd
  · exact shamirCombine_two 2 1 (by omega) (by omega) (by omega) (by decide) (by decide) S rnd
  · exact shamirCombine_two 1 3 (by omega) (by omega) (by omega) (by decide) (by decide) S rnd
  · exact shamirCombine_two 3 1 (by omega) (by omega) (by omega) (by decide) (by decide) S rnd
  · exact shamirCombine_two 2 3 (by omega) (by omega) (by omega) (by decide) (by decide) S rnd
  · exact shamirCombine_two 3 2 (by omega) (by omega) (by omega) (by decide) (by decide) S rnd
  · simp [shareValues_length, hS]
  · simp [shareValues_length, hS]
  · simp [shareValues_length, hS]

/-- Witness of C3: the sample seed and the sample random bytes. -/
theorem split_combine_pairs_witness :
    sampleEntropy.seed.length = 32 ∧
    ∃ s1 s2 s3, shamirSplit sampleEntropy.seed 3 2 sampleEntropy.splitRandom = some [s1, s2, s3] ∧
      shamirCombine [s1, s2] = some sampleEntropy.seed ∧
      shamirCombine [s2, s1] = some sampleEntropy.seed ∧
      shamirCombine [s1, s3] = some sampleEntropy.seed ∧
      shamirCombine [s3, s1] = some sampleEntropy.seed ∧
      shamirCombine [s2, s3] = some sampleEntropy.seed ∧
      shamirCombine [s3, s2] = some sampleEntropy.seed ∧
      s1.length = 33 ∧ s2.length = 33 ∧ s3.length = 33 :=
  ⟨by decide, split_combine_pairs sampleEntropy.seed (by decide) sampleEntropy.splitRandom⟩

/-! ### C4: the PIN mask of share 3 -/

/-- C4: when `generateAndSplitKey` returns a bundle, the bundle's masked share 3 has as
many bytes as the third share of the split, `share3Length` is that number, and the XOR
of `reconstructKey` with the keystream of the same PIN, salt and length gives back the
third share exactly. -/
theorem share3_mask_round_trip (P : Platform) (env : ProcessEnv) (key : Buffer)
    (rnd : Entropy) (pin : String) (B : KeyBundle)
    (hB : generateAndSplitKey P env key rnd pin = .ok B) :
    ∃ s1 s2 s3 rest,
      P.split rnd.seed (totalShares env) (threshold env) rnd.splitRandom
        = some (s1 :: s2 :: s3 :: rest) ∧
      B.share3Salt = generateSalt rnd.salt ∧
      B.share3Encrypted
        = toHex (xorLoop s3 (deriveKeyFromPIN P pin B.share3Salt (some s3.length))) ∧
      (fromHex B.share3Encrypted).length = s3.length ∧
      B.share3Length = s3.length ∧
      unmaskShare3 P pin B.share3Salt B.share3Encrypted (some B.share3Length) = s3 := by
  obtain ⟨pk, s1, s2, s3, rest, _, hsplit, rfl⟩ := generateAndSplitKey_ok hB
  refine ⟨s1, s2, s3, rest, hsplit, rfl, rfl, ?_, rfl, unmask_mask P pin rnd.salt s3⟩
  simp [fromHex_toHex, maskShare3, xorLoop_length]

/-- Witness of C4: the sample bundle. -/
theorem share3_mask_round_trip_witness :
    generateAndSplitKey refPlatform sampleEnv sampleKey sampleEntropy "1234" = .ok sampleBundle ∧
    ∃ s1 s2 s3 rest,
      refPlatform.split sampleEntropy.seed (totalShares sampleEnv) (threshold sampleEnv)
        sampleEntropy.splitRandom = some (s1 :: s2 :: s3 :: rest) ∧
      sampleBundle.share3Salt = generateSalt sampleEntropy.salt ∧
      sampleBundle.share3Encrypted
        = toHex (xorLoop s3
            (deriveKeyFromPIN refPlatform "1234" sampleBundle.share3Salt (some s3.length))) ∧
      (fromHex sampleBundle.share3Encrypted).length = s3.length ∧
      sampleBundle.share3Length = s3.length ∧
      unmaskShare3 refPlatform "1234" sampleBundle.share3Salt sampleBundle.share3Encrypted
        (some sampleBundle.share3Length) = s3 :=
  ⟨by decide,
    share3_mask_round_trip refPlatform sampleEnv sampleKey sampleEntropy "1234" sampleBundle
      (by decide)⟩

/-! ### C5: the keystream length of `reconstructKey` -/

/-- C5, as the code has it: `reconstructKey` takes the keystream length from its
`share3Length` argument when that is a non-zero number and from the byte length of the
masked share when the argument is 0 or undefined; the keystream has that many bytes; the
two lengths are not compared.  The share 3 handed to `combine` always has the byte
length of the masked share, and it is the masked share XORed with the keystream. -/
theorem unmask_keystream_length (P : Platform) (hlen : P.Pbkdf2Length) (pin salt : String)
    (share3Encrypted : String) (share3Length : Option Nat) :
    (share3Length = none ∨ share3Length = some 0 →
      keyLength share3Length (fromHex share3Encrypted).length
        = (fromHex share3Encrypted).length) ∧
    (∀ n, share3Length = some n → n ≠ 0 →
      keyLength share3Length (fromHex share3Encrypted).length = n) ∧
    (deriveKeyFromPIN P pin salt
      (some (keyLength share3Length (fromHex share3Encrypted).length))).length
        = keyLength share3Length (fromHex share3Encrypted).length ∧
    unmaskShare3 P pin salt share3Encrypted share3Length
      = xorLoop (fromHex share3Encrypted)
          (deriveKeyFromPIN P pin salt
            (some (keyLength share3Length (fromHex share3Encrypted).length))) ∧
    (unmaskShare3 P pin salt share3Encrypted share3Length).length
      = (fromHex share3Encrypted).length := by
  refine ⟨?_, ?_, ?_, rfl, ?_⟩
  · rintro (h | h) <;> simp [h, keyLength]
  · intro n h hn
    simp [h, keyLength, hn]
  · simp [deriveKeyFromPIN, hlen _ _ _ _ _]
  · simp [unmaskShare3, xorLoop_length]

/-- Witness of C5 as amended: the sample bundle with the length argument 32 for a masked
share of 33 bytes. -/
theorem unmask_keystream_length_witness :
    keyLength (some 32) (fromHex sampleBundle.share3Encrypted).length = 32 ∧
    (unmaskShare3 refPlatform "1234" sampleBundle.share3Salt sampleBundle.share3Encrypted
      (some 32)).length = (fromHex sampleBundle.share3Encrypted).length :=
  ⟨(unmask_keystream_length refPlatform refPlatform_pbkdf2Length "1234"
      sampleBundle.share3Salt sampleBundle.share3Encrypted (some 32)).2.1 32 rfl (by decide),
    (unmask_keystream_length refPlatform refPlatform_pbkdf2Length "1234"
      sampleBundle.share3Salt sampleBundle.share3Encrypted (some 32)).2.2.2.2⟩

/-- Counterexample to C5 as stated: `reconstructKey` is called on the sample bundle with
the length argument 32 while the masked share 3 has 33 bytes.  The keystream has 32
bytes, the last byte of the share 3 handed to `combine` is the masked byte, the share
differs from the one unmasked with 33 bytes, and `reconstructKey` returns a key whose
last byte is 164 where the secret has 220: nothing detects the mismatch. -/
theorem short_length_goes_undetected :
    (fromHex sampleBundle.share3Encrypted).length = 33 ∧
    keyLength (some 32) (fromHex sampleBundle.share3Encrypted).length = 32 ∧
    (unmaskShare3 refPlatform "1234" sampleBundle.share3Salt sampleBundle.share3Encrypted
      (some 32)).getD 32 0 = (fromHex sampleBundle.share3Encrypted).getD 32 0 ∧
    unmaskShare3 refPlatform "1234" sampleBundle.share3Salt sampleBundle.share3Encrypted
      (some 32) ≠
      unmaskShare3 refPlatform "1234" sampleBundle.share3Salt sampleBundle.share3Encrypted
        (some 33) ∧
    reconstructKey refPlatform sampleKey sampleShare1 sampleBundle.share2 "1234"
      sampleBundle.share3Salt sampleBundle.share3Encrypted (some 32)
      = .ok (sampleEntropy.seed.take 31 ++ [164]) ∧
    sampleEntropy.seed.getD 31 0 = 220 := by
  decide

/-! ### C6: the share cipher round trip -/

/-- C6: for every text and every iv of 16 random bytes, under a master key the module
loaded, `decrypt` of the three hex strings `encrypt` returned is exactly the text. -/
theorem decrypt_encrypt_round_trip (P : Platform) (hc : P.CipherRoundTrip)
    (env : ProcessEnv) (key : Buffer) (hload : loadEncryptionKey env = .ok key)
    (iv : Buffer) (hiv : iv.length = 16) (X : String) :
    decrypt P key (encrypt P key iv X).encrypted (encrypt P key iv X).iv
      (encrypt P key iv X).authTag = .ok X ∧
    fromHex (encrypt P key iv X).encrypted = (P.cipher key iv X).1 ∧
    fromHex (encrypt P key iv X).iv = iv ∧
    fromHex (encrypt P key iv X).authTag = (P.cipher key iv X).2 := by
  obtain ⟨_, _, _, hkey⟩ := loadEncryptionKey_ok hload
  exact ⟨decrypt_encrypt_eq P hc key iv hkey hiv X, by simp [encrypt, fromHex_toHex],
    by simp [encrypt, fromHex_toHex], by simp [encrypt, fromHex_toHex]⟩

/-- Witness of C6: the sample key and iv, and a text with a character outside ASCII. -/
theorem decrypt_encrypt_round_trip_witness :
    loadEncryptionKey sampleEnv = .ok sampleKey ∧ sampleEntropy.iv.length = 16 ∧
    decrypt refPlatform sampleKey (encrypt refPlatform sampleKey sampleEntropy.iv "share é").encrypted
      (encrypt refPlatform sampleKey sampleEntropy.iv "share é").iv
      (encrypt refPlatform sampleKey sampleEntropy.iv "share é").authTag = .ok "share é" :=
  ⟨by decide, by decide,
    (decrypt_encrypt_round_trip refPlatform refPlatform_cipherRoundTrip sampleEnv sampleKey
      (by decide) sampleEntropy.iv (by decide) "share é").1⟩

/-! ### C7: `decrypt` on an authentication failure -/

/-- C7: whenever the tag does not verify (`decipher.final` throws), `decrypt` raises an
error and returns no value; the text `decipher.update` had produced is not returned. -/
theorem decrypt_fails_on_bad_tag (P : Platform) (key : Buffer)
    (encrypted iv authTag : String)
    (hfail : P.decipherFinal key (fromHex iv) (fromHex authTag) (fromHex encrypted) = none) :
    (decrypt P key encrypted iv authTag = .error authFailedMessage ∨
      decrypt P key encrypted iv authTag = .error decipherInitMessage) ∧
    (∀ text, decrypt P key encrypted iv authTag ≠ .ok text) ∧
    decrypt P key encrypted iv authTag
      ≠ .ok (P.decipherUpdate key (fromHex iv) (fromHex encrypted)) := by
  have h : decrypt P key encrypted iv authTag = .error authFailedMessage ∨
      decrypt P key encrypted iv authTag = .error decipherInitMessage := by
    unfold decrypt
    by_cases hinit : P.decipherInit key (fromHex iv) (fromHex authTag) = false
    · simp [hinit]
    · simp [hinit, hfail]
  refine ⟨h, ?_, ?_⟩
  · intro text
    rcases h with h | h <;> simp [h]
  · rcases h with h | h <;> simp [h]

/-- Witness of C7: share 1 of the sample bundle with its tag changed; the decipher had
released the whole hex text of share 1, and `decrypt` returns the authentication error. -/
theorem decrypt_fails_on_bad_tag_witness :
    refPlatform.decipherFinal sampleKey (fromHex sampleBundle.share1Iv)
      (fromHex "41404040404040404040404040404040") (fromHex sampleBundle.share1Encrypted)
      = none ∧
    (refPlatform.decipherUpdate sampleKey (fromHex sampleBundle.share1Iv)
      (fromHex sampleBundle.share1Encrypted)).length = 66 ∧
    decrypt refPlatform sampleKey sampleBundle.share1Encrypted sampleBundle.share1Iv
      "41404040404040404040404040404040" = .error authFailedMessage :=
  ⟨by decide, by decide,
    ((decrypt_fails_on_bad_tag refPlatform sampleKey sampleBundle.share1Encrypted
      sampleBundle.share1Iv "41404040404040404040404040404040" (by decide)).1).resolve_right
      (by decide)⟩

/-! ### C8: validation of the master key -/

theorem fromHexChars_length_le (cs : List Char) : (fromHexChars cs).length ≤ cs.length / 2 := by
  induction cs using fromHexChars.induct with
  | case1 c1 c2 cs h l h1 h2 ih =>
    simp only [fromHexChars, h1, h2, List.length_cons]
    omega
  | case2 c1 c2 cs hno =>
    unfold fromHexChars
    split
    · rename_i h l h1 h2
      exact absurd h2 (hno h l h1)
    · simp
  | case3 cs hno =>
    unfold fromHexChars
    split
    · rename_i c1 c2 rest
      exact absurd rfl (hno c1 c2 rest)
    · simp

theorem fromHexChars_length_of_hex (cs : List Char)
    (h : ∀ c ∈ cs, (hexVal c).isSome = true) : (fromHexChars cs).length = cs.length / 2 := by
  induction cs using fromHexChars.induct with
  | case1 c1 c2 cs hv lv h1 h2 ih =>
    simp only [fromHexChars, h1, h2, List.length_cons]
    rw [ih (fun c hc => h c (by simp [hc]))]
    omega
  | case2 c1 c2 cs hno =>
    have e1 := h c1 (by simp)
    have e2 := h c2 (by simp)
    obtain ⟨a, ha⟩ := Option.isSome_iff_exists.mp e1
    obtain ⟨b, hb⟩ := Option.isSome_iff_exists.mp e2
    exact absurd hb (hno a b ha)
  | case3 cs hno =>
    match cs, hno with
    | [], _ => rfl
    | [c], _ => simp [fromHexChars]
    | c1 :: c2 :: rest, hno => exact absurd rfl (hno c1 c2 rest)

/-- C8, as the code has it: loading `encryption.js` yields the key exactly when
`ENCRYPTION_KEY` is set and the bytes `Buffer.from(..., 'hex')` decodes from it are 32;
it fails with the `TypeError` of `Buffer.from` when the variable is absent and with the
key-length error when the decoded bytes are not 32, which includes every string shorter
than 64 characters; every string of exactly 64 hexadecimal digits loads.  `decrypt` does
not raise the key-length error: the check is not repeated per call. -/
theorem loadEncryptionKey_spec (env : ProcessEnv) :
    (∀ key, loadEncryptionKey env = .ok key ↔
      ∃ s, env.ENCRYPTION_KEY = some s ∧ fromHex s = key ∧ (fromHex s).length = 32) ∧
    (env.ENCRYPTION_KEY = none → loadEncryptionKey env = .error bufferFromTypeError) ∧
    (∀ s, env.ENCRYPTION_KEY = some s → (fromHex s).length ≠ 32 →
      loadEncryptionKey env = .error keyLengthMessage) ∧
    (∀ s, env.ENCRYPTION_KEY = some s → s.length < 64 →
      loadEncryptionKey env = .error keyLengthMessage) ∧
    (∀ s, env.ENCRYPTION_KEY = some s → s.length = 64 →
      (∀ c ∈ s.data, (hexVal c).isSome = true) → loadEncryptionKey env = .ok (fromHex s)) ∧
    (∀ (P : Platform) (key : Buffer) (encrypted iv authTag : String),
      decrypt P key encrypted iv authTag ≠ .error keyLengthMessage) := by
  have hbad : ∀ s, env.ENCRYPTION_KEY = some s → (fromHex s).length ≠ 32 →
      loadEncryptionKey env = .error keyLengthMessage := by
    intro s hs hl
    simp [loadEncryptionKey, hs, hl]
  have hgood : ∀ s, env.ENCRYPTION_KEY = some s → (fromHex s).length = 32 →
      loadEncryptionKey env = .ok (fromHex s) := by
    intro s hs hl
    simp [loadEncryptionKey, hs, hl]
  refine ⟨?_, ?_, hbad, ?_, ?_, ?_⟩
  · intro key
    constructor
    · intro h
      obtain ⟨s, hs, hk, hl⟩ := loadEncryptionKey_ok h
      exact ⟨s, hs, hk, hk ▸ hl⟩
    · rintro ⟨s, hs, hk, hl⟩
      rw [← hk]
      exact hgood s hs hl
  · intro h
    simp [loadEncryptionKey, h]
  · intro s hs hlt
    apply hbad s hs
    have := fromHexChars_length_le s.data
    have hl : s.data.length < 64 := hlt
    simp only [fromHex]
    omega
  · intro s hs hlen hhex
    apply hgood s hs
    have := fromHexChars_length_of_hex s.data hhex
    have hl : s.data.length = 64 := hlen
    simp only [fromHex]
    omega
  · intro P key encrypted iv authTag
    unfold decrypt
    split
    · simp only [ne_eq, Except.error.injEq]
      decide
    · split
      · simp only [ne_eq, Except.error.injEq]
        decide
      · simp

/-- Witness of C8 as amended: the sample environment, whose key is 64 hexadecimal
digits, loads with the 32 bytes they encode. -/
theorem loadEncryptionKey_spec_witness :
    sampleEnv.ENCRYPTION_KEY = some (toHex sampleKey) ∧ (toHex sampleKey).length = 64 ∧
    loadEncryptionKey sampleEnv = .ok (fromHex (toHex sampleKey)) ∧
    (fromHex (toHex sampleKey)).length = 32 :=
  ⟨rfl, by decide,
    (loadEncryptionKey_spec sampleEnv).2.2.2.2.1 (toHex sampleKey) rfl (by decide) (by decide),
    by decide⟩

/-- Counterexample to C8 as stated: `ENCRYPTION_KEY` is a string of 66 characters, the
last two of which are not hexadecimal digits; it is not 64 hexadecimal characters, and
the module loads with the key of the first 64. -/
theorem trailing_characters_load :
    trailingEnv.ENCRYPTION_KEY = some (toHex sampleKey ++ "zz") ∧
    (toHex sampleKey ++ "zz").length = 66 ∧
    hexVal (Char.ofNat 122) = none ∧
    loadEncryptionKey trailingEnv = .ok sampleKey := by
  decide

/-! ### C9: the PIN key derivation -/

/-- C9: `deriveKeyFromPIN(pin, salt, n)` is `pbkdf2Sync` with 100000 iterations (at
least 100,000) and SHA-256, returns exactly `n` bytes, and two calls with identical
arguments give identical output. -/
theorem deriveKeyFromPIN_spec (P : Platform) (hlen : P.Pbkdf2Length) (pin salt : String)
    (n : Nat) :
    deriveKeyFromPIN P pin salt (some n)
      = P.pbkdf2Sync pin (fromHex salt) pbkdf2Iterations n "sha256" ∧
    100000 ≤ pbkdf2Iterations ∧
    (deriveKeyFromPIN P pin salt (some n)).length = n ∧
    ∀ (pin2 salt2 : String) (n2 : Nat), pin2 = pin → salt2 = salt → n2 = n →
      deriveKeyFromPIN P pin2 salt2 (some n2) = deriveKeyFromPIN P pin salt (some n) := by
  refine ⟨rfl, by decide, ?_, ?_⟩
  · simp [deriveKeyFromPIN, hlen _ _ _ _ _]
  · intro pin2 salt2 n2 h1 h2 h3
    rw [h1, h2, h3]

/-- Witness of C9: PIN 1234, the sample salt, 33 bytes. -/
theorem deriveKeyFromPIN_spec_witness :
    (deriveKeyFromPIN refPlatform "1234" sampleBundle.share3Salt (some 33)).length = 33 ∧
    100000 ≤ pbkdf2Iterations :=
  ⟨(deriveKeyFromPIN_spec refPlatform refPlatform_pbkdf2Length "1234"
      sampleBundle.share3Salt 33).2.2.1,
    (deriveKeyFromPIN_spec refPlatform refPlatform_pbkdf2Length "1234"
      sampleBundle.share3Salt 33).2.1⟩

/-! ### C10: the single failure of `reconstructKey` -/

/-- C10: `reconstructKey` either fails with its one error, whatever the step that
failed (decryption of share 1, decompression of share 2, `combine`, or the check of the
length), or returns a key of exactly 32 bytes. -/
theorem reconstructKey_single_failure (P : Platform) (key : Buffer)
    (share1Data : EncryptedShare) (share2Hex pin share3Salt share3Encrypted : String)
    (share3Length : Option Nat) :
    (reconstructKey P key share1Data share2Hex pin share3Salt share3Encrypted share3Length
        = .error reconstructError ∨
      ∃ K, reconstructKey P key share1Data share2Hex pin share3Salt share3Encrypted
        share3Length = .ok K ∧ K.length = 32) ∧
    (∀ e, decrypt P key share1Data.encrypted share1Data.iv share1Data.authTag = .error e →
      reconstructKey P key share1Data share2Hex pin share3Salt share3Encrypted share3Length
        = .error reconstructError) ∧
    (P.inflateSync (fromHex share2Hex) = none →
      reconstructKey P key share1Data share2Hex pin share3Salt share3Encrypted share3Length
        = .error reconstructError) ∧
    (∀ share1Decrypted share2,
      decrypt P key share1Data.encrypted share1Data.iv share1Data.authTag
        = .ok share1Decrypted →
      P.inflateSync (fromHex share2Hex) = some share2 →
      P.combine [fromHex share1Decrypted, share2,
        unmaskShare3 P pin share3Salt share3Encrypted share3Length] = none →
      reconstructKey P key share1Data share2Hex pin share3Salt share3Encrypted share3Length
        = .error reconstructError) ∧
    (∀ share1Decrypted share2 reconstructed,
      decrypt P key share1Data.encrypted share1Data.iv share1Data.authTag
        = .ok share1Decrypted →
      P.inflateSync (fromHex share2Hex) = some share2 →
      P.combine [fromHex share1Decrypted, share2,
        unmaskShare3 P pin share3Salt share3Encrypted share3Length] = some reconstructed →
      reconstructed.length ≠ 32 →
      reconstructKey P key share1Data share2Hex pin share3Salt share3Encrypted share3Length
        = .error reconstructError) := by
  refine ⟨?_, ?_, ?_, ?_, ?_⟩
  · cases h : reconstructKey P key share1Data share2Hex pin share3Salt share3Encrypted
        share3Length with
    | error e => rw [reconstructKey_error h]; exact Or.inl rfl
    | ok K => exact Or.inr ⟨K, rfl, reconstructKey_ok_length h⟩
  · intro e h
    simp [reconstructKey, reconstructKeyBody, h]
  · intro h
    unfold reconstructKey reconstructKeyBody
    cases hd : decrypt P key share1Data.encrypted share1Data.iv share1Data.authTag <;>
      simp [h]
  · intro s1 s2 hd hi hcomb
    simp [reconstructKey, reconstructKeyBody, hd, hi, hcomb]
  · intro s1 s2 r hd hi hcomb hl
    simp [reconstructKey, reconstructKeyBody, hd, hi, hcomb, hl]

/-- Witness of C10: the sample bundle with a device share that does not decompress, and
with a tag of share 1 that does not verify: the same error both times. -/
theorem reconstructKey_single_failure_witness :
    refPlatform.inflateSync (fromHex "00") = none ∧
    reconstructKey refPlatform sampleKey sampleShare1 "00" "1234" sampleBundle.share3Salt
      sampleBundle.share3Encrypted (some 33) = .error reconstructError ∧
    reconstructKey refPlatform sampleKey
      { sampleShare1 with authTag := "41404040404040404040404040404040" }
      sampleBundle.share2 "1234" sampleBundle.share3Salt sampleBundle.share3Encrypted (some 33)
      = .error reconstructError :=
  ⟨by decide,
    (reconstructKey_single_failure refPlatform sampleKey sampleShare1 "00" "1234"
      sampleBundle.share3Salt sampleBundle.share3Encrypted (some 33)).2.2.1 (by decide),
    (reconstructKey_single_failure refPlatform sampleKey
      { sampleShare1 with authTag := "41404040404040404040404040404040" }
      sampleBundle.share2 "1234" sampleBundle.share3Salt sampleBundle.share3Encrypted
      (some 33)).2.1 authFailedMessage (by decide)⟩

/-! ### The memory versions give the results of the services -/

theorem reconstructKeyMemory_result (P : Platform) (key : Buffer) (share1Data : EncryptedShare)
    (share2Hex pin share3Salt share3Encrypted : String) (share3Length : Option Nat) :
    (reconstructKeyMemory P key share1Data share2Hex pin share3Salt share3Encrypted
      share3Length).1
      = reconstructKey P key share1Data share2Hex pin share3Salt share3Encrypted
          share3Length := by
  unfold reconstructKeyMemory reconstructKey reconstructKeyBody
  cases decrypt P key share1Data.encrypted share1Data.iv share1Data.authTag with
  | error e => rfl
  | ok t =>
    dsimp only
    cases P.inflateSync (fromHex share2Hex) with
    | none => rfl
    | some share2 =>
      dsimp only [unmaskShare3]
      cases P.combine [fromHex t, share2,
        xorLoop (fromHex share3Encrypted)
          (deriveKeyFromPIN P pin share3Salt
            (some (keyLength share3Length (fromHex share3Encrypted).length)))] with
      | none => rfl
      | some r =>
        dsimp only
        by_cases h : r.length = 32 <;> simp [h]

theorem generateAndSplitKeyMemory_result (P : Platform) (env : ProcessEnv) (key : Buffer)
    (rnd : Entropy) (pin : String) :
    (generateAndSplitKeyMemory P env key rnd pin).1 = generateAndSplitKey P env key rnd pin := by
  unfold generateAndSplitKeyMemory generateAndSplitKey generateAndSplitKeyBody
  cases P.fromRawEd25519Seed rnd.seed with
  | none => rfl
  | some pk =>
    dsimp only
    cases P.split rnd.seed (totalShares env) (threshold env) rnd.splitRandom with
    | none => rfl
    | some shares =>
      match shares with
      | [] => rfl
      | [_] => rfl
      | [_, _] => rfl
      | _ :: _ :: _ :: _ => rfl

/-! ### C11: `reconstructKey` on a failure path -/

/-- On every failure after share 1 was decrypted, the buffer of share 1 still holds the
decrypted share when the error leaves `reconstructKey`. -/
theorem reconstructKeyMemory_failure_share1 (P : Platform) (key : Buffer)
    (share1Data : EncryptedShare) (share2Hex pin share3Salt share3Encrypted : String)
    (share3Length : Option Nat) (t : String)
    (hd : decrypt P key share1Data.encrypted share1Data.iv share1Data.authTag = .ok t)
    (he : (reconstructKeyMemory P key share1Data share2Hex pin share3Salt share3Encrypted
      share3Length).1 = .error reconstructError) :
    (reconstructKeyMemory P key share1Data share2Hex pin share3Salt share3Encrypted
      share3Length).2.share1 = some (fromHex t) := by
  unfold reconstructKeyMemory at he ⊢
  simp only [hd] at he ⊢
  cases hi : P.inflateSync (fromHex share2Hex) with
  | none => rfl
  | some share2 =>
    simp only [hi] at he ⊢
    cases hc : P.combine [fromHex t, share2,
        xorLoop (fromHex share3Encrypted)
          (deriveKeyFromPIN P pin share3Salt
            (some (keyLength share3Length (fromHex share3Encrypted).length)))] with
    | none => rfl
    | some r =>
      simp only [hc] at he ⊢
      by_cases hl : r.length = 32
      · simp [hl] at he
      · simp [hl]

/-- C11, the code at two failing inputs.  First run: the stored sample card with a device
share `00` that does not decompress; `inflateSync` throws after share 1 was decrypted and
the share 1 buffer is not zero-filled when the error propagates.  Second run: the wrong
PIN 0065, for which `combine` throws; share 1, share 2, share 3 and the PIN keystream
all keep their bytes.  Third run, for contrast: with the right PIN the call returns and
the four buffers are zero-filled. -/
theorem reconstructKey_failure_keeps_shares :
    (reconstructKeyMemory refPlatform sampleKey sampleShare1 "00" "1234"
      sampleBundle.share3Salt sampleBundle.share3Encrypted (some 33)).1
      = .error reconstructError ∧
    isWiped (reconstructKeyMemory refPlatform sampleKey sampleShare1 "00" "1234"
      sampleBundle.share3Salt sampleBundle.share3Encrypted (some 33)).2.share1 = false ∧
    (reconstructKeyMemory refPlatform sampleKey sampleShare1 sampleBundle.share2 "0065"
      sampleBundle.share3Salt sampleBundle.share3Encrypted (some 33)).1
      = .error reconstructError ∧
    isWiped (reconstructKeyMemory refPlatform sampleKey sampleShare1 sampleBundle.share2 "0065"
      sampleBundle.share3Salt sampleBundle.share3Encrypted (some 33)).2.share1 = false ∧
    isWiped (reconstructKeyMemory refPlatform sampleKey sampleShare1 sampleBundle.share2 "0065"
      sampleBundle.share3Salt sampleBundle.share3Encrypted (some 33)).2.share2 = false ∧
    isWiped (reconstructKeyMemory refPlatform sampleKey sampleShare1 sampleBundle.share2 "0065"
      sampleBundle.share3Salt sampleBundle.share3Encrypted (some 33)).2.share3 = false ∧
    isWiped (reconstructKeyMemory refPlatform sampleKey sampleShare1 sampleBundle.share2 "0065"
      sampleBundle.share3Salt sampleBundle.share3Encrypted (some 33)).2.pinKey = false ∧
    (reconstructKeyMemory refPlatform sampleKey sampleShare1 sampleBundle.share2 "1234"
      sampleBundle.share3Salt sampleBundle.share3Encrypted (some 33)).1
      = .ok sampleEntropy.seed ∧
    isWiped (reconstructKeyMemory refPlatform sampleKey sampleShare1 sampleBundle.share2 "1234"
      sampleBundle.share3Salt sampleBundle.share3Encrypted (some 33)).2.share1 = true ∧
    isWiped (reconstructKeyMemory refPlatform sampleKey sampleShare1 sampleBundle.share2 "1234"
      sampleBundle.share3Salt sampleBundle.share3Encrypted (some 33)).2.share2 = true ∧
    isWiped (reconstructKeyMemory refPlatform sampleKey sampleShare1 sampleBundle.share2 "1234"
      sampleBundle.share3Salt sampleBundle.share3Encrypted (some 33)).2.share3 = true ∧
    isWiped (reconstructKeyMemory refPlatform sampleKey sampleShare1 sampleBundle.share2 "1234"
      sampleBundle.share3Salt sampleBundle.share3Encrypted (some 33)).2.pinKey = true := by
  decide

/-! ### C12: `generateAndSplitKey` on its exits -/

theorem isWiped_zeroFill (buf : Buffer) : isWiped (some (zeroFill buf)) = true := by
  simp [isWiped, zeroFill]

/-- When `generateAndSplitKey` returns, the buffers of the raw key, of the three shares
and of the PIN keystream are zero-filled; the copy handed to `split` is not. -/
theorem generateAndSplitKeyMemory_return (P : Platform) (env : ProcessEnv) (key : Buffer)
    (rnd : Entropy) (pin : String) (B : KeyBundle)
    (h : (generateAndSplitKeyMemory P env key rnd pin).1 = .ok B) :
    isWiped (generateAndSplitKeyMemory P env key rnd pin).2.privateKey = true ∧
    isWiped (generateAndSplitKeyMemory P env key rnd pin).2.share1 = true ∧
    isWiped (generateAndSplitKeyMemory P env key rnd pin).2.share2 = true ∧
    isWiped (generateAndSplitKeyMemory P env key rnd pin).2.share3 = true ∧
    isWiped (generateAndSplitKeyMemory P env key rnd pin).2.pinKey = true ∧
    (generateAndSplitKeyMemory P env key rnd pin).2.secretCopy = some rnd.seed := by
  unfold generateAndSplitKeyMemory at h ⊢
  cases hk : P.fromRawEd25519Seed rnd.seed with
  | none => simp [hk] at h
  | some pk =>
    simp only [hk] at h ⊢
    cases hs : P.split rnd.seed (totalShares env) (threshold env) rnd.splitRandom with
    | none => simp [hs] at h
    | some shares =>
      match shares, hs with
      | [], hs => simp [hs] at h
      | [_], hs => simp [hs] at h
      | [_, _], hs => simp [hs] at h
      | s1 :: s2 :: s3 :: rest, hs => simp [isWiped_zeroFill]

/-- C12, the code at a failing input: with `SSS_TOTAL_SHARES=2` the split returns two
shares, `share3.length` throws after share 1 was encrypted and share 2 compressed, and
the error leaves `generateAndSplitKey` while the buffers of the raw secret key, of share
1 and of share 2 keep their bytes.  For contrast, the run with the default environment
returns with these buffers zero-filled. -/
theorem generateAndSplitKey_throw_keeps_secret :
    (generateAndSplitKeyMemory refPlatform twoSharesEnv sampleKey sampleEntropy "1234").1
      = .error generateError ∧
    (generateAndSplitKeyMemory refPlatform twoSharesEnv sampleKey sampleEntropy "1234").2.privateKey
      = some sampleEntropy.seed ∧
    isWiped (generateAndSplitKeyMemory refPlatform twoSharesEnv sampleKey sampleEntropy
      "1234").2.privateKey = false ∧
    isWiped (generateAndSplitKeyMemory refPlatform twoSharesEnv sampleKey sampleEntropy
      "1234").2.share1 = false ∧
    isWiped (generateAndSplitKeyMemory refPlatform twoSharesEnv sampleKey sampleEntropy
      "1234").2.share2 = false ∧
    (generateAndSplitKeyMemory refPlatform sampleEnv sampleKey sampleEntropy "1234").1
      = .ok sampleBundle ∧
    isWiped (generateAndSplitKeyMemory refPlatform sampleEnv sampleKey sampleEntropy
      "1234").2.privateKey = true ∧
    isWiped (generateAndSplitKeyMemory refPlatform sampleEnv sampleKey sampleEntropy
      "1234").2.share1 = true := by
  decide

/-! ### C16: `verifyKey` -/

/-- C16: `verifyKey` returns true exactly when the public key derived from the candidate
secret is the expected address; it always returns a value, and that value is false for a
candidate from which no key pair can be derived. -/
theorem verifyKey_spec (P : Platform) (secret : Buffer) (expectedAddress : String) :
    (verifyKey P secret expectedAddress = true ↔
      P.fromRawEd25519Seed secret = some expectedAddress) ∧
    (P.fromRawEd25519Seed secret = none → verifyKey P secret expectedAddress = false) ∧
    (verifyKey P secret expectedAddress = true ∨ verifyKey P secret expectedAddress = false) := by
  unfold verifyKey
  cases h : P.fromRawEd25519Seed secret with
  | none => simp
  | some pk =>
    refine ⟨?_, by simp, ?_⟩
    · simp
    · by_cases hp : pk = expectedAddress <;> simp [hp]

/-- Witness of C16 on the reference platform: a candidate of 31 bytes derives no key
pair and is answered with false; the sample seed is accepted for its own address. -/
theorem verifyKey_spec_witness :
    refPlatform.fromRawEd25519Seed (sampleEntropy.seed.take 31) = none ∧
    verifyKey refPlatform (sampleEntropy.seed.take 31) sampleBundle.cardPublicKey = false ∧
    refPlatform.fromRawEd25519Seed sampleEntropy.seed = some sampleBundle.cardPublicKey ∧
    verifyKey refPlatform sampleEntropy.seed sampleBundle.cardPublicKey = true :=
  ⟨by decide,
    (verifyKey_spec refPlatform (sampleEntropy.seed.take 31) sampleBundle.cardPublicKey).2.1
      (by decide),
    by decide,
    (verifyKey_spec refPlatform sampleEntropy.seed sampleBundle.cardPublicKey).1.mpr
      (by decide)⟩

/-! ### C13: the key buffer in the handler of `POST /process` -/

/-- C13: once `reconstructKey` has returned a buffer, that buffer is zero-filled at the
time the handler sends its response, on every path: verification false (401), an error
thrown by a later step (500), or a processed payment (200). -/
theorem processPayment_wipes_key (P : Platform) (W : PaymentWorld) (key : Buffer)
    (card : KeyBundle) (share2 pin : String) (K : Buffer)
    (hK : reconstructKey P key
      { encrypted := card.share1Encrypted, iv := card.share1Iv, authTag := card.share1AuthTag }
      share2 pin card.share3Salt card.share3Encrypted (some card.share3Length) = .ok K) :
    (processPayment P W key card share2 pin).keyBuffer = some (zeroFill K) ∧
    isWiped (processPayment P W key card share2 pin).keyBuffer = true := by
  have h : (processPayment P W key card share2 pin).keyBuffer = some (zeroFill K) := by
    unfold processPayment
    simp only [hK]
    split
    · rfl
    · split
      · rfl
      · split
        · rfl
        · split
          · rfl
          · split
            · rfl
            · split <;> rfl
  exact ⟨h, by rw [h]; exact isWiped_zeroFill K⟩

/-- Witness of C13 on the reference platform with the sample card: the payment that goes
through, the wrong PIN 9999 (401), the run in which the transaction step throws and the
run in which the database query fails (500); the key buffer is zero-filled each time. -/
theorem processPayment_wipes_key_witness :
    (processPayment refPlatform refWorld sampleKey sampleBundle sampleBundle.share2
      "1234").response.status = 200 ∧
    (processPayment refPlatform refWorld sampleKey sampleBundle sampleBundle.share2
      "1234").keyBuffer = some (zeroFill sampleEntropy.seed) ∧
    (processPayment refPlatform refWorld sampleKey sampleBundle sampleBundle.share2
      "9999").response.status = 401 ∧
    isWiped (processPayment refPlatform refWorld sampleKey sampleBundle sampleBundle.share2
      "9999").keyBuffer = true ∧
    (processPayment refPlatform throwingWorld sampleKey sampleBundle sampleBundle.share2
      "1234").response = errorResponse "network down" ∧
    isWiped (processPayment refPlatform throwingWorld sampleKey sampleBundle
      sampleBundle.share2 "1234").keyBuffer = true ∧
    (processPayment refPlatform dbFailingWorld sampleKey sampleBundle sampleBundle.share2
      "1234").response = errorResponse "connection terminated" ∧
    isWiped (processPayment refPlatform dbFailingWorld sampleKey sampleBundle
      sampleBundle.share2 "1234").keyBuffer = true :=
  ⟨by decide,
    (processPayment_wipes_key refPlatform refWorld sampleKey sampleBundle sampleBundle.share2
      "1234" sampleEntropy.seed (by decide)).1,
    by decide, by decide, by decide, by decide, by decide, by decide⟩

/-! ### C14: the key buffer in `processCardTransaction` -/

/-- On every failure of `processCardTransaction` after `reconstructKey` returned a key,
the key buffer holds the key, not zeros, when the error propagates. -/
theorem processCardTransaction_failure_keeps_key (P : Platform) (W : PaymentWorld)
    (key : Buffer) (card : KeyBundle) (cardId share2Hex pin : String) (K : Buffer) (e : String)
    (hK : reconstructKey P key
      { encrypted := card.share1Encrypted, iv := card.share1Iv, authTag := card.share1AuthTag }
      share2Hex pin card.share3Salt card.share3Encrypted (some card.share3Length) = .ok K)
    (he : (processCardTransaction P W key (.ok card) cardId share2Hex pin).result = .error e) :
    (processCardTransaction P W key (.ok card) cardId share2Hex pin).keyBuffer = some K := by
  unfold processCardTransaction at he ⊢
  simp only [hK] at he ⊢
  cases hpk : P.fromRawEd25519Seed K with
  | none => rfl
  | some pk =>
    simp only [hpk] at he ⊢
    by_cases hv : verifyKey P K card.cardPublicKey = false
    · simp [hv]
    · simp only [hv, if_false] at he ⊢
      cases hp : W.processTransaction K with
      | error m => rfl
      | ok tx => simp [hp] at he

/-- C14, the code at two failing inputs.  First run: the sample card with the wrong PIN
9999; `verifyKey` is false, the call fails and `stellarService.processTransaction` is
not called, but the key buffer is not zero-filled when the error propagates.  Second
run: the right PIN and a transaction step that throws; the key buffer holds the secret
when the error propagates.  Third run, for contrast: the payment goes through and the
buffer is zero-filled. -/
theorem processCardTransaction_keeps_key_on_failure :
    (processCardTransaction refPlatform refWorld sampleKey (.ok sampleBundle) "CARD-1"
      sampleBundle.share2 "9999").result
      = .error "Reconstructed key does not match card public key" ∧
    (processCardTransaction refPlatform refWorld sampleKey (.ok sampleBundle) "CARD-1"
      sampleBundle.share2 "9999").processTransactionCalls = 0 ∧
    isWiped (processCardTransaction refPlatform refWorld sampleKey (.ok sampleBundle) "CARD-1"
      sampleBundle.share2 "9999").keyBuffer = false ∧
    (processCardTransaction refPlatform throwingWorld sampleKey (.ok sampleBundle) "CARD-1"
      sampleBundle.share2 "1234").result = .error "network down" ∧
    (processCardTransaction refPlatform throwingWorld sampleKey (.ok sampleBundle) "CARD-1"
      sampleBundle.share2 "1234").keyBuffer = some sampleEntropy.seed ∧
    (processCardTransaction refPlatform refWorld sampleKey (.ok sampleBundle) "CARD-1"
      sampleBundle.share2 "1234").result = .ok sampleTxResult ∧
    isWiped (processCardTransaction refPlatform refWorld sampleKey (.ok sampleBundle) "CARD-1"
      sampleBundle.share2 "1234").keyBuffer = true := by
  decide

/-! ### C15: the secret in the log -/

/-- Whenever `reconstructKey` returns a key from which a key pair is derived,
`processCardTransaction` logs the encoded secret of that key at level `error`. -/
theorem processCardTransaction_logs_secret (P : Platform) (W : PaymentWorld)
    (key : Buffer) (card : KeyBundle) (cardId share2Hex pin : String) (K : Buffer)
    (pk : String)
    (hK : reconstructKey P key
      { encrypted := card.share1Encrypted, iv := card.share1Iv, authTag := card.share1AuthTag }
      share2Hex pin card.share3Salt card.share3Encrypted (some card.share3Length) = .ok K)
    (hpk : P.fromRawEd25519Seed K = some pk) :
    dangerEntry cardId (W.secret K)
      ∈ (processCardTransaction P W key (.ok card) cardId share2Hex pin).log := by
  unfold processCardTransaction
  simp only [hK, hpk]
  split
  · simp
  · split <;> simp

/-- The log and the result of a payment that goes through `processCardTransaction`. -/
theorem processCardTransaction_success (P : Platform) (W : PaymentWorld)
    (key : Buffer) (card : KeyBundle) (cardId share2Hex pin : String) (K : Buffer)
    (txResult : TxResult)
    (hK : reconstructKey P key
      { encrypted := card.share1Encrypted, iv := card.share1Iv, authTag := card.share1AuthTag }
      share2Hex pin card.share3Salt card.share3Encrypted (some card.share3Length) = .ok K)
    (hv : verifyKey P K card.cardPublicKey = true)
    (hp : W.processTransaction K = .ok txResult) :
    (processCardTransaction P W key (.ok card) cardId share2Hex pin).log
      = [{ level := "info", message := "💳 Processing card transaction: " ++ cardId },
         { level := "info", message := "   🔓 Reconstructing private key..." },
         dangerEntry cardId (W.secret K),
         { level := "info", message := "   ✅ Key verified" },
         { level := "info", message := "   💸 Sending transaction to blockchain..." }] ∧
    (processCardTransaction P W key (.ok card) cardId share2Hex pin).result = .ok txResult := by
  have hpk : ∃ pk, P.fromRawEd25519Seed K = some pk := by
    unfold verifyKey at hv
    cases h : P.fromRawEd25519Seed K with
    | none => simp [h] at hv
    | some pk => exact ⟨pk, rfl⟩
  obtain ⟨pk, hpk⟩ := hpk
  unfold processCardTransaction
  simp [hK, hpk, hv, hp]

/-- C15, the code at a failing input: the payment of the sample card with the right PIN
through `processCardTransaction` writes a log entry that holds the encoded secret of the
reconstructed key; the same payment for a card with another secret writes another log,
though both runs return the same object. -/
theorem processCardTransaction_log_holds_secret :
    dangerEntry "CARD-1" ("S" ++ toHex sampleEntropy.seed)
      ∈ (processCardTransaction refPlatform refWorld sampleKey (.ok sampleBundle) "CARD-1"
          sampleBundle.share2 "1234").log ∧
    dangerEntry "CARD-1" ("S" ++ toHex otherEntropy.seed)
      ∈ (processCardTransaction refPlatform refWorld sampleKey (.ok otherBundle) "CARD-1"
          otherBundle.share2 "1234").log ∧
    (processCardTransaction refPlatform refWorld sampleKey (.ok sampleBundle) "CARD-1"
      sampleBundle.share2 "1234").log
      ≠ (processCardTransaction refPlatform refWorld sampleKey (.ok otherBundle) "CARD-1"
          otherBundle.share2 "1234").log ∧
    (processCardTransaction refPlatform refWorld sampleKey (.ok sampleBundle) "CARD-1"
      sampleBundle.share2 "1234").result
      = (processCardTransaction refPlatform refWorld sampleKey (.ok otherBundle) "CARD-1"
          otherBundle.share2 "1234").result := by
  have h1 : reconstructKey refPlatform sampleKey
      { encrypted := sampleBundle.share1Encrypted, iv := sampleBundle.share1Iv,
        authTag := sampleBundle.share1AuthTag }
      sampleBundle.share2 "1234" sampleBundle.share3Salt sampleBundle.share3Encrypted
      (some sampleBundle.share3Length) = .ok sampleEntropy.seed := by decide
  have h2 : reconstructKey refPlatform sampleKey
      { encrypted := otherBundle.share1Encrypted, iv := otherBundle.share1Iv,
        authTag := otherBundle.share1AuthTag }
      otherBundle.share2 "1234" otherBundle.share3Salt otherBundle.share3Encrypted
      (some otherBundle.share3Length) = .ok otherEntropy.seed := by decide
  have s1 := processCardTransaction_success refPlatform refWorld sampleKey sampleBundle
    "CARD-1" sampleBundle.share2 "1234" sampleEntropy.seed sampleTxResult h1 (by decide) rfl
  have s2 := processCardTransaction_success refPlatform refWorld sampleKey otherBundle
    "CARD-1" otherBundle.share2 "1234" otherEntropy.seed sampleTxResult h2 (by decide) rfl
  refine ⟨?_, ?_, ?_, ?_⟩
  · exact processCardTransaction_logs_secret refPlatform refWorld sampleKey sampleBundle
      "CARD-1" sampleBundle.share2 "1234" sampleEntropy.seed sampleBundle.cardPublicKey h1
      (by decide)
  · exact processCardTransaction_logs_secret refPlatform refWorld sampleKey otherBundle
      "CARD-1" otherBundle.share2 "1234" otherEntropy.seed otherBundle.cardPublicKey h2
      (by decide)
  · rw [s1.1, s2.1]
    decide
  · rw [s1.2, s2.2]

/-! ### C17: a simulation without results -/

/-- C17: when the transaction is built and `simulateTransaction` returns a result whose
`results` list is missing or empty, `assembleAndSignTransaction` fails with the
simulation error, and the only call it made is the simulation: the transaction is
neither signed nor sent. -/
theorem simulation_without_results_stops (sdk : TxSdk) (net : RpcEndpoint)
    (sourceAccount : String) (operations : List String) (signerKeypair : Buffer)
    (tx : String) (simulateResult : SimulateResult)
    (hb : sdk.build sourceAccount operations = .ok tx)
    (hs : callSorobanRpc net.simulateTransaction = .ok (some simulateResult))
    (hn : simulateResult.results = none ∨ simulateResult.results = some []) :
    assembleAndSignTransaction sdk net sourceAccount operations signerKeypair
      = (.error noResultsMessage, [.rpc "simulateTransaction" tx]) ∧
    neitherSignedNorSent
      (assembleAndSignTransaction sdk net sourceAccount operations signerKeypair).2 = true := by
  have hno : noResults simulateResult = true := by
    rcases hn with h | h <;> simp [noResults, h]
  have h : assembleAndSignTransaction sdk net sourceAccount operations signerKeypair
      = (.error noResultsMessage, [.rpc "simulateTransaction" tx]) := by
    simp [assembleAndSignTransaction, hb, hs, hno]
  refine ⟨h, ?_⟩
  rw [h]
  simp [neitherSignedNorSent]

/-- Witness of C17: the simulation of the sample endpoint has an empty list of results;
for contrast, with one result the transaction is assembled and signed. -/
theorem simulation_without_results_stops_witness :
    assembleAndSignTransaction refSdk emptySimulationEndpoint "GCARD" ["process_transaction"]
      sampleEntropy.seed
      = (.error noResultsMessage, [.rpc "simulateTransaction" "GCARD;process_transaction"]) ∧
    (assembleAndSignTransaction refSdk (constantEndpoint "SUCCESS") "GCARD"
      ["process_transaction"] sampleEntropy.seed).2
      = [.rpc "simulateTransaction" "GCARD;process_transaction",
         .sign "GCARD;process_transaction;assembled"] :=
  ⟨(simulation_without_results_stops refSdk emptySimulationEndpoint "GCARD"
      ["process_transaction"] sampleEntropy.seed "GCARD;process_transaction"
      { results := some [], minResourceFee := none } (by decide) (by decide)
      (Or.inr rfl)).1,
    by decide⟩

/-! ### C18: the three answers of `sendTransaction` -/

/-- C18: for a send result, `submitTransaction` fails with the rejection error and makes
no status query when the status is `ERROR`; when it is `PENDING` it polls, and returns
the polled status with the hash of the send result (or fails with the error of the
polling); for any other status it returns status and hash of the send result and makes
no status query. -/
theorem submitTransaction_classifies (net : RpcEndpoint) (tx : String)
    (sendResult : SendResult)
    (hs : callSorobanRpc net.sendTransaction = .ok (some sendResult)) :
    (sendResult.status = some "ERROR" →
      submitTransaction net tx
        = (.error ("Transaction error: " ++ sendResult.json), [.rpc "sendTransaction" tx])) ∧
    (sendResult.status = some "PENDING" →
      (submitTransaction net tx).2
        = .rpc "sendTransaction" tx
            :: (pollTransactionStatus net (sendResult.hash.getD "") none none).2 ∧
      (∀ result, (pollTransactionStatus net (sendResult.hash.getD "") none none).1
          = .ok result →
        (submitTransaction net tx).1
          = .ok { status := result.status, hash := sendResult.hash }) ∧
      (∀ e, (pollTransactionStatus net (sendResult.hash.getD "") none none).1 = .error e →
        (submitTransaction net tx).1 = .error e)) ∧
    (sendResult.status ≠ some "ERROR" → sendResult.status ≠ some "PENDING" →
      submitTransaction net tx
        = (.ok { status := sendResult.status, hash := sendResult.hash },
            [.rpc "sendTransaction" tx])) := by
  refine ⟨?_, ?_, ?_⟩
  · intro h
    simp [submitTransaction, hs, h]
  · intro h
    have hne : sendResult.status ≠ some "ERROR" := by rw [h]; decide
    unfold submitTransaction
    simp only [hs, hne, h, if_false, if_true]
    cases hp : pollTransactionStatus net (sendResult.hash.getD "") none none with
    | mk r calls =>
      cases r with
      | error e => simp
      | ok result => simp
  · intro h1 h2
    simp [submitTransaction, hs, h1, h2]

/-- Witness of C18: an endpoint that answers `ERROR`, one that answers `PENDING` and
then `SUCCESS` to the first status query, and one that answers `DUPLICATE`. -/
theorem submitTransaction_classifies_witness :
    submitTransaction rejectingEndpoint "tx"
      = (.error "Transaction error: ERROR a1b2c3", [.rpc "sendTransaction" "tx"]) ∧
    submitTransaction (constantEndpoint "SUCCESS") "tx"
      = (.ok { status := some "SUCCESS", hash := some "a1b2c3" },
          [.rpc "sendTransaction" "tx", .rpc "getTransaction" "a1b2c3"]) ∧
    submitTransaction duplicateEndpoint "tx"
      = (.ok { status := some "DUPLICATE", hash := some "a1b2c3" },
          [.rpc "sendTransaction" "tx"]) :=
  ⟨(submitTransaction_classifies rejectingEndpoint "tx"
      { status := some "ERROR", hash := some "a1b2c3", json := "ERROR a1b2c3" } rfl).1 rfl,
    by decide,
    (submitTransaction_classifies duplicateEndpoint "tx"
      { status := some "DUPLICATE", hash := some "a1b2c3", json := "DUPLICATE a1b2c3" }
      rfl).2.2 (by decide) (by decide)⟩

/-! ### C19 and C20: the polling loop -/

theorem pollFrom_step_of_noFinalStatus (net : RpcEndpoint) (txHash : String) (delayMs : Nat)
    (n i : Nat) (h : noFinalStatus (net.getTransaction i) = true) :
    (pollFrom net txHash delayMs (n + 1) i).1 = (pollFrom net txHash delayMs n (i + 1)).1 ∧
    statusQueries (pollFrom net txHash delayMs (n + 1) i).2
      = statusQueries (pollFrom net txHash delayMs n (i + 1)).2 + 1 := by
  unfold noFinalStatus at h
  rw [pollFrom]
  cases hc : callSorobanRpc (net.getTransaction i) with
  | error e => simp [statusQueries]
  | ok r =>
    cases r with
    | none => simp [statusQueries]
    | some txResponse =>
      simp only [hc, Bool.not_eq_true'] at h
      simp [h, statusQueries]

/-- While no reply has a final status the loop uses all its iterations: it ends in the
timeout error after one query per iteration. -/
theorem pollFrom_timeout (net : RpcEndpoint) (txHash : String) (delayMs : Nat) :
    ∀ n i, (∀ j, i ≤ j → j < i + n → noFinalStatus (net.getTransaction j) = true) →
      (pollFrom net txHash delayMs n i).1 = .error timeoutMessage ∧
      statusQueries (pollFrom net txHash delayMs n i).2 = n := by
  intro n
  induction n with
  | zero =>
    intro i _
    simp [pollFrom, statusQueries]
  | succ n ih =>
    intro i h
    obtain ⟨h1, h2⟩ := pollFrom_step_of_noFinalStatus net txHash delayMs n i
      (h i (Nat.le_refl i) (by omega))
    obtain ⟨h3, h4⟩ := ih (i + 1) (fun j hj1 hj2 => h j (by omega) (by omega))
    exact ⟨h1.trans h3, by rw [h2, h4]⟩

/-- A reply with a final status ends the loop: it is returned after that one query. -/
theorem pollFrom_final (net : RpcEndpoint) (txHash : String) (delayMs : Nat) (n i : Nat)
    (txResponse : TxResponse)
    (hc : callSorobanRpc (net.getTransaction i) = .ok (some txResponse))
    (hf : hasFinalStatus txResponse = true) :
    pollFrom net txHash delayMs (n + 1) i = (.ok txResponse, [.rpc "getTransaction" txHash]) := by
  rw [pollFrom]
  simp [hc, hf]

/-- After `k` replies without final status, a reply with a final status is returned, after
`k + 1` queries, when the loop has more than `k` iterations. -/
theorem pollFrom_later_final (net : RpcEndpoint) (txHash : String) (delayMs : Nat)
    (txResponse : TxResponse) (hf : hasFinalStatus txResponse = true) :
    ∀ k n i, k < n →
      (∀ j, i ≤ j → j < i + k → noFinalStatus (net.getTransaction j) = true) →
      callSorobanRpc (net.getTransaction (i + k)) = .ok (some txResponse) →
      (pollFrom net txHash delayMs n i).1 = .ok txResponse ∧
      statusQueries (pollFrom net txHash delayMs n i).2 = k + 1 := by
  intro k
  induction k with
  | zero =>
    intro n i hn _ hc
    obtain ⟨m, rfl⟩ : ∃ m, n = m + 1 := ⟨n - 1, by omega⟩
    rw [pollFrom_final net txHash delayMs m i txResponse (by simpa using hc) hf]
    simp [statusQueries]
  | succ k ih =>
    intro n i hn h hc
    obtain ⟨m, rfl⟩ : ∃ m, n = m + 1 := ⟨n - 1, by omega⟩
    obtain ⟨h1, h2⟩ := pollFrom_step_of_noFinalStatus net txHash delayMs m i
      (h i (Nat.le_refl i) (by omega))
    obtain ⟨h3, h4⟩ := ih m (i + 1) (by omega) (fun j hj1 hj2 => h j (by omega) (by omega))
      (by rw [show i + 1 + k = i + (k + 1) by omega]; exact hc)
    exact ⟨h1.trans h3, by rw [h2, h4]⟩

/-- The only error of the loop is the timeout error, and a response it returns has a
final status. -/
theorem pollFrom_result (net : RpcEndpoint) (txHash : String) (delayMs : Nat) :
    ∀ n i, (pollFrom net txHash delayMs n i).1 = .error timeoutMessage ∨
      ∃ txResponse, (pollFrom net txHash delayMs n i).1 = .ok txResponse ∧
        hasFinalStatus txResponse = true := by
  intro n
  induction n with
  | zero =>
    intro i
    simp [pollFrom]
  | succ n ih =>
    intro i
    rw [pollFrom]
    cases hc : callSorobanRpc (net.getTransaction i) with
    | error e => exact ih (i + 1)
    | ok r =>
      cases r with
      | none => exact ih (i + 1)
      | some txResponse =>
        by_cases hf : hasFinalStatus txResponse = true
        · simp [hf]
        · simp only [hf]
          exact ih (i + 1)

/-- C19, as the code has it: for every `maxAttempts` and every endpoint whose replies to
the first `maxAttempts` status queries carry no final status (they fail, have no result
or no status, or report `NOT_FOUND`), `pollTransactionStatus` fails with the timeout
error after exactly `maxAttempts` queries.  A first reply with any other status is
returned after that one query. -/
theorem poll_timeout_after_maxAttempts (net : RpcEndpoint) (txHash : String)
    (maxAttempts : Nat) (delayMs : Option Nat) :
    ((∀ j, j < maxAttempts → noFinalStatus (net.getTransaction j) = true) →
      (pollTransactionStatus net txHash (some maxAttempts) delayMs).1 = .error timeoutMessage ∧
      statusQueries (pollTransactionStatus net txHash (some maxAttempts) delayMs).2
        = maxAttempts) ∧
    (∀ txResponse, 1 ≤ maxAttempts →
      callSorobanRpc (net.getTransaction 0) = .ok (some txResponse) →
      hasFinalStatus txResponse = true →
      pollTransactionStatus net txHash (some maxAttempts) delayMs
        = (.ok txResponse, [.rpc "getTransaction" txHash])) := by
  refine ⟨?_, ?_⟩
  · intro h
    exact pollFrom_timeout net txHash (delayMs.getD 2000) maxAttempts 0
      (fun j _ hj => h j (by omega))
  · intro txResponse hm hc hf
    obtain ⟨m, rfl⟩ : ∃ m, maxAttempts = m + 1 := ⟨maxAttempts - 1, by omega⟩
    exact pollFrom_final net txHash (delayMs.getD 2000) m 0 txResponse hc hf

/-- Witness of C19 as amended: `maxAttempts = 1` with an endpoint that always reports
`NOT_FOUND` gives the timeout error after exactly 1 query. -/
theorem poll_timeout_after_maxAttempts_witness :
    (pollTransactionStatus (constantEndpoint "NOT_FOUND") "a1b2c3" (some 1) none).1
      = .error timeoutMessage ∧
    statusQueries (pollTransactionStatus (constantEndpoint "NOT_FOUND") "a1b2c3" (some 1)
      none).2 = 1 :=
  (poll_timeout_after_maxAttempts (constantEndpoint "NOT_FOUND") "a1b2c3" 1 none).1
    (fun _ _ => rfl)

/-- Counterexample to C19 as stated: `maxAttempts = 1` with an endpoint that always
reports `PENDING`; the first reply is returned, there is no timeout error. -/
theorem poll_returns_pending :
    pollTransactionStatus (constantEndpoint "PENDING") "a1b2c3" (some 1) none
      = (.ok { status := some "PENDING" }, [.rpc "getTransaction" "a1b2c3"]) := by
  decide

/-- C20, as the code has it: a status query that throws does not end the polling: the
loop goes on with the next query while iterations are left; a reply with a final status
(any status other than `NOT_FOUND`) on a later attempt is returned; when every attempt
throws or carries no final status the call fails with the timeout error; and no error
other than the timeout error leaves the loop. -/
theorem poll_survives_failed_queries (net : RpcEndpoint) (txHash : String)
    (maxAttempts : Nat) (delayMs : Option Nat) :
    (∀ n i message, callSorobanRpc (net.getTransaction i) = .error message →
      pollFrom net txHash (delayMs.getD 2000) (n + 1) i
        = ((pollFrom net txHash (delayMs.getD 2000) n (i + 1)).1,
            .rpc "getTransaction" txHash
              :: (pollFrom net txHash (delayMs.getD 2000) n (i + 1)).2)) ∧
    (∀ k txResponse, k < maxAttempts →
      (∀ j, j < k → noFinalStatus (net.getTransaction j) = true) →
      callSorobanRpc (net.getTransaction k) = .ok (some txResponse) →
      hasFinalStatus txResponse = true →
      (pollTransactionStatus net txHash (some maxAttempts) delayMs).1 = .ok txResponse ∧
      statusQueries (pollTransactionStatus net txHash (some maxAttempts) delayMs).2
        = k + 1) ∧
    ((∀ j, j < maxAttempts → noFinalStatus (net.getTransaction j) = true) →
      (pollTransactionStatus net txHash (some maxAttempts) delayMs).1
        = .error timeoutMessage) ∧
    (∀ e, (pollTransactionStatus net txHash (some maxAttempts) delayMs).1 = .error e →
      e = timeoutMessage) := by
  refine ⟨?_, ?_, ?_, ?_⟩
  · intro n i message hc
    rw [pollFrom]
    simp [hc]
  · intro k txResponse hk h hc hf
    exact pollFrom_later_final net txHash (delayMs.getD 2000) txResponse hf k maxAttempts 0 hk
      (fun j _ hj => h j (by omega)) (by simpa using hc)
  · intro h
    exact (pollFrom_timeout net txHash (delayMs.getD 2000) maxAttempts 0
      (fun j _ hj => h j (by omega))).1
  · intro e he
    rcases pollFrom_result net txHash (delayMs.getD 2000) maxAttempts 0 with h | ⟨r, h, _⟩
    · unfold pollTransactionStatus at he
      rw [Option.getD_some, h] at he
      exact (Except.error.inj he).symm
    · unfold pollTransactionStatus at he
      rw [Option.getD_some, h] at he
      exact absurd he (by simp)

/-- Witness of C20 as amended: the first query fails in transport and the second reports
`SUCCESS`, which is returned after 2 queries; with an endpoint that cannot be reached the
call fails with the timeout error, not with the transport error. -/
theorem poll_survives_failed_queries_witness :
    (pollTransactionStatus (flakyEndpoint "SUCCESS") "a1b2c3" (some 3) none).1
      = .ok { status := some "SUCCESS" } ∧
    statusQueries (pollTransactionStatus (flakyEndpoint "SUCCESS") "a1b2c3" (some 3) none).2
      = 2 ∧
    (pollTransactionStatus unreachableEndpoint "a1b2c3" (some 3) none).1
      = .error timeoutMessage :=
  ⟨((poll_survives_failed_queries (flakyEndpoint "SUCCESS") "a1b2c3" 3 none).2.1 1
      { status := some "SUCCESS" } (by decide)
      (fun j hj => by
        have hj0 : j = 0 := by omega
        subst hj0
        decide)
      (by decide) (by decide)).1,
    by decide,
    (poll_survives_failed_queries unreachableEndpoint "a1b2c3" 3 none).2.2.1
      (fun _ _ => rfl)⟩

/-- Counterexample to C20 as stated: the first query throws and the second reports
`PENDING`; no attempt observes a terminal state, and the call returns the `PENDING`
response after 2 queries instead of failing with the timeout error. -/
theorem poll_returns_pending_after_failure :
    pollTransactionStatus (flakyEndpoint "PENDING") "a1b2c3" (some 3) none
      = (.ok { status := some "PENDING" },
          [.rpc "getTransaction" "a1b2c3", .rpc "getTransaction" "a1b2c3"]) := by
  decide

/-! ### `processTransaction`: shared lemmas -/

theorem rpcMethods_pollFrom (net : RpcEndpoint) (txHash : String) (delayMs : Nat) :
    ∀ n i, ∃ k, k ≤ n ∧
      rpcMethods (pollFrom net txHash delayMs n i).2 = List.replicate k "getTransaction" := by
  intro n
  induction n with
  | zero =>
    intro i
    exact ⟨0, Nat.le_refl 0, by simp [pollFrom, rpcMethods]⟩
  | succ n ih =>
    intro i
    obtain ⟨k, hk, hm⟩ := ih (i + 1)
    unfold rpcMethods at hm
    rw [pollFrom]
    cases hc : callSorobanRpc (net.getTransaction i) with
    | error e =>
      exact ⟨k + 1, by omega, by simp [rpcMethods, hm, List.replicate_succ]⟩
    | ok r =>
      cases r with
      | none => exact ⟨k + 1, by omega, by simp [rpcMethods, hm, List.replicate_succ]⟩
      | some txResponse =>
        by_cases hf : hasFinalStatus txResponse = true
        · exact ⟨1, by omega, by simp [hf, rpcMethods]⟩
        · exact ⟨k + 1, by omega, by simp [hf, rpcMethods, hm, List.replicate_succ]⟩

/-- The calls of `assembleAndSignTransaction`: none when the builder throws, else one
simulation; a transaction is returned only after a simulation with a result. -/
theorem rpcMethods_assembleAndSignTransaction (sdk : TxSdk) (net : RpcEndpoint)
    (sourceAccount : String) (operations : List String) (signerKeypair : Buffer) :
    (rpcMethods (assembleAndSignTransaction sdk net sourceAccount operations signerKeypair).2
        = [] ∨
      rpcMethods (assembleAndSignTransaction sdk net sourceAccount operations signerKeypair).2
        = ["simulateTransaction"]) ∧
    (∀ r, (assembleAndSignTransaction sdk net sourceAccount operations signerKeypair).1
        = .ok r →
      rpcMethods (assembleAndSignTransaction sdk net sourceAccount operations signerKeypair).2
        = ["simulateTransaction"] ∧
      ∃ simulateResult, callSorobanRpc net.simulateTransaction = .ok (some simulateResult) ∧
        noResults simulateResult = false) := by
  unfold assembleAndSignTransaction
  cases hb : sdk.build sourceAccount operations with
  | error e => simp [rpcMethods]
  | ok tx =>
    cases hs : callSorobanRpc net.simulateTransaction with
    | error e => simp [rpcMethods]
    | ok r =>
      cases r with
      | none => simp [rpcMethods]
      | some simulateResult =>
        by_cases hn : noResults simulateResult = true
        · simp [rpcMethods, hn]
        · have hn2 : noResults simulateResult = false := by simpa using hn
          cases ha : sdk.assemble tx simulateResult with
          | error e => simp [rpcMethods, hn2, ha]
          | ok assembledTx =>
            cases hg : sdk.sign assembledTx signerKeypair with
            | error e => simp [rpcMethods, hn2, ha, hg]
            | ok signedTx => simp [rpcMethods, hn2, ha, hg]

/-- The calls of `submitTransaction`: one submission, then status queries, which are made
only after the answer `PENDING`. -/
theorem rpcMethods_submitTransaction (net : RpcEndpoint) (tx : String) :
    ∃ k, k ≤ 15 ∧
      rpcMethods (submitTransaction net tx).2
        = "sendTransaction" :: List.replicate k "getTransaction" ∧
      (0 < k → ∃ sendResult, callSorobanRpc net.sendTransaction = .ok (some sendResult) ∧
        sendResult.status = some "PENDING") := by
  unfold submitTransaction
  cases hs : callSorobanRpc net.sendTransaction with
  | error e => exact ⟨0, by omega, by simp [rpcMethods], by omega⟩
  | ok r =>
    cases r with
    | none => exact ⟨0, by omega, by simp [rpcMethods], by omega⟩
    | some sendResult =>
      by_cases he : sendResult.status = some "ERROR"
      · exact ⟨0, by omega, by simp [rpcMethods, he], by omega⟩
      · by_cases hp : sendResult.status = some "PENDING"
        · obtain ⟨k, hk, hm⟩ := rpcMethods_pollFrom net (sendResult.hash.getD "") 2000 15 0
          refine ⟨k, hk, ?_, fun _ => ⟨sendResult, rfl, hp⟩⟩
          simp only [he, hp, if_false, if_true]
          unfold pollTransactionStatus
          simp only [Option.getD_none]
          cases hq : pollFrom net (sendResult.hash.getD "") 2000 15 0 with
          | mk res calls =>
            rw [hq] at hm
            unfold rpcMethods at hm
            cases res with
            | error e => simp [rpcMethods, hm]
            | ok result => simp [rpcMethods, hm]
        · exact ⟨0, by omega, by simp [rpcMethods, he, hp], by omega⟩

theorem rpcMethods_append (a b : List Event) :
    rpcMethods (a ++ b) = rpcMethods a ++ rpcMethods b := by
  simp [rpcMethods]

theorem processTransaction_calls (sdk : TxSdk) (net : RpcEndpoint) (host : Horizon)
    (cardKeypair : Keypair) (cardId amount merchantAddress merchantId : String) :
    (processTransaction sdk net host cardKeypair cardId amount merchantAddress merchantId).2
      = (processTransactionBody sdk net host cardKeypair cardId amount merchantAddress
          merchantId).2 := by
  unfold processTransaction
  cases h : processTransactionBody sdk net host cardKeypair cardId amount merchantAddress
      merchantId with
  | mk res calls => cases res <;> rfl

/-- The RPC calls of the `try` block: nothing, a simulation alone, or a simulation with a
result followed by one submission and its status queries. -/
theorem rpcMethods_processTransactionBody (sdk : TxSdk) (net : RpcEndpoint) (host : Horizon)
    (cardKeypair : Keypair) (cardId amount merchantAddress merchantId : String) :
    rpcMethods (processTransactionBody sdk net host cardKeypair cardId amount
        merchantAddress merchantId).2 = [] ∨
    rpcMethods (processTransactionBody sdk net host cardKeypair cardId amount
        merchantAddress merchantId).2 = ["simulateTransaction"] ∨
    ∃ k, k ≤ 15 ∧
      rpcMethods (processTransactionBody sdk net host cardKeypair cardId amount
          merchantAddress merchantId).2
        = "simulateTransaction" :: "sendTransaction" :: List.replicate k "getTransaction" ∧
      (∃ simulateResult, callSorobanRpc net.simulateTransaction = .ok (some simulateResult) ∧
        noResults simulateResult = false) ∧
      (0 < k → ∃ sendResult, callSorobanRpc net.sendTransaction = .ok (some sendResult) ∧
        sendResult.status = some "PENDING") := by
  cases hl : host.loadAccount cardKeypair.publicKey with
  | error e => exact Or.inl (by simp [processTransactionBody, hl, rpcMethods])
  | ok cardAccount =>
    cases ho : host.paymentOperation cardKeypair.publicKey cardId amount merchantAddress
        merchantId with
    | error e => exact Or.inl (by simp [processTransactionBody, hl, ho, rpcMethods])
    | ok operation =>
      obtain ⟨h1, h2⟩ := rpcMethods_assembleAndSignTransaction sdk net cardAccount [operation]
        cardKeypair.rawSecretKey
      cases ha : assembleAndSignTransaction sdk net cardAccount [operation]
          cardKeypair.rawSecretKey with
      | mk res calls =>
        rw [ha] at h1 h2
        cases res with
        | error e =>
          rcases h1 with h1 | h1
          · exact Or.inl (by simpa [processTransactionBody, hl, ho, ha] using h1)
          · exact Or.inr (Or.inl (by simpa [processTransactionBody, hl, ho, ha] using h1))
        | ok r =>
          obtain ⟨assembledTx, simulateResult⟩ := r
          obtain ⟨hm, hsim⟩ := h2 _ rfl
          obtain ⟨k, hk, hsend, hpending⟩ := rpcMethods_submitTransaction net assembledTx
          refine Or.inr (Or.inr ⟨k, hk, ?_, hsim, hpending⟩)
          cases hsub : submitTransaction net assembledTx with
          | mk res2 sent =>
            rw [hsub] at hsend
            simp only at hm hsend
            cases res2 with
            | error e =>
              simp [processTransactionBody, hl, ho, ha, hsub, rpcMethods_append, hm, hsend]
            | ok result =>
              simp [processTransactionBody, hl, ho, ha, hsub, rpcMethods_append, hm, hsend]

theorem processTransaction_of_error (sdk : TxSdk) (net : RpcEndpoint) (host : Horizon)
    (cardKeypair : Keypair) (cardId amount merchantAddress merchantId : String)
    (e : String) (calls : List Event)
    (h : processTransactionBody sdk net host cardKeypair cardId amount merchantAddress
      merchantId = (.error e, calls)) :
    processTransaction sdk net host cardKeypair cardId amount merchantAddress merchantId
      = (mockResult host.now e, calls) := by
  simp [processTransaction, h]

theorem processTransaction_of_ok (sdk : TxSdk) (net : RpcEndpoint) (host : Horizon)
    (cardKeypair : Keypair) (cardId amount merchantAddress merchantId : String)
    (result : TxResult) (calls : List Event)
    (h : processTransactionBody sdk net host cardKeypair cardId amount merchantAddress
      merchantId = (.ok result, calls)) :
    processTransaction sdk net host cardKeypair cardId amount merchantAddress merchantId
      = (result, calls) := by
  simp [processTransaction, h]

/-- An error of `assembleAndSignTransaction` ends the `try` block: nothing is
submitted. -/
theorem processTransactionBody_of_assemble_error (sdk : TxSdk) (net : RpcEndpoint)
    (host : Horizon) (cardKeypair : Keypair)
    (cardId amount merchantAddress merchantId : String) (cardAccount operation : String)
    (hl : host.loadAccount cardKeypair.publicKey = .ok cardAccount)
    (ho : host.paymentOperation cardKeypair.publicKey cardId amount merchantAddress
      merchantId = .ok operation)
    (e : String) (calls : List Event)
    (ha : assembleAndSignTransaction sdk net cardAccount [operation]
      cardKeypair.rawSecretKey = (.error e, calls)) :
    processTransactionBody sdk net host cardKeypair cardId amount merchantAddress merchantId
      = (.error e, calls) := by
  simp [processTransactionBody, hl, ho, ha]

/-- After a signed transaction the `try` block ends as `submitTransaction` does. -/
theorem processTransactionBody_of_signed (sdk : TxSdk) (net : RpcEndpoint)
    (host : Horizon) (cardKeypair : Keypair)
    (cardId amount merchantAddress merchantId : String) (cardAccount operation : String)
    (hl : host.loadAccount cardKeypair.publicKey = .ok cardAccount)
    (ho : host.paymentOperation cardKeypair.publicKey cardId amount merchantAddress
      merchantId = .ok operation)
    (signedTx : String) (simulateResult : SimulateResult) (calls : List Event)
    (ha : assembleAndSignTransaction sdk net cardAccount [operation]
      cardKeypair.rawSecretKey = (.ok (signedTx, simulateResult), calls)) :
    processTransactionBody sdk net host cardKeypair cardId amount merchantAddress merchantId
      = (match (submitTransaction net signedTx).1 with
          | .error e => .error e
          | .ok result => .ok (onChainResult result),
         calls ++ (submitTransaction net signedTx).2) := by
  simp only [processTransactionBody, hl, ho, ha]
  cases hs : submitTransaction net signedTx with
  | mk res sent => cases res <;> rfl

/-- The signed transaction of `assembleAndSignTransaction` when no stage fails. -/
theorem assembleAndSignTransaction_signed (sdk : TxSdk) (net : RpcEndpoint)
    (sourceAccount : String) (operations : List String) (signerKeypair : Buffer)
    (tx assembledTx signedTx : String) (simulateResult : SimulateResult)
    (hb : sdk.build sourceAccount operations = .ok tx)
    (hs : callSorobanRpc net.simulateTransaction = .ok (some simulateResult))
    (hn : noResults simulateResult = false)
    (ha : sdk.assemble tx simulateResult = .ok assembledTx)
    (hg : sdk.sign assembledTx signerKeypair = .ok signedTx) :
    assembleAndSignTransaction sdk net sourceAccount operations signerKeypair
      = (.ok (signedTx, simulateResult),
          [.rpc "simulateTransaction" tx, .sign assembledTx]) := by
  simp [assembleAndSignTransaction, hb, hs, hn, ha, hg]

/-! ### C21: the first failure of the payment pipeline -/

/-- C21, as the code has it: the `try` block of `processTransaction` ends with the error
of the first stage that fails (loading the account, building the operation or the
transaction, the simulation call, a simulation without results, assembly, signing, the
submission call, a submission answered `ERROR`, the polling) and runs no later stage: the
calls made stop at the failing stage.  `processTransaction` itself does not fail with
that error: it catches it and returns the mock object, whose `error` member is the
message of that first failure; the mock object is returned in no other case. -/
theorem processTransaction_first_failure (sdk : TxSdk) (net : RpcEndpoint)
    (host : Horizon) (cardKeypair : Keypair)
    (cardId amount merchantAddress merchantId : String) :
    (∀ e, (processTransactionBody sdk net host cardKeypair cardId amount merchantAddress
          merchantId).1 = .error e ↔
        (processTransaction sdk net host cardKeypair cardId amount merchantAddress
          merchantId).1 = mockResult host.now e) ∧
    (∀ e, host.loadAccount cardKeypair.publicKey = .error e →
      processTransactionBody sdk net host cardKeypair cardId amount merchantAddress
        merchantId = (.error e, [])) ∧
    (∀ cardAccount operation, host.loadAccount cardKeypair.publicKey = .ok cardAccount →
      host.paymentOperation cardKeypair.publicKey cardId amount merchantAddress merchantId
        = .ok operation →
      (∀ e, sdk.build cardAccount [operation] = .error e →
        processTransactionBody sdk net host cardKeypair cardId amount merchantAddress
          merchantId = (.error e, [])) ∧
      (∀ tx, sdk.build cardAccount [operation] = .ok tx →
        (∀ e, callSorobanRpc net.simulateTransaction = .error e →
          processTransactionBody sdk net host cardKeypair cardId amount merchantAddress
            merchantId = (.error e, [.rpc "simulateTransaction" tx])) ∧
        (∀ simulateResult,
          callSorobanRpc net.simulateTransaction = .ok (some simulateResult) →
          (noResults simulateResult = true →
            processTransactionBody sdk net host cardKeypair cardId amount merchantAddress
              merchantId = (.error noResultsMessage, [.rpc "simulateTransaction" tx])) ∧
          (noResults simulateResult = false →
            (∀ e, sdk.assemble tx simulateResult = .error e →
              processTransactionBody sdk net host cardKeypair cardId amount
                merchantAddress merchantId = (.error e, [.rpc "simulateTransaction" tx])) ∧
            (∀ assembledTx, sdk.assemble tx simulateResult = .ok assembledTx →
              (∀ e, sdk.sign assembledTx cardKeypair.rawSecretKey = .error e →
                processTransactionBody sdk net host cardKeypair cardId amount
                  merchantAddress merchantId
                  = (.error e, [.rpc "simulateTransaction" tx, .sign assembledTx])) ∧
              (∀ signedTx, sdk.sign assembledTx cardKeypair.rawSecretKey = .ok signedTx →
                (∀ e, callSorobanRpc net.sendTransaction = .error e →
                  processTransactionBody sdk net host cardKeypair cardId amount
                    merchantAddress merchantId
                    = (.error e, [.rpc "simulateTransaction" tx, .sign assembledTx,
                        .rpc "sendTransaction" signedTx])) ∧
                (∀ sendResult, callSorobanRpc net.sendTransaction = .ok (some sendResult) →
                  (sendResult.status = some "ERROR" →
                    processTransactionBody sdk net host cardKeypair cardId amount
                      merchantAddress merchantId
                      = (.error ("Transaction error: " ++ sendResult.json),
                          [.rpc "simulateTransaction" tx, .sign assembledTx,
                            .rpc "sendTransaction" signedTx])) ∧
                  (sendResult.status = some "PENDING" →
                    ∀ e, (pollTransactionStatus net (sendResult.hash.getD "") none none).1
                        = .error e →
                      (processTransactionBody sdk net host cardKeypair cardId amount
                        merchantAddress merchantId).1 = .error e ∧
                      e = timeoutMessage)))))))) := by
  refine ⟨?_, ?_, ?_⟩
  · intro e
    cases hb : processTransactionBody sdk net host cardKeypair cardId amount merchantAddress
        merchantId with
    | mk res calls =>
      cases res with
      | error e2 =>
        rw [processTransaction_of_error _ _ _ _ _ _ _ _ _ _ hb]
        simp [mockResult]
      | ok result =>
        rw [processTransaction_of_ok _ _ _ _ _ _ _ _ _ _ hb]
        simp only [false_iff, reduceCtorEq]
        intro h
        have hm : result.mock = false := by
          revert hb
          simp only [processTransactionBody]
          split
          · simp
          · split
            · simp
            · split
              · simp
              · split
                · simp
                · intro h2
                  simp only [Prod.mk.injEq, Except.ok.injEq] at h2
                  rw [← h2.1]
                  rfl
        rw [h] at hm
        simp [mockResult] at hm
  · intro e hl
    simp [processTransactionBody, hl]
  · intro cardAccount operation hl ho
    refine ⟨?_, ?_⟩
    · intro e hb
      exact processTransactionBody_of_assemble_error _ _ _ _ _ _ _ _ _ _ hl ho _ _
        (by simp [assembleAndSignTransaction, hb])
    · intro tx hb
      refine ⟨?_, ?_⟩
      · intro e hs
        exact processTransactionBody_of_assemble_error _ _ _ _ _ _ _ _ _ _ hl ho _ _
          (by simp [assembleAndSignTransaction, hb, hs])
      · intro simulateResult hs
        refine ⟨?_, ?_⟩
        · intro hn
          exact processTransactionBody_of_assemble_error _ _ _ _ _ _ _ _ _ _ hl ho _ _
            (by simp [assembleAndSignTransaction, hb, hs, hn])
        · intro hn
          refine ⟨?_, ?_⟩
          · intro e ha
            exact processTransactionBody_of_assemble_error _ _ _ _ _ _ _ _ _ _ hl ho _ _
              (by simp [assembleAndSignTransaction, hb, hs, hn, ha])
          · intro assembledTx ha
            refine ⟨?_, ?_⟩
            · intro e hg
              exact processTransactionBody_of_assemble_error _ _ _ _ _ _ _ _ _ _ hl ho _ _
                (by simp [assembleAndSignTransaction, hb, hs, hn, ha, hg])
            · intro signedTx hg
              have hsigned := processTransactionBody_of_signed sdk net host cardKeypair cardId
                amount merchantAddress merchantId cardAccount operation hl ho signedTx
                simulateResult _
                (assembleAndSignTransaction_signed sdk net cardAccount [operation]
                  cardKeypair.rawSecretKey tx assembledTx signedTx simulateResult hb hs hn
                  ha hg)
              refine ⟨?_, ?_⟩
              · intro e hsend
                rw [hsigned]
                simp [submitTransaction, hsend]
              · intro sendResult hsend
                refine ⟨?_, ?_⟩
                · intro hst
                  rw [hsigned]
                  simp [submitTransaction, hsend, hst]
                · intro hst e hpoll
                  have hne : sendResult.status ≠ some "ERROR" := by rw [hst]; decide
                  refine ⟨?_, ?_⟩
                  · rw [hsigned]
                    simp only [submitTransaction, hsend, hne, hst, if_false, if_true]
                    cases hp : pollTransactionStatus net (sendResult.hash.getD "") none
                        none with
                    | mk r polls =>
                      rw [hp] at hpoll
                      simp only at hpoll
                      subst hpoll
                      rfl
                  · rcases pollFrom_result net (sendResult.hash.getD "") 2000 15 0 with
                      h | ⟨r, h, _⟩
                    · unfold pollTransactionStatus at hpoll
                      simp only [Option.getD_none] at hpoll
                      rw [h] at hpoll
                      exact (Except.error.inj hpoll).symm
                    · unfold pollTransactionStatus at hpoll
                      simp only [Option.getD_none] at hpoll
                      rw [h] at hpoll
                      exact absurd hpoll (by simp)

/-- Witness of C21 as amended: the endpoint answers the submission with `ERROR`; the
`try` block ends with the rejection error after the submission, without a status
query. -/
theorem processTransaction_first_failure_witness :
    (processTransactionBody refSdk rejectingEndpoint refHorizon sampleKeypair "CARD_1" "5"
      "GMERCHANT" "M_1").1 = .error "Transaction error: ERROR a1b2c3" ∧
    rpcMethods (processTransactionBody refSdk rejectingEndpoint refHorizon sampleKeypair
      "CARD_1" "5" "GMERCHANT" "M_1").2 = ["simulateTransaction", "sendTransaction"] :=
  ⟨congrArg Prod.fst
    (((((((((processTransaction_first_failure refSdk rejectingEndpoint refHorizon
      sampleKeypair "CARD_1" "5" "GMERCHANT" "M_1").2.2 _ _ rfl rfl).2 _ rfl).2
        { results := some ["auth"], minResourceFee := some "1000" } rfl).2 rfl).2 _ rfl).2 _
          rfl).2 { status := some "ERROR", hash := some "a1b2c3", json := "ERROR a1b2c3" }
            rfl).1 rfl),
    by decide⟩

/-- Counterexample to C21 as stated: the endpoint rejects the submission with `ERROR`,
and, in a second run, the simulation returns no result.  `submitTransaction` and
`assembleAndSignTransaction` fail, but `processTransaction` returns: an object with
`success: true` and the hash `TX_MOCK_` followed by the time. -/
theorem failed_submission_returns_success :
    (processTransactionBody refSdk rejectingEndpoint refHorizon sampleKeypair "CARD_1" "5"
      "GMERCHANT" "M_1").1 = .error "Transaction error: ERROR a1b2c3" ∧
    (processTransaction refSdk rejectingEndpoint refHorizon sampleKeypair "CARD_1" "5"
      "GMERCHANT" "M_1").1
      = { success := true, hash := some "TX_MOCK_1762387200000", status := none,
          mock := true, onChain := false,
          error := some "Transaction error: ERROR a1b2c3" } ∧
    (assembleAndSignTransaction refSdk emptySimulationEndpoint sampleKeypair.publicKey
      ["process_transaction"] sampleKeypair.rawSecretKey).1 = .error noResultsMessage ∧
    (processTransaction refSdk emptySimulationEndpoint refHorizon sampleKeypair "CARD_1" "5"
      "GMERCHANT" "M_1").1
      = { success := true, hash := some "TX_MOCK_1762387200000", status := none,
          mock := true, onChain := false, error := some "Simulation returned no results" } := by
  decide

/-! ### C22: single forward flow -/

/-- C22: in every execution of `processTransaction` the sequence of RPC calls is a prefix
of `simulateTransaction, sendTransaction, getTransaction, ...` (15 status queries at
most): `simulateTransaction` and `sendTransaction` are called at most once each,
`sendTransaction` only after a simulation that returned at least one result, and
`getTransaction` only after `sendTransaction` answered `PENDING`; nothing but status
queries follows the submission and nothing but the submission follows the simulation. -/
theorem processTransaction_single_forward_flow (sdk : TxSdk) (net : RpcEndpoint)
    (host : Horizon) (cardKeypair : Keypair)
    (cardId amount merchantAddress merchantId : String) :
    rpcMethods (processTransaction sdk net host cardKeypair cardId amount merchantAddress
        merchantId).2 <+: forwardFlow ∧
    (rpcMethods (processTransaction sdk net host cardKeypair cardId amount merchantAddress
        merchantId).2).count "simulateTransaction" ≤ 1 ∧
    (rpcMethods (processTransaction sdk net host cardKeypair cardId amount merchantAddress
        merchantId).2).count "sendTransaction" ≤ 1 ∧
    ("sendTransaction" ∈ rpcMethods (processTransaction sdk net host cardKeypair cardId
        amount merchantAddress merchantId).2 →
      ∃ simulateResult, callSorobanRpc net.simulateTransaction = .ok (some simulateResult) ∧
        noResults simulateResult = false) ∧
    ("getTransaction" ∈ rpcMethods (processTransaction sdk net host cardKeypair cardId
        amount merchantAddress merchantId).2 →
      ∃ sendResult, callSorobanRpc net.sendTransaction = .ok (some sendResult) ∧
        sendResult.status = some "PENDING") := by
  rw [processTransaction_calls]
  rcases rpcMethods_processTransactionBody sdk net host cardKeypair cardId amount
    merchantAddress merchantId with h | h | ⟨k, hk, h, hsim, hpending⟩
  · rw [h]
    exact ⟨⟨forwardFlow, rfl⟩, by simp, by simp, by simp, by simp⟩
  · rw [h]
    exact ⟨by decide, by decide, by decide, by simp, by simp⟩
  · rw [h]
    refine ⟨?_, ?_, ?_, fun _ => hsim, ?_⟩
    · unfold forwardFlow
      refine ⟨List.replicate (15 - k) "getTransaction", ?_⟩
      simp only [List.cons_append, List.cons.injEq, true_and]
      rw [← List.replicate_add]
      congr 1
      omega
    · simp [List.count_cons, List.count_replicate]
    · simp [List.count_cons, List.count_replicate]
    · intro hmem
      apply hpending
      rcases Nat.eq_zero_or_pos k with h0 | h0
      · subst h0
        simp at hmem
      · exact h0

/-- Witness of C22: a payment that is simulated, submitted and confirmed at the first
status query. -/
theorem processTransaction_single_forward_flow_witness :
    rpcMethods (processTransaction refSdk (constantEndpoint "SUCCESS") refHorizon
        sampleKeypair "CARD_1" "5" "GMERCHANT" "M_1").2
      = ["simulateTransaction", "sendTransaction", "getTransaction"] ∧
    ∃ sendResult,
      callSorobanRpc (constantEndpoint "SUCCESS").sendTransaction = .ok (some sendResult) ∧
        sendResult.status = some "PENDING" :=
  ⟨by decide,
    (processTransaction_single_forward_flow refSdk (constantEndpoint "SUCCESS") refHorizon
      sampleKeypair "CARD_1" "5" "GMERCHANT" "M_1").2.2.2.2 (by decide)⟩

/-! ### C23: what `assembleAndSignTransaction` checks before the simulation -/

/-- C23, as the code has it: `assembleAndSignTransaction` makes no check of its own
before the network call.  The fee is not an input (it is the constant `BASE_FEE` of the
SDK) and the operation list goes to the SDK's builder as it is: when the builder throws,
the call fails with the builder's error before any network call; whenever the builder
returns a transaction, an empty operation list included, `simulateTransaction` is called
for it. -/
theorem assembleAndSignTransaction_builds_unchecked (sdk : TxSdk) (net : RpcEndpoint)
    (sourceAccount : String) (operations : List String) (signerKeypair : Buffer) :
    (∀ e, sdk.build sourceAccount operations = .error e →
      assembleAndSignTransaction sdk net sourceAccount operations signerKeypair
        = (.error e, [])) ∧
    (∀ tx, sdk.build sourceAccount operations = .ok tx →
      (assembleAndSignTransaction sdk net sourceAccount operations signerKeypair).2.head?
        = some (.rpc "simulateTransaction" tx)) := by
  refine ⟨?_, ?_⟩
  · intro e hb
    simp [assembleAndSignTransaction, hb]
  · intro tx hb
    simp only [assembleAndSignTransaction, hb]
    split
    · rfl
    · rfl
    · split
      · rfl
      · split
        · rfl
        · split <;> rfl

/-- Witness of C23 as amended: one operation on the sample endpoint. -/
theorem assembleAndSignTransaction_builds_unchecked_witness :
    (assembleAndSignTransaction refSdk (constantEndpoint "SUCCESS") "GCARD"
      ["process_transaction"] sampleEntropy.seed).2.head?
      = some (.rpc "simulateTransaction" "GCARD;process_transaction") :=
  (assembleAndSignTransaction_builds_unchecked refSdk (constantEndpoint "SUCCESS") "GCARD"
    ["process_transaction"] sampleEntropy.seed).2 "GCARD;process_transaction" (by decide)

/-- Counterexample to C23 as stated: an empty operation list with a builder that accepts
it.  The call does not fail: the transaction without operations is simulated, assembled
and signed. -/
theorem empty_operations_are_simulated :
    assembleAndSignTransaction refSdk (constantEndpoint "SUCCESS") "GCARD" []
      sampleEntropy.seed
      = (.ok ("GCARD;assembled;signed:030a",
            { results := some ["auth"], minResourceFee := some "1000" }),
          [.rpc "simulateTransaction" "GCARD", .sign "GCARD;assembled"]) := by
  decide

/-! ### C24: the parameters of the split -/

/-- C24, as the code has it: `generateAndSplitKey` splits the secret once, into
`parseInt(SSS_TOTAL_SHARES) || 3` shares with the threshold `parseInt(SSS_THRESHOLD) || 2`:
3 shares and threshold 2 when the environment leaves the variables unset (or sets them to
0 or to no number), the configured numbers otherwise.  A bundle is returned only when
that split gives at least three shares, and its three custodial artefacts are made from
the first three shares of that one split. -/
theorem generateAndSplitKey_split_parameters (P : Platform) (env : ProcessEnv) (key : Buffer)
    (rnd : Entropy) (pin : String) :
    ((env.SSS_TOTAL_SHARES = none ∨ env.SSS_TOTAL_SHARES = some 0) → totalShares env = 3) ∧
    ((env.SSS_THRESHOLD = none ∨ env.SSS_THRESHOLD = some 0) → threshold env = 2) ∧
    (∀ n, env.SSS_TOTAL_SHARES = some n → n ≠ 0 → totalShares env = n) ∧
    (∀ t, env.SSS_THRESHOLD = some t → t ≠ 0 → threshold env = t) ∧
    (∀ B, generateAndSplitKey P env key rnd pin = .ok B →
      ∃ share1 share2 share3 rest,
        P.split rnd.seed (totalShares env) (threshold env) rnd.splitRandom
          = some (share1 :: share2 :: share3 :: rest) ∧
        B.share1Encrypted = (encrypt P key rnd.iv (toHex share1)).encrypted ∧
        B.share1Hash = hash P (toHex share1) ∧
        B.share2 = toHex (P.deflateSync share2) ∧
        B.share3Encrypted = toHex (maskShare3 P pin rnd.salt share3).2 ∧
        B.share3Salt = (maskShare3 P pin rnd.salt share3).1 ∧
        B.share3Length = share3.length) := by
  refine ⟨?_, ?_, ?_, ?_, ?_⟩
  · rintro (h | h) <;> simp [totalShares, orElse, h]
  · rintro (h | h) <;> simp [threshold, orElse, h]
  · intro n h hn
    simp [totalShares, orElse, h, hn]
  · intro t h ht
    simp [threshold, orElse, h, ht]
  · intro B hB
    obtain ⟨pk, s1, s2, s3, rest, _, hsplit, rfl⟩ := generateAndSplitKey_ok hB
    exact ⟨s1, s2, s3, rest, hsplit, rfl, rfl, rfl, rfl, rfl, rfl⟩

/-- Witness of C24 as amended: the environment without the two variables. -/
theorem generateAndSplitKey_split_parameters_witness :
    totalShares sampleEnv = 3 ∧ threshold sampleEnv = 2 ∧
    ∃ share1 share2 share3 rest,
      refPlatform.split sampleEntropy.seed (totalShares sampleEnv) (threshold sampleEnv)
        sampleEntropy.splitRandom = some (share1 :: share2 :: share3 :: rest) ∧
      sampleBundle.share2 = toHex (refPlatform.deflateSync share2) :=
  ⟨(generateAndSplitKey_split_parameters refPlatform sampleEnv sampleKey sampleEntropy
      "1234").1 (Or.inl rfl),
    (generateAndSplitKey_split_parameters refPlatform sampleEnv sampleKey sampleEntropy
      "1234").2.1 (Or.inl rfl),
    by
      obtain ⟨s1, s2, s3, rest, h, _, _, h2, _⟩ :=
        (generateAndSplitKey_split_parameters refPlatform sampleEnv sampleKey sampleEntropy
          "1234").2.2.2.2 sampleBundle (by decide)
      exact ⟨s1, s2, s3, rest, h, h2⟩⟩

/-- Counterexample to C24 as stated: with `SSS_TOTAL_SHARES=5` and `SSS_THRESHOLD=4` in
the environment the secret is split into five shares with threshold 4, and a bundle is
returned; with `SSS_TOTAL_SHARES=2` the split gives two shares and `generateAndSplitKey`
fails. -/
theorem split_follows_environment :
    totalShares fourOfFiveEnv = 5 ∧ threshold fourOfFiveEnv = 4 ∧
    (refPlatform.split sampleEntropy.seed (totalShares fourOfFiveEnv)
      (threshold fourOfFiveEnv) sampleEntropy.splitRandom).map List.length = some 5 ∧
    (generateAndSplitKey refPlatform fourOfFiveEnv sampleKey sampleEntropy "1234").isOk
      = true ∧
    (refPlatform.split sampleEntropy.seed (totalShares twoSharesEnv)
      (threshold twoSharesEnv) sampleEntropy.splitRandom).map List.length = some 2 ∧
    generateAndSplitKey refPlatform twoSharesEnv sampleKey sampleEntropy "1234"
      = .error generateError := by
  decide

/-! ### C25: the fee of the manual assembly -/

theorem digitValue_of_decimal (c : Char) (h : 48 ≤ c.toNat ∧ c.toNat ≤ 57) :
    digitValue c = some (c.toNat - 48) := by
  simp [digitValue, h.1, h.2]

theorem decimal_of_all (c : Char) (cs : List Char)
    (h : ((c :: cs).all fun c => 48 ≤ c.toNat && c.toNat ≤ 57) = true) :
    (48 ≤ c.toNat ∧ c.toNat ≤ 57) ∧
      (cs.all fun c => 48 ≤ c.toNat && c.toNat ≤ 57) = true := by
  rw [List.all_cons, Bool.and_eq_true] at h
  refine ⟨?_, h.2⟩
  have h1 := h.1
  rw [Bool.and_eq_true, decide_eq_true_eq, decide_eq_true_eq] at h1
  exact h1

theorem leadingDigits_of_decimal (cs : List Char)
    (h : (cs.all fun c => 48 ≤ c.toNat && c.toNat ≤ 57) = true) :
    leadingDigits 10 cs = cs.map fun c => c.toNat - 48 := by
  induction cs with
  | nil => rfl
  | cons c cs ih =>
    obtain ⟨hc, hrest⟩ := decimal_of_all c cs h
    have hlt : c.toNat - 48 < 10 := by omega
    rw [leadingDigits, digitValue_of_decimal c hc]
    simp only [hlt, if_true, ih hrest, List.map_cons]

theorem foldl_digits (cs : List Char) (v : Nat) :
    (cs.map fun c => c.toNat - 48).foldl (fun v d => 10 * v + d) v
      = cs.foldl (fun v c => 10 * v + (c.toNat - 48)) v := by
  induction cs generalizing v with
  | nil => rfl
  | cons c cs ih => simp [ih]

theorem not_whiteSpace_of_decimal (c : Char) (hc : 48 ≤ c.toNat ∧ c.toNat ≤ 57) :
    isStrWhiteSpace c = false := by
  have h1 : ([9, 10, 11, 12, 13, 32, 160, 5760, 8232, 8233, 8239, 8287, 12288,
      65279].contains c.toNat) = false := by
    rw [List.contains_eq_any_beq, List.any_eq_false]
    intro x hx
    simp only [List.mem_cons, List.mem_singleton, List.not_mem_nil, or_false] at hx
    simp only [beq_iff_eq]
    omega
  have h2 : (decide (8192 ≤ c.toNat) && decide (c.toNat ≤ 8202)) = false := by
    have : ¬ 8192 ≤ c.toNat := by omega
    simp [this]
  unfold isStrWhiteSpace
  rw [h1, h2]
  rfl

/-- On a text of decimal digits `parseInt` skips nothing and reads every digit: the
result is the number value of the integer written. -/
theorem parseInt_of_decimal (s : String) (h : isDecimal s = true) :
    parseInt s.data 0 = toNumber (decimalValue s) := by
  unfold isDecimal at h
  rw [Bool.and_eq_true] at h
  obtain ⟨hne, hall⟩ := h
  cases hs : s.data with
  | nil => simp [hs] at hne
  | cons c cs =>
    rw [hs] at hall
    obtain ⟨hc, hrest⟩ := decimal_of_all c cs hall
    have hws := not_whiteSpace_of_decimal c hc
    have hminus : c ≠ '-' := by
      intro h2; rw [h2] at hc; exact absurd hc (by decide)
    have hplus : c ≠ '+' := by
      intro h2; rw [h2] at hc; exact absurd hc (by decide)
    have hmarked : ¬ ((c :: cs).take 2 = ['0', 'x'] ∨ (c :: cs).take 2 = ['0', 'X']) := by
      cases cs with
      | nil => simp
      | cons d ds =>
        obtain ⟨hd, _⟩ := decimal_of_all d ds hrest
        have h1 : d ≠ 'x' := by
          intro h2; rw [h2] at hd; exact absurd hd (by decide)
        have h2 : d ≠ 'X' := by
          intro h3; rw [h3] at hd; exact absurd hd (by decide)
        simp [h1, h2]
    have hdig := leadingDigits_of_decimal (c :: cs) hall
    have hnil : leadingDigits 10 (c :: cs) ≠ [] := by rw [hdig]; simp
    have hval : digitsValue 10 (leadingDigits 10 (c :: cs)) = decimalValue s := by
      rw [hdig, decimalValue, hs, digitsValue]
      exact foldl_digits (c :: cs) 0
    have hdrop : (c :: cs).dropWhile isStrWhiteSpace = c :: cs := by
      rw [List.dropWhile_cons, hws]
      rfl
    unfold parseInt
    simp only [hdrop, List.head?_cons, Option.some.injEq, hminus, hplus, or_self,
      if_false, if_true, ne_eq, not_true_eq_false, false_and, true_or, true_and, hmarked,
      decide_False, Bool.false_eq_true]
    rw [if_neg hnil, hval]

theorem roundToDouble_of_le (n : Nat) (h : n ≤ 2 ^ 53) : roundToDouble n = some n := by
  rcases Nat.lt_or_eq_of_le h with h | h
  · unfold roundToDouble
    rw [if_pos h]
  · subst h
    decide

theorem toNumber_of_le (n : Nat) (h : n ≤ 2 ^ 53) : toNumber (n : Int) = .finite n := by
  have hn : ¬ ((n : Int) < 0) := by omega
  unfold toNumber
  rw [Int.natAbs_ofNat, roundToDouble_of_le n h]
  simp only [hn, if_false]

/-- C25, as the code has it: for a simulation whose `minResourceFee` is a text of decimal
digits and a base fee that is one, the fee of the manual assembly is the integer sum of
base fee and resource fee whenever that sum is at most `2 ^ 53`, the range in which a
JavaScript number holds every integer; and it is the base fee alone when the simulation
result carries no `minResourceFee` (or an empty one). -/
theorem totalFee_is_sum (minResourceFee BASE_FEE : String)
    (hfee : isDecimal minResourceFee = true) (hbase : isDecimal BASE_FEE = true)
    (hsafe : decimalValue minResourceFee + decimalValue BASE_FEE ≤ 2 ^ 53) :
    totalFee (some minResourceFee) BASE_FEE
      = .finite (decimalValue minResourceFee + decimalValue BASE_FEE : Nat) ∧
    totalFee none BASE_FEE = .finite (decimalValue BASE_FEE : Nat) ∧
    totalFee (some "") BASE_FEE = .finite (decimalValue BASE_FEE : Nat) := by
  have hb := parseInt_of_decimal BASE_FEE hbase
  have hf := parseInt_of_decimal minResourceFee hfee
  have hbn := toNumber_of_le (decimalValue BASE_FEE) (by omega)
  have hfn := toNumber_of_le (decimalValue minResourceFee) (by omega)
  have hzero : parseInt "0".data 0 = .finite 0 := by decide
  have htruthy : truthy (some minResourceFee) = true := by
    unfold isDecimal at hfee
    simp only [Bool.and_eq_true, Bool.not_eq_true'] at hfee
    simp only [truthy, bne_iff_ne, ne_eq]
    intro h
    rw [h] at hfee
    simp at hfee
  refine ⟨?_, ?_, ?_⟩
  · simp only [totalFee, htruthy, if_true, Option.getD_some, hf, hb, hfn, hbn,
      JsNumber.add]
    rw [← Int.ofNat_add_ofNat]
    exact toNumber_of_le _ hsafe
  · simp only [totalFee, truthy, Bool.false_eq_true, if_false, hzero, hb, hbn,
      JsNumber.add, Int.zero_add]
  · have ht : truthy (some "") = false := by decide
    simp only [totalFee, ht, Bool.false_eq_true, if_false, hzero, hb, hbn,
      JsNumber.add, Int.zero_add]

/-- Witness of C25 as amended: the resource fee 58181 and the base fee 100. -/
theorem totalFee_is_sum_witness :
    (isDecimal "58181" = true ∧ isDecimal "100" = true) ∧
    totalFee (some "58181") "100" = .finite 58281 ∧ totalFee none "100" = .finite 100 :=
  ⟨by decide,
    (totalFee_is_sum "58181" "100" (by decide) (by decide) (by decide)).1,
    (totalFee_is_sum "58181" "100" (by decide) (by decide) (by decide)).2.1⟩

/-- Counterexample to C25 as stated: the resource fee `2 ^ 53 + 1` with the base fee 100.
`parseInt` gives `2 ^ 53`, the nearest number, and the fee is 9007199254741092 where the
sum of the integers is 9007199254741093. -/
theorem totalFee_rounds_large_fee :
    decimalValue "9007199254740993" + decimalValue "100" = 9007199254741093 ∧
    parseInt "9007199254740993".data 0 = .finite 9007199254740992 ∧
    totalFee (some "9007199254740993") "100" = .finite 9007199254741092 := by
  decide

/-! ### C26: the failures of `callSorobanRpc` -/

/-- C26: `callSorobanRpc` returns a value exactly when the call and the JSON decoding
succeed and the response carries no error, and the value is the response's `result`.
When `fetch` or the decoding throws, the call throws that error; when the response
carries an error, the call throws an error with the error's message, or with the JSON
text of the error when it has no message (or an empty one). -/
theorem callSorobanRpc_surfaces_failures {α : Type} (reply : RpcReply α) :
    (∀ result, callSorobanRpc reply = .ok result ↔ reply = .data none result) ∧
    (∀ message, reply = .failed message → callSorobanRpc reply = .error message) ∧
    (∀ error result message, reply = .data (some error) result →
      error.message = some message → message ≠ "" →
      callSorobanRpc reply = .error message) ∧
    (∀ error result, reply = .data (some error) result →
      (error.message = none ∨ error.message = some "") →
      callSorobanRpc reply = .error error.json) := by
  refine ⟨?_, ?_, ?_, ?_⟩
  · intro result
    cases reply with
    | failed message => simp [callSorobanRpc]
    | data error r =>
      cases error with
      | none => simp [callSorobanRpc]
      | some error => simp [callSorobanRpc]
  · rintro message rfl
    rfl
  · rintro error result message rfl hm hne
    simp [callSorobanRpc, truthy, hm, hne]
  · rintro error result rfl (hm | hm) <;> simp [callSorobanRpc, truthy, hm]

/-- Witness of C26: a response with a result, a transport failure, an error with a
message and an error without one. -/
theorem callSorobanRpc_surfaces_failures_witness :
    callSorobanRpc (.data none (some "ok") : RpcReply String) = .ok (some "ok") ∧
    callSorobanRpc (.failed "fetch failed" : RpcReply String) = .error "fetch failed" ∧
    callSorobanRpc (.data (some { message := some "bad xdr", json := "code -32000" }) (some "ok")
      : RpcReply String) = .error "bad xdr" ∧
    callSorobanRpc (.data (some { message := none, json := "code -32602" }) none
      : RpcReply String) = .error "code -32602" :=
  ⟨((callSorobanRpc_surfaces_failures (.data none (some "ok") : RpcReply String)).1
      (some "ok")).2 rfl,
    (callSorobanRpc_surfaces_failures (.failed "fetch failed" : RpcReply String)).2.1
      "fetch failed" rfl,
    (callSorobanRpc_surfaces_failures
      (.data (some { message := some "bad xdr", json := "code -32000" }) (some "ok")
        : RpcReply String)).2.2.1 _ _ "bad xdr" rfl rfl (by decide),
    (callSorobanRpc_surfaces_failures
      (.data (some { message := none, json := "code -32602" }) none
        : RpcReply String)).2.2.2 _ _ rfl (Or.inl rfl)⟩

/-! ### The compact payload: lengths -/

theorem base32ToBytesFrom_length (cs : List Char) (hcs : ∀ c ∈ cs, c ∈ base32Alphabet) :
    ∀ bits value, bits < 8 →
      (base32ToBytesFrom bits value cs).length = (bits + 5 * cs.length) / 8 := by
  induction cs with
  | nil =>
    intro bits value hb
    simp only [base32ToBytesFrom, List.length_nil, Nat.mul_zero, Nat.add_zero]
    omega
  | cons c cs ih =>
    intro bits value hb
    have hc : c ∈ base32Alphabet := hcs c (List.mem_cons_self c cs)
    have hne : c ≠ '=' := by
      intro h
      rw [h] at hc
      exact absurd hc (by decide)
    have hidx : base32Alphabet.indexOf c ≠ base32Alphabet.length :=
      Nat.ne_of_lt (List.indexOf_lt_length.mpr hc)
    have hrest : ∀ d ∈ cs, d ∈ base32Alphabet := fun d hd => hcs d (List.mem_cons_of_mem c hd)
    rw [base32ToBytesFrom]
    simp only [hne, if_false, hidx]
    by_cases h8 : 8 ≤ bits + 5
    · simp only [h8, if_true, List.length_cons]
      rw [ih hrest (bits + 5 - 8) _ (by omega)]
      omega
    · simp only [h8, if_false]
      rw [ih hrest (bits + 5) _ (by omega), List.length_cons]
      omega

theorem hexToBytes_length : ∀ cs : List Char, (hexToBytes cs).length = cs.length / 2
  | [] => rfl
  | [_] => by simp [hexToBytes]
  | c1 :: c2 :: rest => by
    rw [hexToBytes, List.length_cons, hexToBytes_length rest]
    simp only [List.length_cons]
    omega

theorem toUrlChar_base64Char_ne (n : Nat) : toUrlChar (base64Char n) ≠ '=' := by
  have h : ∀ k : Fin 64, toUrlChar (base64Alphabet.getD k.val 'A') ≠ '=' := by decide
  exact h ⟨n % 64, Nat.mod_lt n (by decide)⟩

theorem stripPadding_cons_ne (c : Char) (cs : List Char) (h : c ≠ '=') :
    stripPadding (c :: cs) = c :: stripPadding cs := by
  rw [stripPadding]
  simp [h]

theorem base64UrlEncode_length :
    ∀ bytes : List Byte, (base64UrlEncode bytes).length = (4 * bytes.length + 2) / 3
  | [] => rfl
  | [b1] => by
    have hpad : stripPadding [toUrlChar '=', toUrlChar '='] = [] := by decide
    simp only [base64UrlEncode, btoa, List.map_cons, List.map_nil]
    rw [stripPadding_cons_ne _ _ (toUrlChar_base64Char_ne _),
      stripPadding_cons_ne _ _ (toUrlChar_base64Char_ne _), hpad]
    simp
  | [b1, b2] => by
    have hpad : stripPadding [toUrlChar '='] = [] := by decide
    simp only [base64UrlEncode, btoa, List.map_cons, List.map_nil]
    rw [stripPadding_cons_ne _ _ (toUrlChar_base64Char_ne _),
      stripPadding_cons_ne _ _ (toUrlChar_base64Char_ne _),
      stripPadding_cons_ne _ _ (toUrlChar_base64Char_ne _), hpad]
    simp
  | b1 :: b2 :: b3 :: rest => by
    have ih := base64UrlEncode_length rest
    simp only [base64UrlEncode] at ih ⊢
    simp only [btoa, List.map_cons]
    rw [stripPadding_cons_ne _ _ (toUrlChar_base64Char_ne _),
      stripPadding_cons_ne _ _ (toUrlChar_base64Char_ne _),
      stripPadding_cons_ne _ _ (toUrlChar_base64Char_ne _),
      stripPadding_cons_ne _ _ (toUrlChar_base64Char_ne _)]
    simp only [List.length_cons, ih]
    omega

/-- The loop `while (bits >= 5)` ends within `bits` rounds: with that much fuel fewer
than 5 bits are left. -/
theorem emitBase32_bits (value : Nat) :
    ∀ fuel bits, bits ≤ fuel → (emitBase32 value fuel bits).2 = bits % 5 := by
  intro fuel
  induction fuel with
  | zero =>
    intro bits h
    have h0 : bits = 0 := by omega
    subst h0
    rfl
  | succ fuel ih =>
    intro bits h
    rw [emitBase32]
    by_cases h5 : 5 ≤ bits
    · simp only [h5, if_true]
      rw [ih (bits - 5) (by omega)]
      omega
    · simp only [h5, if_false]
      omega

/-! ### C28: the size of the compact payload -/

/-- The size of the payload as `encodeCompact` computes it: for every address of 56
characters whose characters after the first are base32 digits and every share 2 of 128
characters, the 55 digits fill 34 bytes, the address part has 46 characters and the share
part 86, and the payload has 46 + 1 + 86 = 133 characters. -/
theorem encodeCompact_size (address share2Hex : String)
    (haddress : address.length = 56)
    (hbase32 : ∀ c ∈ address.data.drop 1, c ∈ base32Alphabet)
    (hshare : share2Hex.length = 128) :
    (base32ToBytes (address.data.drop 1)).length = 34 ∧
    (addressBase64 address).length = 46 ∧
    (hexToBytes share2Hex.data).length = 64 ∧
    (share2Base64 share2Hex).length = 86 ∧
    (encodeCompact address share2Hex).length = 133 ∧
    (encodeCompact address share2Hex).length ≤ 144 := by
  have hlen : (address.data.drop 1).length = 55 := by
    rw [List.length_drop]
    have : address.data.length = 56 := haddress
    omega
  have h34 : (base32ToBytes (address.data.drop 1)).length = 34 := by
    unfold base32ToBytes
    rw [base32ToBytesFrom_length _ hbase32 0 0 (by decide), hlen]
  have h46 : (addressBase64 address).length = 46 := by
    unfold addressBase64
    rw [base64UrlEncode_length, h34]
  have h64 : (hexToBytes share2Hex.data).length = 64 := by
    rw [hexToBytes_length]
    have : share2Hex.data.length = 128 := hshare
    rw [this]
  have h86 : (share2Base64 share2Hex).length = 86 := by
    unfold share2Base64
    rw [base64UrlEncode_length, h64]
  have h133 : (encodeCompact address share2Hex).length = 133 := by
    show (addressBase64 address ++ '|' :: share2Base64 share2Hex).length = 133
    rw [List.length_append, List.length_cons, h46, h86]
  exact ⟨h34, h46, h64, h86, h133, by omega⟩

/-- The size theorem at the address of the comment in `encodeCompact` and a share of 128
digits. -/
theorem encodeCompact_size_witness :
    (sampleAddress.length = 56 ∧ sampleShare2Hex.length = 128) ∧
    (addressBase64 sampleAddress).length = 46 ∧
    (encodeCompact sampleAddress sampleShare2Hex).length = 133 :=
  ⟨by decide,
    (encodeCompact_size sampleAddress sampleShare2Hex (by decide) (by decide)
      (by decide)).2.1,
    (encodeCompact_size sampleAddress sampleShare2Hex (by decide) (by decide)
      (by decide)).2.2.2.2.1⟩

/-- C28 at the address of the comment in `encodeCompact` and a share of 128 digits: the
address part has 46 characters and the payload 133, where the comments of the function
give 38 characters and 38 + 1 + 86 = 125 bytes; the share part has the 86 characters they
give. -/
theorem address_part_has_46_characters :
    sampleAddress.length = 56 ∧ sampleShare2Hex.length = 128 ∧
    (addressBase64 sampleAddress).length = 46 ∧
    (share2Base64 sampleShare2Hex).length = 86 ∧
    (encodeCompact sampleAddress sampleShare2Hex).length = 133 := by
  decide

/-! ### C27: the round trip of the compact payload -/

/-- C27 at the address of the comment in `encodeCompact`, a valid address of 56
characters, and a share of 128 lower-case digits: the documented decoding of the
payload returns the share, and an address whose last character is `Y` where the address
written has `4`.  The 55 digits after `G` hold 275 bits, `base32ToBytes` keeps the 272
that fill 34 bytes, and `bytesToBase32` makes the last digit of the 2 bits left. -/
theorem decodeCompact_changes_address :
    (encodeCompact sampleAddress sampleShare2Hex).data
      = "GY5UYQjGLoZgodElhh9Nrki97blHKqCqFmrpzIqPzShxtw".data ++ '|'
          :: "eJwCCREqXH1eo5CBkq-sWGtGJQTnCjlQU26gsYL_nLVGS2jxDjtcfZ6_ACFCY6TF5gcoSmuMrc7vEDFSc5S11g".data ∧
    decodeCompact (encodeCompact sampleAddress sampleShare2Hex)
      = some ("GDGHFIYIIYYXIMYFB2ESYMH2NVZEL33NZI4VKBKQWNLU4ZCUPZUUHDNY", sampleShare2Hex) ∧
    decodeCompact (encodeCompact sampleAddress sampleShare2Hex)
      ≠ some (sampleAddress, sampleShare2Hex) := by
  decide

/-! ### C29: `processTransaction` always reports success -/

/-- C29: `processTransaction` returns an object for every behaviour of the account
loader, the SDK and the endpoint (it has no failing outcome), and the object has
`success = true`.  When the `try` block fails with an error the object is
`{success: true, mock: true, onChain: false}` with the hash `TX_MOCK_` followed by the
time and with the message of the error: so it is when the account does not load, when the
simulation has no results, when assembly fails, when the submission is answered `ERROR`
and when the polling times out.  When the polling ends with the status `FAILED` the
object has `success = true`, `onChain = true` and the status `FAILED`. -/
theorem processTransaction_always_succeeds (sdk : TxSdk) (net : RpcEndpoint)
    (host : Horizon) (cardKeypair : Keypair)
    (cardId amount merchantAddress merchantId : String) :
    (processTransaction sdk net host cardKeypair cardId amount merchantAddress
      merchantId).1.success = true ∧
    (∀ e, (processTransactionBody sdk net host cardKeypair cardId amount merchantAddress
        merchantId).1 = .error e →
      (processTransaction sdk net host cardKeypair cardId amount merchantAddress
        merchantId).1
        = { success := true, hash := some ("TX_MOCK_" ++ toString host.now), status := none,
            mock := true, onChain := false, error := some e }) ∧
    (∀ e, host.loadAccount cardKeypair.publicKey = .error e →
      (processTransaction sdk net host cardKeypair cardId amount merchantAddress
        merchantId).1 = mockResult host.now e) ∧
    (∀ cardAccount operation, host.loadAccount cardKeypair.publicKey = .ok cardAccount →
      host.paymentOperation cardKeypair.publicKey cardId amount merchantAddress merchantId
        = .ok operation →
      (∀ tx simulateResult, sdk.build cardAccount [operation] = .ok tx →
        callSorobanRpc net.simulateTransaction = .ok (some simulateResult) →
        (noResults simulateResult = true →
          (processTransaction sdk net host cardKeypair cardId amount merchantAddress
            merchantId).1 = mockResult host.now noResultsMessage) ∧
        (∀ e, noResults simulateResult = false → sdk.assemble tx simulateResult = .error e →
          (processTransaction sdk net host cardKeypair cardId amount merchantAddress
            merchantId).1 = mockResult host.now e)) ∧
      (∀ signedTx simulateResult calls sendResult,
        assembleAndSignTransaction sdk net cardAccount [operation] cardKeypair.rawSecretKey
          = (.ok (signedTx, simulateResult), calls) →
        callSorobanRpc net.sendTransaction = .ok (some sendResult) →
        (sendResult.status = some "ERROR" →
          (processTransaction sdk net host cardKeypair cardId amount merchantAddress
            merchantId).1
            = mockResult host.now ("Transaction error: " ++ sendResult.json)) ∧
        (sendResult.status = some "PENDING" →
          (∀ j, j < 15 → noFinalStatus (net.getTransaction j) = true) →
          (processTransaction sdk net host cardKeypair cardId amount merchantAddress
            merchantId).1 = mockResult host.now timeoutMessage) ∧
        (sendResult.status = some "PENDING" →
          (∀ txResponse,
            (pollTransactionStatus net (sendResult.hash.getD "") none none).1
              = .ok txResponse →
            txResponse.status = some "FAILED" →
            (processTransaction sdk net host cardKeypair cardId amount merchantAddress
              merchantId).1
              = { success := true, hash := sendResult.hash, status := some "FAILED",
                  mock := false, onChain := true, error := none })))) := by
  refine ⟨?_, ?_, ?_, ?_⟩
  · cases hb : processTransactionBody sdk net host cardKeypair cardId amount merchantAddress
        merchantId with
    | mk res calls =>
      cases res with
      | error e =>
        rw [processTransaction_of_error _ _ _ _ _ _ _ _ _ _ hb]
        rfl
      | ok result =>
        rw [processTransaction_of_ok _ _ _ _ _ _ _ _ _ _ hb]
        revert hb
        simp only [processTransactionBody]
        split
        · simp
        · split
          · simp
          · split
            · simp
            · split
              · simp
              · intro h2
                simp only [Prod.mk.injEq, Except.ok.injEq] at h2
                rw [← h2.1]
                rfl
  · intro e he
    cases hb : processTransactionBody sdk net host cardKeypair cardId amount merchantAddress
        merchantId with
    | mk res calls =>
      rw [hb] at he
      simp only at he
      subst he
      rw [processTransaction_of_error _ _ _ _ _ _ _ _ _ _ hb]
      rfl
  · intro e hl
    rw [processTransaction_of_error _ _ _ _ _ _ _ _ e []
      (by simp [processTransactionBody, hl])]
  · intro cardAccount operation hl ho
    refine ⟨?_, ?_⟩
    · intro tx simulateResult hb hs
      refine ⟨?_, ?_⟩
      · intro hn
        rw [processTransaction_of_error _ _ _ _ _ _ _ _ _ _
          (processTransactionBody_of_assemble_error _ _ _ _ _ _ _ _ _ _ hl ho
            noResultsMessage [.rpc "simulateTransaction" tx]
            (by simp [assembleAndSignTransaction, hb, hs, hn]))]
      · intro e hn ha
        rw [processTransaction_of_error _ _ _ _ _ _ _ _ _ _
          (processTransactionBody_of_assemble_error _ _ _ _ _ _ _ _ _ _ hl ho e
            [.rpc "simulateTransaction" tx]
            (by simp [assembleAndSignTransaction, hb, hs, hn, ha]))]
    · intro signedTx simulateResult calls sendResult ha hsend
      have hsigned := processTransactionBody_of_signed sdk net host cardKeypair cardId
        amount merchantAddress merchantId cardAccount operation hl ho signedTx
        simulateResult calls ha
      refine ⟨?_, ?_, ?_⟩
      · intro hst
        have hsub : submitTransaction net signedTx
            = (.error ("Transaction error: " ++ sendResult.json),
                [.rpc "sendTransaction" signedTx]) := by
          simp [submitTransaction, hsend, hst]
        rw [hsub] at hsigned
        rw [processTransaction_of_error _ _ _ _ _ _ _ _ _ _ hsigned]
      · intro hst hpoll
        have hne : sendResult.status ≠ some "ERROR" := by rw [hst]; decide
        have htime := (pollFrom_timeout net (sendResult.hash.getD "") 2000 15 0
          (fun j _ hj => hpoll j (by omega))).1
        have hsub : (submitTransaction net signedTx).1 = .error timeoutMessage := by
          simp only [submitTransaction, hsend, hne, hst, if_false, if_true,
            pollTransactionStatus, Option.getD_none]
          cases hp : pollFrom net (sendResult.hash.getD "") 2000 15 0 with
          | mk r polls =>
            rw [hp] at htime
            simp only at htime
            subst htime
            rfl
        rw [hsub] at hsigned
        rw [processTransaction_of_error _ _ _ _ _ _ _ _ _ _ hsigned]
      · intro hst txResponse hpoll hfailed
        have hne : sendResult.status ≠ some "ERROR" := by rw [hst]; decide
        have hsub : (submitTransaction net signedTx).1
            = .ok { status := some "FAILED", hash := sendResult.hash } := by
          simp only [submitTransaction, hsend, hne, hst, if_false, if_true]
          cases hp : pollTransactionStatus net (sendResult.hash.getD "") none none with
          | mk r polls =>
            rw [hp] at hpoll
            simp only at hpoll
            subst hpoll
            simp [hfailed]
        rw [hsub] at hsigned
        rw [processTransaction_of_ok _ _ _ _ _ _ _ _ _ _ hsigned]
        rfl

/-- Witness of C29: a card account that does not load, an endpoint whose status queries
all fail, and an endpoint that reports the submitted transaction as `FAILED`. -/
theorem processTransaction_always_succeeds_witness :
    (processTransaction refSdk unreachableEndpoint missingAccountHorizon sampleKeypair
      "CARD_1" "5" "GMERCHANT" "M_1").1 = mockResult 1762387200000 "Not Found" ∧
    (processTransaction refSdk unreachableEndpoint refHorizon sampleKeypair "CARD_1" "5"
      "GMERCHANT" "M_1").1 = mockResult 1762387200000 timeoutMessage ∧
    (processTransaction refSdk (constantEndpoint "FAILED") refHorizon sampleKeypair "CARD_1"
      "5" "GMERCHANT" "M_1").1
      = { success := true, hash := some "a1b2c3", status := some "FAILED", mock := false,
          onChain := true, error := none } :=
  ⟨(processTransaction_always_succeeds refSdk unreachableEndpoint missingAccountHorizon
      sampleKeypair "CARD_1" "5" "GMERCHANT" "M_1").2.2.1 "Not Found" rfl,
    ((((processTransaction_always_succeeds refSdk unreachableEndpoint refHorizon
      sampleKeypair "CARD_1" "5" "GMERCHANT" "M_1").2.2.2 _ _ rfl rfl).2 _ _ _
        { status := some "PENDING", hash := some "a1b2c3", json := "PENDING a1b2c3" }
        rfl rfl).2.1 rfl) (fun _ _ => rfl),
    ((((processTransaction_always_succeeds refSdk (constantEndpoint "FAILED") refHorizon
      sampleKeypair "CARD_1" "5" "GMERCHANT" "M_1").2.2.2 _ _ rfl rfl).2 _ _ _
        { status := some "PENDING", hash := some "a1b2c3", json := "PENDING a1b2c3" }
        rfl rfl).2.2 rfl) { status := some "FAILED" } rfl rfl⟩

/-! ### C30: a short length argument -/

theorem xorLoopFrom_getD (key : Buffer) (buf : Buffer) (i j : Nat) (hj : j < buf.length) :
    (xorLoopFrom key i buf).getD j 0
      = byteOfNat ((buf.getD j 0).val ^^^ (key.getD (i + j) 0).val) := by
  induction buf generalizing i j with
  | nil => simp at hj
  | cons b bs ih =>
    cases j with
    | zero => simp [xorLoopFrom]
    | succ j =>
      simp only [xorLoopFrom, List.getD_cons_succ]
      rw [ih (i + 1) j (by simpa using hj), Nat.add_right_comm i 1 j, Nat.add_assoc i j 1]

theorem xorLoopFrom_getD_past (key : Buffer) (buf : Buffer) (i j : Nat)
    (hk : key.length ≤ i + j) : (xorLoopFrom key i buf).getD j 0 = buf.getD j 0 := by
  by_cases hj : j < buf.length
  · rw [xorLoopFrom_getD key buf i j hj, List.getD_eq_default key 0 hk]
    simp [byteOfNat_val]
  · rw [List.getD_eq_default _ _ (by simpa [xorLoopFrom_length] using hj),
      List.getD_eq_default _ _ (by simpa using hj)]

/-- C30: a short length argument leaves share 3 partly masked.  When `reconstructKey`
is called with a length `L` with `0 < L < len(masked share 3)`, the keystream has `L`
bytes, the share 3 handed to `combine` has the byte length of the masked share, its
bytes below index `L` are the masked bytes XORed with the keystream, and every byte at an
index `≥ L` is the masked byte unchanged.  When the length is 0 or missing, the keystream
length is the byte length of the masked share. -/
theorem short_length_leaves_tail_masked (P : Platform) (hlen : P.Pbkdf2Length)
    (pin salt share3Encrypted : String) (L : Nat) (hpos : 0 < L)
    (hshort : L < (fromHex share3Encrypted).length) :
    keyLength (some L) (fromHex share3Encrypted).length = L ∧
    (deriveKeyFromPIN P pin salt (some L)).length = L ∧
    (unmaskShare3 P pin salt share3Encrypted (some L)).length
      = (fromHex share3Encrypted).length ∧
    (∀ i, i < L →
      (unmaskShare3 P pin salt share3Encrypted (some L)).getD i 0
        = byteOfNat (((fromHex share3Encrypted).getD i 0).val
            ^^^ ((deriveKeyFromPIN P pin salt (some L)).getD i 0).val)) ∧
    (∀ i, L ≤ i →
      (unmaskShare3 P pin salt share3Encrypted (some L)).getD i 0
        = (fromHex share3Encrypted).getD i 0) ∧
    keyLength none (fromHex share3Encrypted).length = (fromHex share3Encrypted).length ∧
    keyLength (some 0) (fromHex share3Encrypted).length
      = (fromHex share3Encrypted).length := by
  have hk : keyLength (some L) (fromHex share3Encrypted).length = L := by
    simp [keyLength, Nat.pos_iff_ne_zero.mp hpos]
  have hd : (deriveKeyFromPIN P pin salt (some L)).length = L := by
    simp [deriveKeyFromPIN, hlen _ _ _ _ _]
  refine ⟨hk, hd, ?_, ?_, ?_, rfl, rfl⟩
  · simp [unmaskShare3, xorLoop_length]
  · intro i hi
    simp only [unmaskShare3, hk, xorLoop]
    rw [xorLoopFrom_getD _ _ 0 i (by omega), Nat.zero_add]
  · intro i hi
    simp only [unmaskShare3, hk, xorLoop]
    exact xorLoopFrom_getD_past _ _ 0 i (by omega)

/-- Witness of C30: the sample bundle, whose masked share 3 has 33 bytes, with the length
argument 32. -/
theorem short_length_leaves_tail_masked_witness :
    (0 < 32 ∧ 32 < (fromHex sampleBundle.share3Encrypted).length) ∧
    (unmaskShare3 refPlatform "1234" sampleBundle.share3Salt sampleBundle.share3Encrypted
      (some 32)).getD 32 0 = (fromHex sampleBundle.share3Encrypted).getD 32 0 :=
  ⟨by decide,
    (short_length_leaves_tail_masked refPlatform refPlatform_pbkdf2Length "1234"
      sampleBundle.share3Salt sampleBundle.share3Encrypted 32 (by decide)
      (by decide)).2.2.2.2.1 32 (Nat.le_refl 32)⟩

/-! ### The handler on a generated bundle -/

/-- On a generated bundle with its device share, steps 4 and 5 recombine the generated
shares 1 and 2 with share 3 as the request's PIN unmasks it, and accept the key exactly
when it has 32 bytes and `verifyKey` finds the card's address. -/
theorem reconstructAndVerify_generated (P : Platform) (hc : P.CipherRoundTrip)
    (hz : P.ZlibRoundTrip) (env : ProcessEnv) (key : Buffer) (hkey : key.length = 32)
    (rnd : Entropy) (hiv : rnd.iv.length = 16) (p pin : String) (B : KeyBundle)
    (hB : generateAndSplitKey P env key rnd p = .ok B)
    (share1 share2 share3 : Buffer) (rest : List Buffer)
    (hsplit : P.split rnd.seed (totalShares env) (threshold env) rnd.splitRandom
      = some (share1 :: share2 :: share3 :: rest)) :
    share3For P B pin
      = xorLoop (xorLoop share3 (deriveKeyFromPIN P p B.share3Salt (some share3.length)))
          (deriveKeyFromPIN P pin B.share3Salt (some share3.length)) ∧
    reconstructAndVerify P key B B.share2 pin
      = match P.combine [share1, share2, share3For P B pin] with
        | none => .rejected 500 reconstructError
        | some K =>
          if K.length ≠ 32 then .rejected 500 reconstructError
          else if verifyKey P K B.cardPublicKey = false then
            .rejected 401 "Invalid PIN or corrupted shares"
          else .verified K := by
  obtain ⟨pk, s1, s2, s3, rest2, _, hsplit2, rfl⟩ := generateAndSplitKey_ok hB
  rw [hsplit] at hsplit2
  simp only [Option.some.injEq, List.cons.injEq] at hsplit2
  obtain ⟨rfl, rfl, rfl, _⟩ := hsplit2
  refine ⟨?_, ?_⟩
  · simp only [share3For, unmaskShare3, maskShare3, fromHex_toHex, xorLoop_length,
      keyLength_self, generateSalt]
  · simp only [reconstructAndVerify, reconstructKey, reconstructKeyBody, share3For,
      decrypt_encrypt_eq P hc key rnd.iv hkey hiv, fromHex_toHex, hz share2]
    cases hcomb : P.combine [share1, share2,
        unmaskShare3 P pin (maskShare3 P p rnd.salt share3).1
          (toHex (maskShare3 P p rnd.salt share3).2) (some share3.length)] with
    | none => rfl
    | some K =>
      by_cases hl : K.length = 32
      · simp [hl]
      · simp [hl]

/-- Two keys as long as the buffer that mask it alike are the same key. -/
theorem xorLoop_key_injective (buf k1 k2 : Buffer) (h1 : k1.length = buf.length)
    (h2 : k2.length = buf.length) (h : xorLoop buf k1 = xorLoop buf k2) : k1 = k2 := by
  apply List.ext_getElem (h1.trans h2.symm)
  intro j hj1 hj2
  have hj : j < buf.length := h1 ▸ hj1
  have e1 := xorLoopFrom_getD k1 buf 0 j hj
  have e2 := xorLoopFrom_getD k2 buf 0 j hj
  rw [Nat.zero_add] at e1 e2
  have e : byteOfNat ((buf.getD j 0).val ^^^ (k1.getD j 0).val)
      = byteOfNat ((buf.getD j 0).val ^^^ (k2.getD j 0).val) := by
    rw [← e1, ← e2]
    unfold xorLoop at h
    rw [h]
  have c1 := byte_xor_cancel (k1.getD j 0) (buf.getD j 0)
  have c2 := byte_xor_cancel (k2.getD j 0) (buf.getD j 0)
  rw [Nat.xor_comm (k1.getD j 0).val, e, ← Nat.xor_comm (k2.getD j 0).val] at c1
  have hk : k1.getD j 0 = k2.getD j 0 := c1.symm.trans c2
  rw [List.getD_eq_getElem _ _ hj1, List.getD_eq_getElem _ _ hj2] at hk
  exact hk

/-! ### C2: a wrong PIN -/

/-- C2, as the code has it: for every bundle that `generateAndSplitKey` returns for a PIN
`p` and every PIN `p'`, steps 4 and 5 of the payment handler recombine the generated
shares 1 and 2 with share 3 XORed with the keystreams of `p` and of `p'`, which is
another share than share 3 when PBKDF2 derives another keystream for `p'`.  They end in a
credentials failure (status 500 with the single error of `reconstructKey`, or status 401
after `verifyKey` returned false) whenever that recombination gives no 32-byte key with
the card's address; when the generated secret is the only seed with the card's address,
whenever it does not give the generated secret.  A key is accepted only with the card's
address: a secret of another identity is never treated as valid. -/
theorem wrong_pin_rejected (P : Platform) (hc : P.CipherRoundTrip) (hz : P.ZlibRoundTrip)
    (env : ProcessEnv) (key : Buffer) (hload : loadEncryptionKey env = .ok key)
    (rnd : Entropy) (hiv : rnd.iv.length = 16) (p p' : String) (B : KeyBundle)
    (hB : generateAndSplitKey P env key rnd p = .ok B)
    (share1 share2 share3 : Buffer) (rest : List Buffer)
    (hsplit : P.split rnd.seed (totalShares env) (threshold env) rnd.splitRandom
      = some (share1 :: share2 :: share3 :: rest)) :
    share3For P B p'
      = xorLoop (xorLoop share3 (deriveKeyFromPIN P p B.share3Salt (some share3.length)))
          (deriveKeyFromPIN P p' B.share3Salt (some share3.length)) ∧
    (P.Pbkdf2Length →
      deriveKeyFromPIN P p' B.share3Salt (some share3.length)
        ≠ deriveKeyFromPIN P p B.share3Salt (some share3.length) →
      share3For P B p' ≠ share3) ∧
    ((∀ K, P.combine [share1, share2, share3For P B p'] = some K → K.length = 32 →
        P.fromRawEd25519Seed K ≠ some B.cardPublicKey) →
      reconstructAndVerify P key B B.share2 p' = .rejected 500 reconstructError ∨
      reconstructAndVerify P key B B.share2 p'
        = .rejected 401 "Invalid PIN or corrupted shares") ∧
    ((∀ K, P.fromRawEd25519Seed K = some B.cardPublicKey → K = rnd.seed) →
      P.combine [share1, share2, share3For P B p'] ≠ some rnd.seed →
      reconstructAndVerify P key B B.share2 p' = .rejected 500 reconstructError ∨
      reconstructAndVerify P key B B.share2 p'
        = .rejected 401 "Invalid PIN or corrupted shares") ∧
    (∀ K, reconstructAndVerify P key B B.share2 p' = .verified K →
      P.combine [share1, share2, share3For P B p'] = some K ∧ K.length = 32 ∧
      P.fromRawEd25519Seed K = some B.cardPublicKey) := by
  obtain ⟨_, _, _, hkey⟩ := loadEncryptionKey_ok hload
  obtain ⟨hshare, hrun⟩ := reconstructAndVerify_generated P hc hz env key hkey rnd hiv p p' B
    hB share1 share2 share3 rest hsplit
  have hverify : ∀ K, verifyKey P K B.cardPublicKey ≠ false →
      P.fromRawEd25519Seed K = some B.cardPublicKey := by
    intro K hv
    unfold verifyKey at hv
    split at hv
    · rename_i pk hpk
      simp only [ne_eq, beq_eq_false_iff_ne, Decidable.not_not] at hv
      rw [hpk, hv]
    · exact absurd rfl hv
  have hmain : (∀ K, P.combine [share1, share2, share3For P B p'] = some K → K.length = 32 →
        P.fromRawEd25519Seed K ≠ some B.cardPublicKey) →
      reconstructAndVerify P key B B.share2 p' = .rejected 500 reconstructError ∨
      reconstructAndVerify P key B B.share2 p'
        = .rejected 401 "Invalid PIN or corrupted shares" := by
    intro h
    rw [hrun]
    cases hcomb : P.combine [share1, share2, share3For P B p'] with
    | none => exact Or.inl rfl
    | some K =>
      by_cases hl : K.length = 32
      · by_cases hv : verifyKey P K B.cardPublicKey = false
        · simp [hl, hv]
        · exact absurd (hverify K hv) (h K hcomb hl)
      · simp [hl]
  refine ⟨hshare, ?_, hmain, ?_, ?_⟩
  · intro hlen hks heq
    apply hks
    have hl1 : (deriveKeyFromPIN P p' B.share3Salt (some share3.length)).length
        = (xorLoop share3 (deriveKeyFromPIN P p B.share3Salt (some share3.length))).length := by
      simp [deriveKeyFromPIN, hlen _ _ _ _ _, xorLoop_length]
    have hl2 : (deriveKeyFromPIN P p B.share3Salt (some share3.length)).length
        = (xorLoop share3 (deriveKeyFromPIN P p B.share3Salt (some share3.length))).length := by
      simp [deriveKeyFromPIN, hlen _ _ _ _ _, xorLoop_length]
    apply xorLoop_key_injective _ _ _ hl1 hl2
    rw [← hshare, heq]
    exact (xorLoopFrom_involutive _ _ 0).symm
  · intro hone hne
    apply hmain
    intro K hcomb _ hpk
    exact hne (hone K hpk ▸ hcomb)
  · intro K hK
    rw [hrun] at hK
    cases hcomb : P.combine [share1, share2, share3For P B p'] with
    | none => simp [hcomb] at hK
    | some K2 =>
      by_cases hl : K2.length = 32
      · by_cases hv : verifyKey P K2 B.cardPublicKey = false
        · simp [hcomb, hl, hv] at hK
        · have hv2 : verifyKey P K2 B.cardPublicKey = true := by simpa using hv
          simp only [hcomb, hl, ne_eq, not_true_eq_false, if_false, hv2,
            Bool.true_eq_false, AuthOutcome.verified.injEq] at hK
          subst hK
          exact ⟨rfl, hl, hverify K2 hv⟩
      · simp [hcomb, hl] at hK

/-- On the reference platform a seed is read off its address. -/
theorem refPlatform_seed_of_address (K K2 : Buffer) (pk : String)
    (h1 : refPlatform.fromRawEd25519Seed K = some pk)
    (h2 : refPlatform.fromRawEd25519Seed K2 = some pk) : K = K2 := by
  have e : ∀ S : Buffer, refPlatform.fromRawEd25519Seed S = refPublicKey S := fun _ => rfl
  rw [e] at h1 h2
  unfold refPublicKey at h1 h2
  split at h1
  · split at h2
    · rw [← h2] at h1
      simp only [Option.some.injEq] at h1
      have h3 : toHex K = toHex K2 := by
        have := congrArg String.data h1
        simp only [String.data_append] at this
        exact String.ext (List.append_cancel_left this)
      rw [← fromHex_toHex K, h3, fromHex_toHex]
    · simp at h2
  · simp at h1

/-- Witness of C2 as amended, on the reference platform: the sample bundle, generated for
PIN 1234, and the wrong PIN 9999.  The shares recombine to another key than the secret,
and the request is rejected with status 401. -/
theorem wrong_pin_rejected_witness :
    generateAndSplitKey refPlatform sampleEnv sampleKey sampleEntropy "1234" = .ok sampleBundle ∧
    (reconstructAndVerify refPlatform sampleKey sampleBundle sampleBundle.share2 "9999"
        = .rejected 500 reconstructError ∨
      reconstructAndVerify refPlatform sampleKey sampleBundle sampleBundle.share2 "9999"
        = .rejected 401 "Invalid PIN or corrupted shares") ∧
    reconstructAndVerify refPlatform sampleKey sampleBundle sampleBundle.share2 "9999"
      = .rejected 401 "Invalid PIN or corrupted shares" :=
  ⟨by decide,
    (wrong_pin_rejected refPlatform refPlatform_cipherRoundTrip refPlatform_zlibRoundTrip
      sampleEnv sampleKey (by decide) sampleEntropy (by decide) "1234" "9999" sampleBundle
      (by decide)
      (byteOfNat 1 :: shareValues 2 1 sampleEntropy.seed sampleEntropy.splitRandom)
      (byteOfNat 2 :: shareValues 2 2 sampleEntropy.seed sampleEntropy.splitRandom)
      (byteOfNat 3 :: shareValues 2 3 sampleEntropy.seed sampleEntropy.splitRandom)
      [] (by decide)).2.2.2.1
      (fun K hK => refPlatform_seed_of_address K sampleEntropy.seed
        sampleBundle.cardPublicKey hK (by decide))
      (by decide),
    by decide⟩

/-- Counterexample to C2 as stated: the bundle is generated for PIN 1234 from a draw of
random values, and the request carries the PIN 9999.  Unmasked with 9999, the stored share
3 is the share with index 169 of the same split, so shares 1, 2 and it recombine to the
secret, `verifyKey` finds the card's address and the handler goes on with the key. -/
theorem wrong_pin_unmasks_a_share :
    generateAndSplitKey refPlatform sampleEnv sampleKey collidingEntropy "1234"
      = .ok collidingBundle ∧
    "9999" ≠ "1234" ∧
    share3For refPlatform collidingBundle "9999"
      = byteOfNat 169
          :: shareValues 2 169 collidingEntropy.seed collidingEntropy.splitRandom ∧
    reconstructAndVerify refPlatform sampleKey collidingBundle collidingBundle.share2 "9999"
      = .verified collidingEntropy.seed := by
  decide

end StarSwipe
